import Mathlib

/-!
# app-exposer: status publishing, pod-event mapping and resource upserts

A shallow embedding of `status.go`, `viceconfigmaps.go`, `vicedeployments.go`
and `internal/internal.go`.

* Go `error` values are `Option String` (`none` is `nil`).
* Go maps are association lists with first-match lookup.
* A Go run-time panic (index out of range, nil dereference) is `Except.error`.
* Calls on an interface or on the cluster client are recorded in a trace, and
  the callee is a state-passing function supplied by the caller.
* Library calls (`net/http`, `net/url`, `encoding/json`, `slug`, `jobtmpl`,
  the database) are fields of a dependency record.
-/

set_option linter.dupNamespace false

namespace AppExposer

/-! ## Go values -/

/-- A Go `error`: `none` is `nil`. -/
abbrev GoError := Option String

/-- Go `v, ok := m[k]` on a map kept as an association list. -/
def mapLookup : List (String × String) → String → Option String
  | [], _ => none
  | (k', v) :: rest, k => if k' = k then some v else mapLookup rest k

/-- Go `m[k]`: the zero value `""` when the key is absent. -/
def mapIndex (m : List (String × String)) (k : String) : String :=
  (mapLookup m k).getD ""

/-- The function `errors.Wrapf` of `github.com/pkg/errors`: "If err is nil, Wrapf
returns nil"; otherwise the formatted message is put in front of the cause. -/
def Wrapf (err : GoError) (msg : String) : GoError :=
  match err with
  | none => none
  | some e => some (msg ++ ": " ++ e)

/-! ## status.go: the job-status-listener publisher -/

/-- The three `messaging.JobState` values the publisher sends. -/
inductive JobState
  | FailedState
  | SucceededState
  | RunningState
deriving DecidableEq, Repr

/-- The string behind a `messaging.JobState`. -/
def JobState.text : JobState → String
  | .FailedState => "Failed"
  | .SucceededState => "Completed"
  | .RunningState => "Running"

/-- The status document `AnalysisStatus`. -/
structure AnalysisStatus where
  Host : String
  State : JobState
  Message : String
deriving DecidableEq, Repr

/-- The part of `url.URL` that `postStatus` touches. -/
structure URL where
  Scheme : String
  Host : String
  Path : String
deriving DecidableEq, Repr

/-- The part of `http.Response` that `postStatus` reads. -/
structure Response where
  StatusCode : Int
  Body : String
deriving DecidableEq, Repr

/-- Library calls made by `postStatus`: `os.Hostname` (through `hostname()`),
`url.Parse`, `path.Join`, `URL.String`, `json.Marshal` and `http.Post`. -/
structure HTTPDeps where
  hostname : String
  urlParse : String → Except String URL
  pathJoin : String → String → String
  urlString : URL → String
  jsonMarshal : AnalysisStatus → Except String String
  httpPost : String → String → String → Except String Response

/-- The struct `JSLPublisher`. -/
structure JSLPublisher where
  statusURL : String
deriving DecidableEq, Repr

/-- The method `JSLPublisher.postStatus` (status.go 45-96). In the last branch the
variable `err` still holds the `nil` that `http.Post` returned. -/
def JSLPublisher.postStatus (h : HTTPDeps) (j : JSLPublisher) (jobID msg : String)
    (jobState : JobState) : GoError :=
  let status : AnalysisStatus := ⟨h.hostname, jobState, msg⟩
  match h.urlParse j.statusURL with
  | .error err =>
    Wrapf (some err)
      ("error parsing URL " ++ j.statusURL ++ " for job " ++ jobID ++ " before posting "
        ++ jobState.text ++ " status")
  | .ok u0 =>
    let u : URL := ⟨u0.Scheme, u0.Host, h.pathJoin jobID "status"⟩
    match h.jsonMarshal status with
    | .error err =>
      Wrapf (some err)
        ("error marshalling JSON for analysis " ++ jobID ++ " before posting "
          ++ jobState.text ++ " status")
    | .ok js =>
      match h.httpPost (h.urlString u) "application/json" js with
      | .error err =>
        Wrapf (some err)
          ("error returned posting " ++ jobState.text ++ " status for job " ++ jobID
            ++ " to " ++ h.urlString u)
      | .ok response =>
        let err : GoError := none
        if response.StatusCode < 200 ∨ response.StatusCode > 399 then
          Wrapf err
            ("error status code " ++ toString response.StatusCode ++ " returned after posting "
              ++ jobState.text ++ " status for job " ++ jobID ++ " to " ++ h.urlString u
              ++ ": " ++ response.Body)
        else
          none

/-- The method `JSLPublisher.Fail`. -/
def JSLPublisher.Fail (h : HTTPDeps) (j : JSLPublisher) (jobID msg : String) : GoError :=
  j.postStatus h jobID msg .FailedState

/-- The method `JSLPublisher.Success`. -/
def JSLPublisher.Success (h : HTTPDeps) (j : JSLPublisher) (jobID msg : String) : GoError :=
  j.postStatus h jobID msg .SucceededState

/-- The method `JSLPublisher.Running`. -/
def JSLPublisher.Running (h : HTTPDeps) (j : JSLPublisher) (jobID msg : String) : GoError :=
  j.postStatus h jobID msg .RunningState

/-! ## status.go: pod events -/

/-- One call on the `AnalysisStatusPublisher` interface. -/
inductive PublisherCall
  | Fail (jobID msg : String)
  | Success (jobID msg : String)
  | Running (jobID msg : String)
deriving DecidableEq, Repr

/-- The interface `AnalysisStatusPublisher`; an implementation may keep state `σ`. -/
structure AnalysisStatusPublisher (σ : Type) where
  Fail : String → String → σ → GoError × σ
  Success : String → String → σ → GoError × σ
  Running : String → String → σ → GoError × σ

/-- The publisher state together with the calls made so far, oldest first. -/
structure PubWorld (σ : Type) where
  st : σ
  calls : List PublisherCall

/-- Perform one interface call and record it. -/
def AnalysisStatusPublisher.invoke {σ : Type} (p : AnalysisStatusPublisher σ)
    (c : PublisherCall) (w : PubWorld σ) : GoError × PubWorld σ :=
  match c with
  | .Fail jobID msg => ((p.Fail jobID msg w.st).1, ⟨(p.Fail jobID msg w.st).2, w.calls ++ [c]⟩)
  | .Success jobID msg =>
    ((p.Success jobID msg w.st).1, ⟨(p.Success jobID msg w.st).2, w.calls ++ [c]⟩)
  | .Running jobID msg =>
    ((p.Running jobID msg w.st).1, ⟨(p.Running jobID msg w.st).2, w.calls ++ [c]⟩)

/-- The HTTP-backed publisher as an implementation of the interface. -/
def JSLPublisher.asPublisher (h : HTTPDeps) (j : JSLPublisher) : AnalysisStatusPublisher Unit where
  Fail := fun jobID msg s => (j.Fail h jobID msg, s)
  Success := fun jobID msg s => (j.Success h jobID msg, s)
  Running := fun jobID msg s => (j.Running h jobID msg, s)

/-- The `apiv1.PodStatus` fields read by the handler. -/
structure PodStatus where
  Phase : String
  Reason : String
deriving DecidableEq, Repr

/-- The `apiv1.Pod` fields read by the handler; `DeletionTimestamp` is a pointer. -/
structure Pod where
  Name : String
  Labels : List (String × String)
  DeletionTimestamp : Option Int
  Status : PodStatus
deriving DecidableEq, Repr

/-- The constant `apiv1.PodPending`. -/
def PodPending : String := "Pending"
/-- The constant `apiv1.PodRunning`. -/
def PodRunning : String := "Running"
/-- The constant `apiv1.PodSucceeded`. -/
def PodSucceeded : String := "Succeeded"
/-- The constant `apiv1.PodFailed`. -/
def PodFailed : String := "Failed"

/-- The message built for a succeeded pod. -/
def podCompletedMsg (podName analysisName : String) : String :=
  "pod " ++ podName ++ " marked Completed for analysis " ++ analysisName

/-- The message built for a failed pod. -/
def podFailedMsg (podName analysisName reason : String) : String :=
  "pod " ++ podName ++ " of analysis " ++ analysisName ++ " failed. Reason: " ++ reason

/-- The message built in the `default` branch. -/
def podUnknownMsg (podName analysisName reason : String) : String :=
  "pod " ++ podName ++ " of analysis " ++ analysisName
    ++ " is in an unknown state. Marking as failed. Reason: " ++ reason

/-- The method `ExposerApp.eventPodModified` (status.go 301-351). The `switch` tries its
cases from top to bottom. -/
def eventPodModified {σ : Type} (statusPublisher : AnalysisStatusPublisher σ) (pod : Pod)
    (jobID : String) (w : PubWorld σ) : GoError × PubWorld σ :=
  let analysisName := mapIndex pod.Labels "analysis-name"
  if pod.DeletionTimestamp.isSome then
    (none, w)
  else if pod.Status.Phase = PodSucceeded then
    statusPublisher.invoke (.Success jobID (podCompletedMsg pod.Name analysisName)) w
  else if pod.Status.Phase = PodRunning then
    (none, w)
  else if pod.Status.Phase = PodFailed then
    statusPublisher.invoke (.Fail jobID (podFailedMsg pod.Name analysisName pod.Status.Reason)) w
  else if pod.Status.Phase = PodPending then
    (none, w)
  else
    statusPublisher.invoke (.Fail jobID (podUnknownMsg pod.Name analysisName pod.Status.Reason)) w

/-! ## model.Job -/

/-- Outcome of Go code that either returns an `error` or stops with a run-time panic. -/
inductive Fault
  | err (msg : String)
  | panic (msg : String)
deriving DecidableEq, Repr

/-- A value, a returned error, or a panic. -/
abbrev Result (α : Type) := Except Fault α

/-- The struct `model.Ports`. -/
structure Ports where
  ContainerPort : Int
deriving DecidableEq, Repr

/-- The struct `model.ContainerImage`. -/
structure ContainerImage where
  Name : String
  Tag : String
deriving DecidableEq, Repr

/-- The struct `model.Container`, with the fields the builders read. -/
structure Container where
  Image : ContainerImage
  EntryPoint : String
  Ports : List Ports
  UID : Int
deriving DecidableEq, Repr

/-- The struct `model.StepComponent`. -/
structure StepComponent where
  Container : Container
deriving DecidableEq, Repr

/-- The struct `model.StepInput`; an input with a non-empty `Ticket` is "ticketed". -/
structure StepInput where
  Value : String
  Ticket : String
deriving DecidableEq, Repr

/-- The struct `model.StepConfig`. -/
structure StepConfig where
  Inputs : List StepInput
deriving DecidableEq, Repr

/-- The struct `model.Step`; `Arguments` holds what the method `Step.Arguments()` returns. -/
structure Step where
  Component : StepComponent
  Config : StepConfig
  Arguments : List String
deriving DecidableEq, Repr

/-- The struct `model.Job`, with the fields the builders read. -/
structure Job where
  InvocationID : String
  Name : String
  UserID : String
  AppName : String
  AppID : String
  Submitter : String
  Steps : List Step
deriving DecidableEq, Repr

/-- The method `Job.Inputs`: the inputs of all steps, in step order. -/
def Job.Inputs (job : Job) : List StepInput :=
  job.Steps.flatMap fun step => step.Config.Inputs

/-- The method `Job.FilterInputsWithoutTickets`: the inputs whose ticket is empty. -/
def Job.FilterInputsWithoutTickets (job : Job) : List StepInput :=
  job.Inputs.filter fun input => input.Ticket = ""

/-- Go `job.Steps[0]`. -/
def firstStep (job : Job) : Result Step :=
  match job.Steps with
  | [] => .error (.panic "index out of range [0] with length 0")
  | step :: _ => .ok step

/-- Go `step.Component.Container.Ports[0]`. -/
def firstPort (step : Step) : Result Ports :=
  match step.Component.Container.Ports with
  | [] => .error (.panic "index out of range [0] with length 0")
  | p :: _ => .ok p

/-! ## Kubernetes objects -/

/-- The struct `apiv1.ConfigMap`, with name, labels and data. -/
structure ConfigMap where
  Name : String
  Labels : List (String × String)
  Data : List (String × String)
deriving DecidableEq, Repr

/-- The struct `apiv1.ContainerPort`. -/
structure ContainerPort where
  Name : String
  ContainerPort : Int
  Protocol : String
deriving DecidableEq, Repr

/-- The struct `apiv1.SecurityContext`: user, group and dropped capabilities. -/
structure SecurityContext where
  RunAsUser : Option Int
  RunAsGroup : Option Int
  CapabilitiesDrop : List String
deriving DecidableEq, Repr

/-- An HTTP-GET readiness probe (`apiv1.Probe`). -/
structure Probe where
  Port : Int
  Scheme : String
  Path : String
deriving DecidableEq, Repr

/-- The struct `apiv1.VolumeMount`. -/
structure VolumeMount where
  Name : String
  MountPath : String
  ReadOnly : Bool
deriving DecidableEq, Repr

/-- The struct `apiv1.Container`. -/
structure PodContainer where
  Name : String
  Image : String
  Command : List String
  ImagePullPolicy : String
  WorkingDir : String
  VolumeMounts : List VolumeMount
  Ports : List ContainerPort
  SecurityContext : SecurityContext
  ReadinessProbe : Probe
deriving DecidableEq, Repr

/-- The sources of `apiv1.VolumeSource` that the builders use. -/
inductive VolumeSource
  | ConfigMap (name : String)
  | EmptyDir
  | Secret (secretName : String)
deriving DecidableEq, Repr

/-- The struct `apiv1.Volume`. -/
structure Volume where
  Name : String
  VolumeSource : VolumeSource
deriving DecidableEq, Repr

/-- The struct `apiv1.PodSecurityContext`. -/
structure PodSecurityContext where
  RunAsUser : Option Int
  RunAsGroup : Option Int
  FSGroup : Option Int
deriving DecidableEq, Repr

/-- The struct `apiv1.PodSpec`. -/
structure PodSpec where
  RestartPolicy : String
  Volumes : List Volume
  Containers : List PodContainer
  SecurityContext : PodSecurityContext
deriving DecidableEq, Repr

/-- The struct `apiv1.PodTemplateSpec`. -/
structure PodTemplateSpec where
  Labels : List (String × String)
  Spec : PodSpec
deriving DecidableEq, Repr

/-- The struct `metav1.LabelSelector`. -/
structure LabelSelector where
  MatchLabels : List (String × String)
deriving DecidableEq, Repr

/-- The struct `appsv1.DeploymentSpec`. -/
structure DeploymentSpec where
  Replicas : Option Int
  Selector : LabelSelector
  Template : PodTemplateSpec
deriving DecidableEq, Repr

/-- The struct `appsv1.DeploymentStatus`. -/
structure DeploymentStatus where
  ReadyReplicas : Int
deriving DecidableEq, Repr

/-- The struct `appsv1.Deployment`. -/
structure Deployment where
  Name : String
  Labels : List (String × String)
  Spec : DeploymentSpec
  Status : DeploymentStatus
deriving DecidableEq, Repr

/-- The struct `apiv1.Service`, with name, labels and selector. -/
structure Service where
  Name : String
  Labels : List (String × String)
  Selector : List (String × String)
deriving DecidableEq, Repr

/-- The struct `extv1beta1.IngressRule`. -/
structure IngressRule where
  Host : String
deriving DecidableEq, Repr

/-- The struct `extv1beta1.Ingress`. -/
structure Ingress where
  Name : String
  Labels : List (String × String)
  Rules : List IngressRule
deriving DecidableEq, Repr

/-! ## The cluster client -/

/-- The four resource kinds the service manages. -/
inductive Kind
  | ConfigMap
  | Deployment
  | Service
  | Ingress
deriving DecidableEq, Repr

/-- An object of one of the four kinds. -/
inductive Obj
  | configMap (c : ConfigMap)
  | deployment (d : Deployment)
  | service (s : Service)
  | ingress (g : Ingress)
deriving DecidableEq, Repr

/-- The kind of an object. -/
def Obj.kind : Obj → Kind
  | .configMap _ => .ConfigMap
  | .deployment _ => .Deployment
  | .service _ => .Service
  | .ingress _ => .Ingress

/-- The `ObjectMeta.Name` of an object. -/
def Obj.name : Obj → String
  | .configMap c => c.Name
  | .deployment d => d.Name
  | .service s => s.Name
  | .ingress g => g.Name

/-- The `ObjectMeta.Labels` of an object. -/
def Obj.labels : Obj → List (String × String)
  | .configMap c => c.Labels
  | .deployment d => d.Labels
  | .service s => s.Labels
  | .ingress g => g.Labels

/-- One call on a typed client of `kubernetes.Interface`, all in the namespace
`ViceNamespace`. `Create` and `Update` go to the client of the object's kind. -/
inductive Call
  | Get (k : Kind) (name : String)
  | Create (o : Obj)
  | Update (o : Obj)
  | Delete (k : Kind) (name : String)
  | List (k : Kind) (labelSelector : List (String × String))
deriving DecidableEq, Repr

/-- The kind of client a call goes to. -/
def Call.kind : Call → Kind
  | .Get k _ => k
  | .Create o => o.kind
  | .Update o => o.kind
  | .Delete k _ => k
  | .List k _ => k

/-- What a client call returns: the error and, for `Get` and `List`, the objects. -/
structure Reply where
  err : GoError
  items : List Obj
deriving DecidableEq, Repr

/-- The interface `kubernetes.Interface` as a state-passing function over a cluster
state `σ`. -/
structure Clientset (σ : Type) where
  exec : Call → σ → Reply × σ

/-- A call together with the error it returned. -/
structure Event where
  call : Call
  err : GoError
deriving DecidableEq, Repr

/-- The cluster state together with the client calls made so far, oldest first. -/
structure World (σ : Type) where
  st : σ
  trace : List Event

/-- Perform one client call and record it. -/
def Clientset.run {σ : Type} (c : Clientset σ) (call : Call) (w : World σ) : Reply × World σ :=
  ((c.exec call w.st).1, ⟨(c.exec call w.st).2, w.trace ++ [⟨call, (c.exec call w.st).1.err⟩]⟩)

/-- The events recorded between an earlier world `w` and a later world `w'`. -/
def eventsSince {σ : Type} (w w' : World σ) : List Event :=
  w'.trace.drop w.trace.length

/-- The calls made between an earlier world `w` and a later world `w'`. -/
def callsSince {σ : Type} (w w' : World σ) : List Call :=
  (eventsSince w w').map Event.call

/-! ## Configuration and collaborators -/

/-- The struct `Init`, with `IngressBaseURL`, `AnalysisHeader` and `AccessHeader`, which
`viceProxyCommand` reads from its receiver. -/
structure Init where
  PorklockImage : String
  PorklockTag : String
  InputPathListIdentifier : String
  TicketInputPathListIdentifier : String
  ViceProxyImage : String
  CASBaseURL : String
  FrontendBaseURL : String
  IngressBaseURL : String
  AnalysisHeader : String
  AccessHeader : String
  ViceNamespace : String

/-- Package-level constants that the builders name and whose declarations are in files
outside this development. -/
structure Consts where
  excludesFileName : String
  inputPathListFileName : String
  inputPathListVolumeName : String
  inputPathListMountPath : String
  fileTransfersVolumeName : String
  porklockConfigVolumeName : String
  porklockConfigSecretName : String
  excludesVolumeName : String
  viceProxyContainerName : String
  viceProxyPortName : String
  viceProxyPort : Int
  fileTransfersContainerName : String
  fileTransfersPortName : String
  fileTransfersPort : Int
  analysisContainerName : String

/-- Functions called by the code and declared elsewhere: libraries (`slug.Make`,
`apps.GetUserIP`, `url.Parse`, `jobtmpl.ExcludesFileContents`,
`jobtmpl.InputPathListContents`, `json.Unmarshal`) and helpers of the repository
(`IngressName`, `fileTransferCommand`, `fileTransfersVolumeMounts`,
`fileTransfersMountPath`, `validateJob`, `getService`, `getIngress`). -/
structure Deps where
  slugMake : String → String
  GetUserIP : String → Except String String
  urlParse : String → Except String URL
  urlString : URL → String
  ExcludesFileContents : Job → String
  InputPathListContents : Job → String → String → Except String String
  jsonUnmarshal : String → Except String Job
  IngressName : String → String → String
  fileTransferCommand : Job → List String
  fileTransfersVolumeMounts : Job → List VolumeMount
  fileTransfersMountPath : Job → String
  validateJob : Job → GoError
  getService : Job → Deployment → Except String Service
  getIngress : Job → Service → Except String Ingress

/-- The struct `Internal`: configuration, collaborators and the cluster client. -/
structure Internal (σ : Type) extends Init where
  consts : Consts
  deps : Deps
  clientset : Clientset σ

/-! ## internal.go: labels -/

/-- Go `strings.ReplaceAll(text, "_", "-")`. -/
def replaceUnderscores (text : String) : String :=
  text.map fun c => if c = '_' then '-' else c

/-- The function `slugString` (internal.go 31-35). -/
def slugString {σ : Type} (i : Internal σ) (str : String) : String :=
  replaceUnderscores (i.deps.slugMake str)

/-- The bound `stringmax` computed by `labelsFromJob` from the runes of the job name. -/
def stringmax (name : List Char) : Int :=
  if name.length ≥ 63 then 62 else (name.length : Int) - 1

/-- Go `string(name[:hi])` on a rune slice: a panic when `hi` is negative or beyond the
length. -/
def sliceTo (name : List Char) (hi : Int) : Result String :=
  if hi < 0 ∨ hi > name.length then
    .error (.panic "slice bounds out of range")
  else
    .ok (String.mk (name.take hi.toNat))

/-- The method `Internal.labelsFromJob` (internal.go 78-105). The user IP is looked up
before the map literal, whose values are computed in source order. -/
def labelsFromJob {σ : Type} (i : Internal σ) (job : Job) : Result (List (String × String)) :=
  let name := job.Name.data
  match i.deps.GetUserIP job.UserID with
  | .error err => .error (.err err)
  | .ok ipAddr =>
    match sliceTo name (stringmax name) with
    | .error f => .error f
    | .ok cut =>
      .ok [("external-id", job.InvocationID),
           ("app-name", slugString i job.AppName),
           ("app-id", job.AppID),
           ("username", slugString i job.Submitter),
           ("user-id", job.UserID),
           ("analysis-name", slugString i cut),
           ("app-type", "interactive"),
           ("subdomain", i.deps.IngressName job.UserID job.InvocationID),
           ("login-ip", ipAddr)]

/-! ## viceconfigmaps.go -/

/-- The function `excludesConfigMapName`. -/
def excludesConfigMapName (job : Job) : String :=
  "excludes-file-" ++ job.InvocationID

/-- The function `excludesConfigMap`, with the error result its caller in internal.go
receives from `labelsFromJob`. -/
def excludesConfigMap {σ : Type} (i : Internal σ) (job : Job) : Result ConfigMap :=
  match labelsFromJob i job with
  | .error f => .error f
  | .ok labels =>
    .ok { Name := excludesConfigMapName job
          Labels := labels
          Data := [(i.consts.excludesFileName, i.deps.ExcludesFileContents job)] }

/-- The function `inputPathListConfigMapName`. -/
def inputPathListConfigMapName (job : Job) : String :=
  "input-path-list-" ++ job.InvocationID

/-- The method `inputPathListConfigMap` (viceconfigmaps.go 46-63). -/
def inputPathListConfigMap {σ : Type} (i : Internal σ) (job : Job) : Result ConfigMap :=
  match labelsFromJob i job with
  | .error f => .error f
  | .ok labels =>
    match i.deps.InputPathListContents job i.InputPathListIdentifier
        i.TicketInputPathListIdentifier with
    | .error err => .error (.err err)
    | .ok fileContents =>
      .ok { Name := inputPathListConfigMapName job
            Labels := labels
            Data := [(i.consts.inputPathListFileName, fileContents)] }

/-! ## vicedeployments.go -/

/-- Go conversion `int32(x)` of an `int`. -/
def int32 (x : Int) : Int :=
  (x + 2147483648) % 4294967296 - 2147483648

/-- The function `analysisCommand`. -/
def analysisCommand (step : Step) : List String :=
  let output : List String := []
  let output := if step.Component.Container.EntryPoint ≠ "" then
      output ++ [step.Component.Container.EntryPoint] else output
  if step.Arguments.length ≠ 0 then output ++ step.Arguments else output

/-- The function `analysisPorts`. -/
def analysisPorts (step : Step) : List ContainerPort :=
  step.Component.Container.Ports.mapIdx fun idx p =>
    { ContainerPort := int32 p.ContainerPort
      Name := "tcp-a-" ++ toString idx
      Protocol := "TCP" }

/-- The function `deploymentVolumes` (vicedeployments.go 47-91). -/
def deploymentVolumes {σ : Type} (i : Internal σ) (job : Job) : List Volume :=
  let output : List Volume := []
  let output :=
    if job.FilterInputsWithoutTickets.length > 0 then
      output ++ [{ Name := i.consts.inputPathListVolumeName
                   VolumeSource := .ConfigMap (inputPathListConfigMapName job) }]
    else output
  output ++
    [{ Name := i.consts.fileTransfersVolumeName, VolumeSource := .EmptyDir },
     { Name := i.consts.porklockConfigVolumeName
       VolumeSource := .Secret i.consts.porklockConfigSecretName },
     { Name := i.consts.excludesVolumeName
       VolumeSource := .ConfigMap (excludesConfigMapName job) }]

/-- The method `viceProxyCommand` (vicedeployments.go 93-112). The parse error is dropped,
so a failed parse leaves a nil URL whose `Host` is then read. -/
def viceProxyCommand {σ : Type} (i : Internal σ) (job : Job) : Result (List String) :=
  match i.deps.urlParse i.FrontendBaseURL with
  | .error _ => .error (.panic "invalid memory address or nil pointer dereference")
  | .ok parsed =>
    let frontURL : URL :=
      ⟨parsed.Scheme, i.deps.IngressName job.UserID job.InvocationID ++ "." ++ parsed.Host,
        parsed.Path⟩
    match firstStep job with
    | .error f => .error f
    | .ok step =>
      match firstPort step with
      | .error f => .error f
      | .ok port =>
        .ok ["cas-proxy",
             "--backend-url", "http://localhost:" ++ toString port.ContainerPort,
             "--ws-backend-url", "http://localhost:" ++ toString port.ContainerPort,
             "--cas-base-url", i.CASBaseURL,
             "--cas-validate", "validate",
             "--frontend-url", i.deps.urlString frontURL,
             "--external-id", job.InvocationID,
             "--ingress-url", i.IngressBaseURL,
             "--analysis-header", i.AnalysisHeader,
             "--access-header", i.AccessHeader]

/-- The method `deploymentContainers` (vicedeployments.go 116-245): the proxy sidecar, the
file-transfer sidecar and the analysis container, in that order. -/
def deploymentContainers {σ : Type} (i : Internal σ) (job : Job) : Result (List PodContainer) :=
  match viceProxyCommand i job with
  | .error f => .error f
  | .ok proxyCommand =>
    match firstStep job with
    | .error f => .error f
    | .ok step =>
      match firstPort step with
      | .error f => .error f
      | .ok port =>
        .ok [
          { Name := i.consts.viceProxyContainerName
            Image := i.ViceProxyImage
            Command := proxyCommand
            ImagePullPolicy := "Always"
            WorkingDir := ""
            VolumeMounts := []
            Ports := [{ Name := i.consts.viceProxyPortName
                        ContainerPort := i.consts.viceProxyPort
                        Protocol := "TCP" }]
            SecurityContext :=
              { RunAsUser := some step.Component.Container.UID
                RunAsGroup := some step.Component.Container.UID
                CapabilitiesDrop := ["SETPCAP", "AUDIT_WRITE", "KILL", "SETGID", "SETUID",
                  "SYS_CHROOT", "SETFCAP", "FSETID", "NET_RAW", "MKNOD"] }
            ReadinessProbe := { Port := i.consts.viceProxyPort, Scheme := "HTTP", Path := "/" } },
          { Name := i.consts.fileTransfersContainerName
            Image := i.PorklockImage ++ ":" ++ i.PorklockTag
            Command := i.deps.fileTransferCommand job
            ImagePullPolicy := "Always"
            WorkingDir := i.consts.inputPathListMountPath
            VolumeMounts := i.deps.fileTransfersVolumeMounts job
            Ports := [{ Name := i.consts.fileTransfersPortName
                        ContainerPort := i.consts.fileTransfersPort
                        Protocol := "TCP" }]
            SecurityContext :=
              { RunAsUser := some step.Component.Container.UID
                RunAsGroup := some step.Component.Container.UID
                CapabilitiesDrop := ["SETPCAP", "AUDIT_WRITE", "KILL", "SETGID", "SETUID",
                  "NET_BIND_SERVICE", "SYS_CHROOT", "SETFCAP", "FSETID", "NET_RAW", "MKNOD"] }
            ReadinessProbe :=
              { Port := i.consts.fileTransfersPort, Scheme := "HTTP", Path := "/" } },
          { Name := i.consts.analysisContainerName
            Image := step.Component.Container.Image.Name ++ ":"
              ++ step.Component.Container.Image.Tag
            Command := analysisCommand step
            ImagePullPolicy := ""
            WorkingDir := ""
            VolumeMounts := [{ Name := i.consts.fileTransfersVolumeName
                               MountPath := i.deps.fileTransfersMountPath job
                               ReadOnly := false }]
            Ports := analysisPorts step
            SecurityContext :=
              { RunAsUser := some step.Component.Container.UID
                RunAsGroup := some step.Component.Container.UID
                CapabilitiesDrop := ["SETPCAP", "AUDIT_WRITE", "KILL", "SETGID", "SETUID",
                  "SYS_CHROOT", "SETFCAP", "FSETID", "MKNOD"] }
            ReadinessProbe := { Port := port.ContainerPort, Scheme := "HTTP", Path := "/" } }]

/-- The method `getDeployment` (vicedeployments.go 249-283), with the error result its
caller in internal.go receives from `labelsFromJob`. -/
def getDeployment {σ : Type} (i : Internal σ) (job : Job) : Result Deployment :=
  match labelsFromJob i job with
  | .error f => .error f
  | .ok labels =>
    match deploymentContainers i job with
    | .error f => .error f
    | .ok containers =>
      match firstStep job with
      | .error f => .error f
      | .ok step =>
        .ok { Name := job.InvocationID
              Labels := labels
              Spec :=
                { Replicas := some 1
                  Selector := { MatchLabels := [("external-id", job.InvocationID)] }
                  Template :=
                    { Labels := labels
                      Spec :=
                        { RestartPolicy := "Always"
                          Volumes := deploymentVolumes i job
                          Containers := containers
                          SecurityContext :=
                            { RunAsUser := some step.Component.Container.UID
                              RunAsGroup := some step.Component.Container.UID
                              FSGroup := some step.Component.Container.UID } } } }
              Status := { ReadyReplicas := 0 } }

/-! ## internal.go: upserts and launch -/

/-- A returned Go error as the fault of the calling function. -/
def asFault (err : GoError) : Option Fault :=
  err.map Fault.err

/-- The method `Internal.UpsertExcludesConfigMap` (internal.go 111-133). -/
def UpsertExcludesConfigMap {σ : Type} (i : Internal σ) (job : Job) (w : World σ) :
    Option Fault × World σ :=
  match excludesConfigMap i job with
  | .error f => (some f, w)
  | .ok excludesCM =>
    let got := i.clientset.run (.Get .ConfigMap (excludesConfigMapName job)) w
    match got.1.err with
    | some _ =>
      let made := i.clientset.run (.Create (.configMap excludesCM)) got.2
      (asFault made.1.err, made.2)
    | none =>
      let made := i.clientset.run (.Update (.configMap excludesCM)) got.2
      (asFault made.1.err, made.2)

/-- The method `Internal.UpsertInputPathListConfigMap` (internal.go 139-161). -/
def UpsertInputPathListConfigMap {σ : Type} (i : Internal σ) (job : Job) (w : World σ) :
    Option Fault × World σ :=
  match inputPathListConfigMap i job with
  | .error f => (some f, w)
  | .ok inputCM =>
    let got := i.clientset.run (.Get .ConfigMap (inputPathListConfigMapName job)) w
    match got.1.err with
    | some _ =>
      let made := i.clientset.run (.Create (.configMap inputCM)) got.2
      (asFault made.1.err, made.2)
    | none =>
      let made := i.clientset.run (.Update (.configMap inputCM)) got.2
      (asFault made.1.err, made.2)

/-- The method `Internal.UpsertDeployment`, lines 200-215: the ingress is built from the
service and created when the get by its name fails. -/
def UpsertDeployment.ingressPart {σ : Type} (i : Internal σ) (job : Job) (svc : Service)
    (w : World σ) : Option Fault × World σ :=
  match i.deps.getIngress job svc with
  | .error err => (some (.err err), w)
  | .ok ingress =>
    match (i.clientset.run (.Get .Ingress ingress.Name) w).1.err with
    | some _ =>
      (asFault (i.clientset.run (.Create (.ingress ingress))
          (i.clientset.run (.Get .Ingress ingress.Name) w).2).1.err,
        (i.clientset.run (.Create (.ingress ingress))
          (i.clientset.run (.Get .Ingress ingress.Name) w).2).2)
    | none => (none, (i.clientset.run (.Get .Ingress ingress.Name) w).2)

/-- The method `Internal.UpsertDeployment`, lines 186-215: the service is built from the
deployment and created when the get by the invocation id fails; then the ingress
follows. -/
def UpsertDeployment.servicePart {σ : Type} (i : Internal σ) (job : Job)
    (deployment : Deployment) (w : World σ) : Option Fault × World σ :=
  match i.deps.getService job deployment with
  | .error err => (some (.err err), w)
  | .ok svc =>
    match (i.clientset.run (.Get .Service job.InvocationID) w).1.err with
    | some _ =>
      match (i.clientset.run (.Create (.service svc))
          (i.clientset.run (.Get .Service job.InvocationID) w).2).1.err with
      | some err =>
        (some (.err err),
          (i.clientset.run (.Create (.service svc))
            (i.clientset.run (.Get .Service job.InvocationID) w).2).2)
      | none =>
        UpsertDeployment.ingressPart i job svc
          (i.clientset.run (.Create (.service svc))
            (i.clientset.run (.Get .Service job.InvocationID) w).2).2
    | none =>
      UpsertDeployment.ingressPart i job svc (i.clientset.run (.Get .Service job.InvocationID) w).2

/-- The method `Internal.UpsertDeployment` (internal.go 166-216): the deployment is
created or updated (lines 167-184), then the service and the ingress follow. -/
def UpsertDeployment {σ : Type} (i : Internal σ) (job : Job) (w : World σ) :
    Option Fault × World σ :=
  match getDeployment i job with
  | .error f => (some f, w)
  | .ok deployment =>
    match (i.clientset.run (.Get .Deployment job.InvocationID) w).1.err with
    | some _ =>
      match (i.clientset.run (.Create (.deployment deployment))
          (i.clientset.run (.Get .Deployment job.InvocationID) w).2).1.err with
      | some err =>
        (some (.err err),
          (i.clientset.run (.Create (.deployment deployment))
            (i.clientset.run (.Get .Deployment job.InvocationID) w).2).2)
      | none =>
        UpsertDeployment.servicePart i job deployment
          (i.clientset.run (.Create (.deployment deployment))
            (i.clientset.run (.Get .Deployment job.InvocationID) w).2).2
    | none =>
      match (i.clientset.run (.Update (.deployment deployment))
          (i.clientset.run (.Get .Deployment job.InvocationID) w).2).1.err with
      | some err =>
        (some (.err err),
          (i.clientset.run (.Update (.deployment deployment))
            (i.clientset.run (.Get .Deployment job.InvocationID) w).2).2)
      | none =>
        UpsertDeployment.servicePart i job deployment
          (i.clientset.run (.Update (.deployment deployment))
            (i.clientset.run (.Get .Deployment job.InvocationID) w).2).2

/-- What a handler left behind: it returned normally (status 200 unless a body says
otherwise), it called `http.Error`, or it panicked. -/
inductive Outcome
  | done (body : String)
  | httpError (msg : String) (code : Nat)
  | panicked (msg : String)
deriving DecidableEq, Repr

/-- The handler pattern `if err != nil then http.Error(writer, err.Error(), 500); return`. -/
def serverError (f : Fault) : Outcome :=
  match f with
  | .err msg => .httpError msg 500
  | .panic msg => .panicked msg

/-- A launch request: `Body` is what `ioutil.ReadAll(request.Body)` returns. -/
structure LaunchRequest where
  Body : Except String String

/-- The handler `Internal.VICELaunchApp` (internal.go 221-275). -/
def VICELaunchApp {σ : Type} (i : Internal σ) (request : LaunchRequest) (w : World σ) :
    Outcome × World σ :=
  match request.Body with
  | .error err => (.httpError err 400, w)
  | .ok buf =>
    match i.deps.jsonUnmarshal buf with
    | .error err => (.httpError err 400, w)
    | .ok job =>
      match i.deps.validateJob job with
      | some err => (.httpError err 400, w)
      | none =>
        match (UpsertExcludesConfigMap i job w).1 with
        | some f => (serverError f, (UpsertExcludesConfigMap i job w).2)
        | none =>
          let w1 := (UpsertExcludesConfigMap i job w).2
          match (UpsertInputPathListConfigMap i job w1).1 with
          | some f => (serverError f, (UpsertInputPathListConfigMap i job w1).2)
          | none =>
            let w2 := (UpsertInputPathListConfigMap i job w1).2
            match (UpsertDeployment i job w2).1 with
            | some f => (serverError f, (UpsertDeployment i job w2).2)
            | none => (.done "", (UpsertDeployment i job w2).2)

/-! ## internal.go: exit and status -/

/-- The parts of an `http.Request` the handlers read: the route variables (`mux.Vars`) and
the query values (`request.URL.Query()`). -/
structure Request where
  Vars : List (String × String)
  Query : List (String × List String)
deriving DecidableEq, Repr

/-- The loops `for _, item := range list.Items` of `VICEExit`: each item is deleted by
name; a failed Delete is logged and the loop goes on. -/
def VICEExit.deleteEach {σ : Type} (c : Clientset σ) (k : Kind) :
    List Obj → World σ → World σ
  | [], w => w
  | item :: rest, w => VICEExit.deleteEach c k rest (c.run (.Delete k item.name) w).2

/-- The handler `Internal.VICEExit` (internal.go 298-364): ingresses, services,
deployments and config maps labelled with the id are listed and deleted, in that order;
a failed list ends the handler with status 500. -/
def VICEExit {σ : Type} (i : Internal σ) (request : Request) (w : World σ) :
    Outcome × World σ :=
  let id := mapIndex request.Vars "id"
  let listoptions : List (String × String) := [("external-id", id)]
  let ingresslist := i.clientset.run (.List .Ingress listoptions) w
  match ingresslist.1.err with
  | some err => (.httpError err 500, ingresslist.2)
  | none =>
    let w1 := VICEExit.deleteEach i.clientset .Ingress ingresslist.1.items ingresslist.2
    let svclist := i.clientset.run (.List .Service listoptions) w1
    match svclist.1.err with
    | some err => (.httpError err 500, svclist.2)
    | none =>
      let w2 := VICEExit.deleteEach i.clientset .Service svclist.1.items svclist.2
      let deplist := i.clientset.run (.List .Deployment listoptions) w2
      match deplist.1.err with
      | some err => (.httpError err 500, deplist.2)
      | none =>
        let w3 := VICEExit.deleteEach i.clientset .Deployment deplist.1.items deplist.2
        let cmlist := i.clientset.run (.List .ConfigMap listoptions) w3
        match cmlist.1.err with
        | some err => (.httpError err 500, cmlist.2)
        | none =>
          (.done "", VICEExit.deleteEach i.clientset .ConfigMap cmlist.1.items cmlist.2)

/-- The `Spec.Rules` of a listed ingress. -/
def Obj.rules : Obj → List IngressRule
  | .ingress g => g.Rules
  | _ => []

/-- The `Status.ReadyReplicas` of a listed deployment. -/
def Obj.readyReplicas : Obj → Int
  | .deployment d => d.Status.ReadyReplicas
  | _ => 0

/-- The method `Internal.getIDFromHost` (internal.go 366-382): the name of the first
listed ingress that has a rule for the host. -/
def getIDFromHost {σ : Type} (i : Internal σ) (host : String) (w : World σ) :
    Except String String × World σ :=
  let ingresslist := i.clientset.run (.List .Ingress []) w
  match ingresslist.1.err with
  | some err => (.error err, ingresslist.2)
  | none =>
    match ingresslist.1.items.find? fun ingress =>
        ingress.rules.any fun rule => decide (rule.Host = host) with
    | some ingress => (.ok ingress.name, ingresslist.2)
    | none => (.error ("no ingress found for host " ++ host), ingresslist.2)

/-- The JSON text of `map[string]bool` with the one key "ready". -/
def readyBody (ready : Bool) : String :=
  "\x7b\"ready\":" ++ (if ready then "true" else "false") ++ "\x7d"

/-- The handler `Internal.VICEStatus` (internal.go 388-450). Marshalling a
`map[string]bool` has no error case. -/
def VICEStatus {σ : Type} (i : Internal σ) (request : Request) (w : World σ) :
    Outcome × World σ :=
  let host := mapIndex request.Vars "host"
  let found := getIDFromHost i host w
  match found.1 with
  | .error err => (.httpError err 404, found.2)
  | .ok id =>
    let ingressExists := true
    let listoptions : List (String × String) := [("external-id", id)]
    let svclist := i.clientset.run (.List .Service listoptions) found.2
    match svclist.1.err with
    | some err => (.httpError err 500, svclist.2)
    | none =>
      let serviceExists := decide (svclist.1.items.length > 0)
      let deplist := i.clientset.run (.List .Deployment listoptions) svclist.2
      match deplist.1.err with
      | some err => (.httpError err 500, deplist.2)
      | none =>
        let podReady := deplist.1.items.any fun dep => decide (dep.readyReplicas > 0)
        (.done (readyBody (ingressExists && serviceExists && podReady)), deplist.2)

/-- What `VICESaveAndExit` needs from the file-transfer code, which is declared elsewhere:
the method `doFileTransfer` (request, base path, kind, async flag) and the two constants of
an upload. -/
structure Transfers (σ : Type) where
  doFileTransfer : Request → String → String → Bool → World σ → GoError × World σ
  uploadBasePath : String
  uploadKind : String

/-- The function literal that `Internal.VICESaveAndExit` starts with `go` (internal.go
460-475): a blocking upload whose error is logged, then `VICEExit`. -/
def VICESaveAndExit.task {σ : Type} (i : Internal σ) (t : Transfers σ) (request : Request)
    (w : World σ) : Outcome × World σ :=
  match (t.doFileTransfer request t.uploadBasePath t.uploadKind false w).1 with
  | some _ =>
    VICEExit i request (t.doFileTransfer request t.uploadBasePath t.uploadKind false w).2
  | none =>
    VICEExit i request (t.doFileTransfer request t.uploadBasePath t.uploadKind false w).2

/-! ## internal.go: time limits -/

/-- The struct `pq.NullTime`; `Time` is in Unix seconds. -/
structure NullTime where
  Time : Int
  Valid : Bool
deriving DecidableEq, Repr

/-- The database and library calls of the time-limit handlers: the three queries with their
`Scan` (`getUserIDSQL`, `updateTimeLimitSQL`, `getTimeLimitSQL`), `NullTime.Value`
followed by `Unix()`, and `json.Marshal` of the output map. -/
structure TimeLimitDB where
  queryUserID : String → Except String String
  queryUpdateTimeLimit : String → String → Except String NullTime
  queryGetTimeLimit : String → String → Except String NullTime
  timeValue : NullTime → Except String Int
  jsonMarshal : List (String × String) → Except String String

/-- Go `v, found := m[k]` on `url.Values`. -/
def queryLookup : List (String × List String) → String → Option (List String)
  | [], _ => none
  | (k', v) :: rest, k => if k' = k then some v else queryLookup rest k

/-- The user name with the domain the handlers append when it is missing. -/
def withUserDomain (user : String) : String :=
  if "@iplantcollaborative.org".data.isSuffixOf user.data then user
  else user ++ "@iplantcollaborative.org"

/-- The handler `Internal.VICETimeLimitUpdate` (internal.go 503-564). In the branch of a
null time limit the variable `err` is `nil`, so `errors.Wrapf(err, ...)` is `nil` and
calling `Error()` on it panics. -/
def VICETimeLimitUpdate (db : TimeLimitDB) (request : Request) : Outcome :=
  match queryLookup request.Query "user" with
  | none => .httpError "user is not set" 403
  | some [] => .panicked "index out of range [0] with length 0"
  | some (first :: _) =>
    let user := withUserDomain first
    match mapLookup request.Vars "analysis-id" with
    | none => .httpError "id parameter is empty" 400
    | some id =>
      match db.queryUserID user with
      | .error err => .httpError ("error looking user ID for " ++ user ++ ": " ++ err) 400
      | .ok userID =>
        match db.queryUpdateTimeLimit userID id with
        | .error err =>
          .httpError ("error extending time limit for user " ++ userID ++ " on analysis "
            ++ id ++ ": " ++ err) 400
        | .ok newTimeLimit =>
          if newTimeLimit.Valid then
            match db.timeValue newTimeLimit with
            | .error err =>
              .httpError ("error getting new time limit for user " ++ userID
                ++ " on analysis " ++ id ++ ": " ++ err) 500
            | .ok v =>
              match db.jsonMarshal [("time_limit", toString v)] with
              | .error err =>
                .httpError ("error marshalling the JSON for the new time limit for analysis "
                  ++ id ++ ": " ++ err) 500
              | .ok outputJSON => .done outputJSON
          else
            .panicked "invalid memory address or nil pointer dereference"

/-- The handler `Internal.VICEGetTimeLimit` (internal.go 567-627). -/
def VICEGetTimeLimit (db : TimeLimitDB) (request : Request) : Outcome :=
  match queryLookup request.Query "user" with
  | none => .httpError "user is not set" 403
  | some [] => .panicked "index out of range [0] with length 0"
  | some (first :: _) =>
    let user := withUserDomain first
    match mapLookup request.Vars "analysis-id" with
    | none => .httpError "id parameter is empty" 400
    | some id =>
      match db.queryUserID user with
      | .error err => .httpError ("error looking user ID for " ++ user ++ ": " ++ err) 400
      | .ok userID =>
        match db.queryGetTimeLimit userID id with
        | .error err =>
          .httpError ("error retrieving time limit for user " ++ userID ++ " on analysis "
            ++ id ++ ": " ++ err) 400
        | .ok timeLimit =>
          if timeLimit.Valid then
            match db.timeValue timeLimit with
            | .error err =>
              .httpError ("error getting time limit for user " ++ userID ++ " on analysis "
                ++ id ++ ": " ++ err) 500
            | .ok v =>
              match db.jsonMarshal [("time_limit", toString v)] with
              | .error err =>
                .httpError ("error marshalling the JSON for the time limit for analysis "
                  ++ id ++ ": " ++ err) 500
              | .ok outputJSON => .done outputJSON
          else
            match db.jsonMarshal [("time_limit", "null")] with
            | .error err =>
              .httpError ("error marshalling the JSON for the time limit for analysis "
                ++ id ++ ": " ++ err) 500
            | .ok outputJSON => .done outputJSON

/-! ## The cluster as a store keyed by kind and name -/

/-- The objects held by the cluster. -/
abbrev Store := List Obj

/-- Whether an object has the given kind and name. -/
def Obj.hasKey (o : Obj) (k : Kind) (name : String) : Bool :=
  decide (o.kind = k ∧ o.name = name)

/-- The stored object of a kind and name, if any. -/
def Store.lookup (s : Store) (k : Kind) (name : String) : Option Obj :=
  List.find? (fun o => o.hasKey k name) s

/-- Put `o` in the place of every stored object with the kind and name of `o`. -/
def Store.replace (s : Store) (o : Obj) : Store :=
  s.map fun x => if x.hasKey o.kind o.name then o else x

/-- How many stored objects have the given kind and name. -/
def Store.countNamed (s : Store) (k : Kind) (name : String) : Nat :=
  s.countP fun o => o.hasKey k name

/-- A store is keyed when no kind and name is held twice. -/
def Store.Keyed (s : Store) : Prop :=
  ∀ k name, s.countNamed k name ≤ 1

/-- Whether labels satisfy an equality selector. -/
def selects (labelSelector labels : List (String × String)) : Bool :=
  labelSelector.all fun kv => decide (mapLookup labels kv.1 = some kv.2)

/-- The store as a cluster client: `Get` succeeds iff the key is present, `Create` adds an
absent key and fails on a present one, `Update` replaces a present key and fails on an
absent one, `Delete` removes a present key, `List` filters by kind and selector. -/
def k8sStore : Clientset Store where
  exec := fun call s =>
    match call with
    | .Get k name =>
      match s.lookup k name with
      | some o => (⟨none, [o]⟩, s)
      | none => (⟨some "not found", []⟩, s)
    | .Create o =>
      match s.lookup o.kind o.name with
      | some _ => (⟨some "already exists", []⟩, s)
      | none => (⟨none, [o]⟩, s ++ [o])
    | .Update o =>
      match s.lookup o.kind o.name with
      | some _ => (⟨none, [o]⟩, s.replace o)
      | none => (⟨some "not found", []⟩, s)
    | .Delete k name =>
      match s.lookup k name with
      | some _ => (⟨none, []⟩, s.filter fun o => !o.hasKey k name)
      | none => (⟨some "not found", []⟩, s)
    | .List k labelSelector =>
      (⟨none, s.filter fun o => decide (o.kind = k) && selects labelSelector o.labels⟩, s)

/-- The store reached by "get by name, then create when absent and update when present". -/
def Store.upsert (s : Store) (o : Obj) : Store :=
  if (s.lookup o.kind o.name).isSome then s.replace o else s ++ [o]

/-- The store reached by "get `name`, then create `o` when the get fails": `none` when the
create is refused because the key of `o` is taken. -/
def Store.ensure (s : Store) (k : Kind) (name : String) (o : Obj) : Option Store :=
  if (s.lookup k name).isSome then some s
  else if (s.lookup o.kind o.name).isSome then none
  else some (s ++ [o])

/-- The store holds `o` under its key, and nothing else under that key. -/
def Store.Holds (s : Store) (o : Obj) : Prop :=
  (s.lookup o.kind o.name).isSome = true ∧ ∀ x ∈ s, x.hasKey o.kind o.name = true → x = o

/-- The objects of kind `k` in the store. -/
def Store.ofKind (s : Store) (k : Kind) : List Obj :=
  s.filter fun o => decide (o.kind = k)

/-! ## Views of the trace and effects on the store -/

/-- The events of "get, then create when the get fails": nothing, a successful get, or a
failed get followed by a create of an object of the kind. -/
def EnsureShape (k : Kind) (evs : List Event) : Prop :=
  evs = [] ∨ (∃ n, evs = [⟨.Get k n, none⟩]) ∨
    ∃ n e o r, o.kind = k ∧ evs = [⟨.Get k n, some e⟩, ⟨.Create o, r⟩]

/-- The calls in a list that go to the client of kind `k`. -/
def callsOfKind (k : Kind) (cs : List Call) : List Call :=
  cs.filter fun c => decide (c.kind = k)

/-- Whether a Create or an Update of a config map with the given name is among the
calls. -/
def putsConfigMap (name : String) (cs : List Call) : Bool :=
  cs.any fun c =>
    match c with
    | .Create (.configMap cm) => decide (cm.Name = name)
    | .Update (.configMap cm) => decide (cm.Name = name)
    | _ => false

/-- The effect of `UpsertDeployment.ingressPart` on the store. -/
def ingressStore {σ : Type} (i : Internal σ) (job : Job) (svc : Service) (s : Store) :
    Option Fault × Store :=
  match i.deps.getIngress job svc with
  | .error err => (some (.err err), s)
  | .ok ingress =>
    match s.ensure .Ingress ingress.Name (.ingress ingress) with
    | none => (some (.err "already exists"), s)
    | some s' => (none, s')

/-- The effect of `UpsertDeployment.servicePart` on the store. -/
def serviceStore {σ : Type} (i : Internal σ) (job : Job) (deployment : Deployment)
    (s : Store) : Option Fault × Store :=
  match i.deps.getService job deployment with
  | .error err => (some (.err err), s)
  | .ok svc =>
    match s.ensure .Service job.InvocationID (.service svc) with
    | none => (some (.err "already exists"), s)
    | some s' => ingressStore i job svc s'

/-- The effect of `UpsertDeployment` on the store. -/
def deploymentStore {σ : Type} (i : Internal σ) (job : Job) (s : Store) :
    Option Fault × Store :=
  match getDeployment i job with
  | .error f => (some f, s)
  | .ok deployment => serviceStore i job deployment (s.upsert (.deployment deployment))

/-- The effect on the store of the three upserts of `VICELaunchApp`, in order. -/
def launchStore {σ : Type} (i : Internal σ) (job : Job) (s : Store) : Option Fault × Store :=
  match excludesConfigMap i job with
  | .error f => (some f, s)
  | .ok excludesCM =>
    match inputPathListConfigMap i job with
    | .error f => (some f, s.upsert (.configMap excludesCM))
    | .ok inputCM =>
      deploymentStore i job ((s.upsert (.configMap excludesCM)).upsert (.configMap inputCM))

/-- The label selector `VICEExit` lists with. -/
def exitSelector (request : Request) : List (String × String) :=
  [("external-id", mapIndex request.Vars "id")]

/-- What `VICEExit` does for one kind once its list has succeeded: the list call, then the
delete loop over the listed items. -/
def exitStage {σ : Type} (c : Clientset σ) (labelSelector : List (String × String)) (k : Kind)
    (w : World σ) : World σ :=
  VICEExit.deleteEach c k (c.run (.List k labelSelector) w).1.items
    (c.run (.List k labelSelector) w).2

/-- The list-then-delete block of `VICEExit`, repeated over a list of kinds. -/
def exitKinds {σ : Type} (c : Clientset σ) (labelSelector : List (String × String)) :
    List Kind → World σ → Outcome × World σ
  | [], w => (.done "", w)
  | k :: rest, w =>
    match (c.run (.List k labelSelector) w).1.err with
    | some err => (.httpError err 500, (c.run (.List k labelSelector) w).2)
    | none => exitKinds c labelSelector rest (exitStage c labelSelector k w)

/-- The place of a kind in the order in which `VICEExit` goes through the kinds. -/
def Kind.exitOrder : Kind → Nat
  | .Ingress => 0
  | .Service => 1
  | .Deployment => 2
  | .ConfigMap => 3

/-- A store whose Delete is refused for the kinds and names picked by `refuses`, and which
otherwise behaves as `k8sStore`. -/
def flakyStore (refuses : Kind → String → Bool) : Clientset Store where
  exec := fun call s =>
    match call with
    | .Delete k name =>
      if refuses k name then (⟨some "refused", []⟩, s) else k8sStore.exec (.Delete k name) s
    | other => k8sStore.exec other s

/-- No successful Delete among the events has left its key in the store. -/
def DeletedGone (evs : List Event) (s : Store) : Prop :=
  ∀ k n, (⟨.Delete k n, none⟩ : Event) ∈ evs → s.lookup k n = none

/-! ## Collaborators outside the embedded files -/

/-- Modelled from the spec: `getService` is called by `UpsertDeployment` and is not part
of the embedded files. Section 4.1: "the deployment, service, and ingress share the
invocation id as name"; section 4.2: "the service is built from the deployment's
selector". -/
def getService (job : Job) (deployment : Deployment) : Except String Service :=
  .ok { Name := job.InvocationID
        Labels := deployment.Labels
        Selector := deployment.Spec.Selector.MatchLabels }

/-- Modelled from the spec: `getIngress` is called by `UpsertDeployment` and is not part
of the embedded files. Section 4.1: "the deployment, service, and ingress share the
invocation id as name"; the single rule routes the given host. -/
def getIngress (host : String) (job : Job) (svc : Service) : Except String Ingress :=
  .ok { Name := job.InvocationID
        Labels := svc.Labels
        Rules := [{ Host := host }] }

/-! ## Concrete inputs -/

/-- Library behaviour in which every call succeeds and the listener answers `code`. -/
def exHTTP (code : Int) : HTTPDeps where
  hostname := "exposer-0"
  urlParse := fun s => .ok ⟨"http", s, ""⟩
  pathJoin := fun a b => a ++ "/" ++ b
  urlString := fun u => u.Scheme ++ "://" ++ u.Host ++ "/" ++ u.Path
  jsonMarshal := fun s => .ok s.Message
  httpPost := fun _ _ _ => .ok ⟨code, "Internal Server Error"⟩

/-- A publisher to the listener at `jsl`. -/
def exJSL : JSLPublisher := ⟨"jsl"⟩

/-- A test double whose `Fail` reports an error and whose other calls succeed; its state
counts the calls. -/
def exPublisher : AnalysisStatusPublisher Nat where
  Fail := fun _ _ n => (some "listener down", n + 1)
  Success := fun _ _ n => (none, n + 1)
  Running := fun _ _ n => (none, n + 1)

/-- A live pod in the given phase. -/
def exPod (phase : String) : Pod :=
  ⟨"pod-1", [("analysis-name", "blast")], none, ⟨phase, "OOMKilled"⟩⟩

/-- The initial publisher world of the test double. -/
def exPubWorld : PubWorld Nat := ⟨0, []⟩

/-- A configuration. -/
def exInit : Init where
  PorklockImage := "discoenv/vice-file-transfers"
  PorklockTag := "latest"
  InputPathListIdentifier := "# application/vnd.de.multi-input-path-list+csv; version=1"
  TicketInputPathListIdentifier := "# application/vnd.de.tickets-path-list+csv; version=1"
  ViceProxyImage := "discoenv/cas-proxy"
  CASBaseURL := "https://auth.example.org/cas"
  FrontendBaseURL := "vice.example.org"
  IngressBaseURL := "http://ingress"
  AnalysisHeader := "get-analysis-id"
  AccessHeader := "check-resource-access"
  ViceNamespace := "vice-apps"

/-- Values for the package constants. -/
def exConsts : Consts where
  excludesFileName := "excludes-file"
  inputPathListFileName := "input-path-list"
  inputPathListVolumeName := "input-path-list"
  inputPathListMountPath := "/input-files"
  fileTransfersVolumeName := "input-files"
  porklockConfigVolumeName := "porklock-config"
  porklockConfigSecretName := "porklock-config"
  excludesVolumeName := "excludes-file"
  viceProxyContainerName := "vice-proxy"
  viceProxyPortName := "tcp-proxy"
  viceProxyPort := 8080
  fileTransfersContainerName := "input-files"
  fileTransfersPortName := "tcp-input"
  fileTransfersPort := 60001
  analysisContainerName := "analysis"

/-- The job of the end-to-end example: id "abc123", one step with one port, no inputs. -/
def exJob : Job where
  InvocationID := "abc123"
  Name := "blast"
  UserID := "u1"
  AppName := "jupyter"
  AppID := "app-7"
  Submitter := "ada"
  Steps := [{ Component := { Container := { Image := ⟨"jupyter/lab", "1.0"⟩
                                            EntryPoint := "start"
                                            Ports := [⟨8888⟩]
                                            UID := 1000 } }
              Config := { Inputs := [] }
              Arguments := ["--quiet"] }]

/-- Collaborators that all succeed: the path list is the identifier line followed by one
line per un-ticketed input, and the only body the decoder accepts is that of `exJob`. -/
def exDeps : Deps where
  slugMake := fun str => str
  GetUserIP := fun _ => .ok "10.0.0.7"
  urlParse := fun str => .ok ⟨"https", str, ""⟩
  urlString := fun u => u.Scheme ++ "://" ++ u.Host ++ u.Path
  ExcludesFileContents := fun _ => ""
  InputPathListContents := fun job identifier _ =>
    .ok (job.FilterInputsWithoutTickets.foldl (fun acc input => acc ++ input.Value ++ "\n")
      (identifier ++ "\n"))
  jsonUnmarshal := fun buf => if buf = "abc123" then .ok exJob else .error "unexpected end"
  IngressName := fun userID invocationID => "a" ++ userID ++ invocationID
  fileTransferCommand := fun _ => ["/vice-file-transfers"]
  fileTransfersVolumeMounts := fun _ => []
  fileTransfersMountPath := fun _ => "/de-app-work"
  validateJob := fun job => if job.Steps.length = 0 then some "no steps" else none
  getService := getService
  getIngress := getIngress "abc123.vice.example.org"

/-- The service wired to the store model of the cluster. -/
def exInternal : Internal Store where
  toInit := exInit
  consts := exConsts
  deps := exDeps
  clientset := k8sStore

/-- The launch request whose body decodes to `exJob`. -/
def exRequest : LaunchRequest := ⟨.ok "abc123"⟩

/-- The empty cluster with no call made yet. -/
def exWorld : World Store := ⟨[], []⟩

/-- A cluster that already has a service for `exJob`, built from another spec. -/
def exWorldWithService : World Store :=
  ⟨[.service ⟨"abc123", [("external-id", "abc123")], [("app", "older")]⟩], []⟩

/-- A job whose name has 64 runes, some of them of several bytes. -/
def exLongJob : Job where
  InvocationID := "abc123"
  Name := "análisis-de-secuencias-λ-0123456789-0123456789-0123456789-012345"
  UserID := "u1"
  AppName := "jupyter"
  AppID := "app-7"
  Submitter := "ada"
  Steps := exJob.Steps

/-- A request for the analysis "abc123" of user "ada". -/
def exExitRequest : Request :=
  ⟨[("id", "abc123"), ("host", "abc123.vice.example.org"), ("analysis-id", "a-1")],
    [("user", ["ada"])]⟩

/-- The cluster after the launch of `exJob`, with no call recorded. -/
def exLaunchedWorld : World Store :=
  ⟨(VICELaunchApp exInternal exRequest exWorld).2.st, []⟩

/-- The service on a store that refuses to delete services. -/
def exFlakyInternal : Internal Store where
  toInit := exInit
  consts := exConsts
  deps := exDeps
  clientset := flakyStore fun k _ => decide (k = .Service)

/-- The service on a cluster whose list of deployments fails. -/
def exBrokenInternal : Internal Store where
  toInit := exInit
  consts := exConsts
  deps := exDeps
  clientset :=
    { exec := fun call s =>
        match call with
        | .List .Deployment _ => (⟨some "etcd timeout", []⟩, s)
        | other => k8sStore.exec other s }

/-- The job of the end-to-end example with a first step that declares no port. -/
def exNoPortsJob : Job where
  InvocationID := "abc123"
  Name := "blast"
  UserID := "u1"
  AppName := "jupyter"
  AppID := "app-7"
  Submitter := "ada"
  Steps := [{ Component := { Container := { Image := ⟨"jupyter/lab", "1.0"⟩
                                            EntryPoint := "start"
                                            Ports := []
                                            UID := 1000 } }
              Config := { Inputs := [] }
              Arguments := ["--quiet"] }]

/-- The job of the end-to-end example with one un-ticketed and one ticketed input. -/
def exInputsJob : Job where
  InvocationID := "abc123"
  Name := "blast"
  UserID := "u1"
  AppName := "jupyter"
  AppID := "app-7"
  Submitter := "ada"
  Steps := [{ Component := { Container := { Image := ⟨"jupyter/lab", "1.0"⟩
                                            EntryPoint := "start"
                                            Ports := [⟨8888⟩]
                                            UID := 1000 } }
              Config := { Inputs := [⟨"/iplant/home/ada/reads.fq", ""⟩,
                                     ⟨"/iplant/home/bob/shared.fq", "ticket-9"⟩] }
              Arguments := [] }]

/-- The one step of `exJob`. -/
def exStep : Step where
  Component := { Container := { Image := ⟨"jupyter/lab", "1.0"⟩
                                EntryPoint := "start"
                                Ports := [⟨8888⟩]
                                UID := 1000 } }
  Config := { Inputs := [] }
  Arguments := ["--quiet"]

/-- File-transfer code whose upload fails and leaves the cluster as it is. -/
def exFailingTransfers : Transfers Store where
  doFileTransfer := fun _ _ _ _ w => (some "upload failed", w)
  uploadBasePath := "/upload"
  uploadKind := "upload"

/-- A database whose user lookup fails. -/
def exFailingDB : TimeLimitDB where
  queryUserID := fun _ => .error "connection refused"
  queryUpdateTimeLimit := fun _ _ => .ok ⟨1700000000, true⟩
  queryGetTimeLimit := fun _ _ => .ok ⟨1700000000, true⟩
  timeValue := fun t => .ok t.Time
  jsonMarshal := fun m => .ok (mapIndex m "time_limit")

/-- The collaborators of `exDeps` with a `getService` that names the service "vice-"
followed by the invocation id. -/
def exViceNamedDeps : Deps where
  slugMake := exDeps.slugMake
  GetUserIP := exDeps.GetUserIP
  urlParse := exDeps.urlParse
  urlString := exDeps.urlString
  ExcludesFileContents := exDeps.ExcludesFileContents
  InputPathListContents := exDeps.InputPathListContents
  jsonUnmarshal := exDeps.jsonUnmarshal
  IngressName := exDeps.IngressName
  fileTransferCommand := exDeps.fileTransferCommand
  fileTransfersVolumeMounts := exDeps.fileTransfersVolumeMounts
  fileTransfersMountPath := exDeps.fileTransfersMountPath
  validateJob := exDeps.validateJob
  getService := fun job deployment =>
    .ok { Name := "vice-" ++ job.InvocationID
          Labels := deployment.Labels
          Selector := deployment.Spec.Selector.MatchLabels }
  getIngress := exDeps.getIngress

/-- The service with the collaborators `exViceNamedDeps`, wired to the store model. -/
def exViceNamedInternal : Internal Store where
  toInit := exInit
  consts := exConsts
  deps := exViceNamedDeps
  clientset := k8sStore

/-- An ingress that routes the host of another analysis. -/
def exOtherIngress : Ingress :=
  ⟨"zzz999", [("external-id", "zzz999")], [⟨"zzz999.vice.example.org"⟩]⟩

/-- The ingress of the analysis "abc123". -/
def exAppIngress : Ingress :=
  ⟨"abc123", [("external-id", "abc123")], [⟨"abc123.vice.example.org"⟩]⟩

/-- The service of the analysis "abc123". -/
def exAppService : Service :=
  ⟨"abc123", [("external-id", "abc123")], [("external-id", "abc123")]⟩

/-- The deployment of the analysis "abc123" as the cluster reports it with `ready` ready
replicas. -/
def exAppDeployment (ready : Int) : Deployment where
  Name := "abc123"
  Labels := [("external-id", "abc123")]
  Spec := { Replicas := some 1
            Selector := ⟨[("external-id", "abc123")]⟩
            Template := { Labels := [("external-id", "abc123")]
                          Spec := { RestartPolicy := "Always"
                                    Volumes := []
                                    Containers := []
                                    SecurityContext := ⟨none, none, none⟩ } } }
  Status := ⟨ready⟩

/-- A cluster with an ingress for another host, then the ingress, the service and the
deployment of the analysis "abc123", whose deployment reports `ready` ready replicas. -/
def exStatusWorld (ready : Int) : World Store :=
  ⟨[.ingress exOtherIngress, .ingress exAppIngress, .service exAppService,
    .deployment (exAppDeployment ready)], []⟩

/-! ## Theorems: status.go -/

/-- Whenever the POST completes, `postStatus` returns `nil`, whatever the status code. -/
theorem postStatus_nil_of_posted (h : HTTPDeps) (j : JSLPublisher) (jobID msg : String)
    (jobState : JobState) (u : URL) (js : String) (response : Response)
    (hparse : h.urlParse j.statusURL = .ok u)
    (hjson : h.jsonMarshal ⟨h.hostname, jobState, msg⟩ = .ok js)
    (hpost : h.httpPost (h.urlString ⟨u.Scheme, u.Host, h.pathJoin jobID "status"⟩)
      "application/json" js = .ok response) :
    j.postStatus h jobID msg jobState = none := by
  unfold JSLPublisher.postStatus
  simp only [hparse, hjson, hpost]
  split <;> rfl

/-- C1 (failing input): the listener answers 500 to a POST that completed, and
`postStatus`, `Fail`, `Success` and `Running` all return `nil` instead of an error. -/
theorem postStatus_status_500_returns_nil :
    ((500 : Int) < 200 ∨ (500 : Int) > 399) ∧
    exJSL.postStatus (exHTTP 500) "job-1" "pod failed" .FailedState = none ∧
    exJSL.Fail (exHTTP 500) "job-1" "pod failed" = none ∧
    exJSL.Success (exHTTP 500) "job-1" "done" = none ∧
    exJSL.Running (exHTTP 500) "job-1" "still running" = none := by
  refine ⟨by decide, ?_, ?_, ?_, ?_⟩ <;>
    exact postStatus_nil_of_posted _ _ _ _ _ _ _ _ rfl rfl rfl

/-- The unknown-state message never equals the failed message built from the same pod
name, analysis name and reason. -/
theorem podUnknownMsg_ne_podFailedMsg (podName analysisName reason : String) :
    podUnknownMsg podName analysisName reason ≠ podFailedMsg podName analysisName reason := by
  intro h
  have hd := congrArg String.data h
  simp only [podUnknownMsg, podFailedMsg, String.data_append, List.append_assoc] at hd
  have h1 := List.append_cancel_left hd
  have h2 := List.append_cancel_left h1
  have h3 := List.append_cancel_left h2
  have h4 := List.append_cancel_left h3
  have h5 := List.append_cancel_right h4
  revert h5
  decide

/-- The reason text is a substring of the failed message. -/
theorem reason_infix_podFailedMsg (podName analysisName reason : String) :
    reason.data <:+: (podFailedMsg podName analysisName reason).data := by
  refine ⟨("pod " ++ podName ++ " of analysis " ++ analysisName ++ " failed. Reason: ").data,
    [], ?_⟩
  simp [podFailedMsg, String.data_append]

/-- C2: a pod with a deletion timestamp, or in phase Running or Pending, causes no
publisher call and a nil result (the world is returned untouched); every other pod
causes exactly one call, and that call is a Success or a Fail for the job id, never a
Running. -/
theorem eventPodModified_call_count {σ : Type} (p : AnalysisStatusPublisher σ) (pod : Pod)
    (jobID : String) (w : PubWorld σ) :
    ((pod.DeletionTimestamp.isSome = true ∨ pod.Status.Phase = PodRunning
        ∨ pod.Status.Phase = PodPending) →
      eventPodModified p pod jobID w = (none, w)) ∧
    (¬ (pod.DeletionTimestamp.isSome = true ∨ pod.Status.Phase = PodRunning
        ∨ pod.Status.Phase = PodPending) →
      ∃ c, (eventPodModified p pod jobID w).2.calls = w.calls ++ [c] ∧
        ((∃ m, c = .Success jobID m) ∨ (∃ m, c = .Fail jobID m)) ∧
        ∀ j m, c ≠ .Running j m) := by
  constructor
  · intro h
    unfold eventPodModified
    rcases h with h | h | h
    · simp [h]
    · simp [h, PodRunning, PodSucceeded]
    · simp [h, PodPending, PodSucceeded, PodRunning, PodFailed]
  · intro h
    simp only [not_or] at h
    obtain ⟨hd, hr, hp⟩ := h
    unfold eventPodModified
    simp only [hd, hr, hp, if_false, Bool.false_eq_true]
    by_cases hs : pod.Status.Phase = PodSucceeded
    · simp only [hs, if_true]
      exact ⟨_, rfl, Or.inl ⟨_, rfl⟩, fun _ _ hc => by cases hc⟩
    · simp only [hs, if_false]
      by_cases hf : pod.Status.Phase = PodFailed
      · simp only [hf, if_true]
        exact ⟨_, rfl, Or.inr ⟨_, rfl⟩, fun _ _ hc => by cases hc⟩
      · simp only [hf, if_false]
        exact ⟨_, rfl, Or.inr ⟨_, rfl⟩, fun _ _ hc => by cases hc⟩

/-- C3: for a live pod in phase Failed the handler makes exactly one call, a Fail for the
given job id whose message contains the pod status reason, and returns what that Fail
returned. -/
theorem eventPodModified_failed {σ : Type} (p : AnalysisStatusPublisher σ) (pod : Pod)
    (jobID : String) (w : PubWorld σ) (hdel : pod.DeletionTimestamp = none)
    (hphase : pod.Status.Phase = PodFailed) :
    ∃ msg, (eventPodModified p pod jobID w).2.calls = w.calls ++ [.Fail jobID msg] ∧
      (∀ j m, PublisherCall.Success j m ∉ [PublisherCall.Fail jobID msg]) ∧
      pod.Status.Reason.data <:+: msg.data ∧
      (eventPodModified p pod jobID w).1 = (p.Fail jobID msg w.st).1 := by
  refine ⟨podFailedMsg pod.Name (mapIndex pod.Labels "analysis-name") pod.Status.Reason,
    ?_, ?_, reason_infix_podFailedMsg _ _ _, ?_⟩
  · simp [eventPodModified, hdel, hphase, PodFailed, PodSucceeded, PodRunning,
      AnalysisStatusPublisher.invoke]
  · simp
  · simp [eventPodModified, hdel, hphase, PodFailed, PodSucceeded, PodRunning,
      AnalysisStatusPublisher.invoke]

/-- C3 at a concrete failed pod, with a publisher whose Fail reports an error. -/
theorem eventPodModified_failed_witness :
    ∃ msg, (eventPodModified exPublisher (exPod "Failed") "job-1" exPubWorld).2.calls
        = exPubWorld.calls ++ [.Fail "job-1" msg] ∧
      (∀ j m, PublisherCall.Success j m ∉ [PublisherCall.Fail "job-1" msg]) ∧
      (exPod "Failed").Status.Reason.data <:+: msg.data ∧
      (eventPodModified exPublisher (exPod "Failed") "job-1" exPubWorld).1
        = (exPublisher.Fail "job-1" msg exPubWorld.st).1 :=
  eventPodModified_failed exPublisher (exPod "Failed") "job-1" exPubWorld rfl rfl

/-- C4: for a live pod in phase Succeeded the handler makes exactly one call, a Success
for the given job id, and no Fail. -/
theorem eventPodModified_succeeded {σ : Type} (p : AnalysisStatusPublisher σ) (pod : Pod)
    (jobID : String) (w : PubWorld σ) (hdel : pod.DeletionTimestamp = none)
    (hphase : pod.Status.Phase = PodSucceeded) :
    ∃ msg, (eventPodModified p pod jobID w).2.calls = w.calls ++ [.Success jobID msg] ∧
      (∀ j m, PublisherCall.Fail j m ∉ [PublisherCall.Success jobID msg]) ∧
      (eventPodModified p pod jobID w).1 = (p.Success jobID msg w.st).1 := by
  refine ⟨podCompletedMsg pod.Name (mapIndex pod.Labels "analysis-name"), ?_, ?_, ?_⟩
  · simp [eventPodModified, hdel, hphase, AnalysisStatusPublisher.invoke]
  · simp
  · simp [eventPodModified, hdel, hphase, AnalysisStatusPublisher.invoke]

/-- C4 at a concrete succeeded pod. -/
theorem eventPodModified_succeeded_witness :
    ∃ msg, (eventPodModified exPublisher (exPod "Succeeded") "job-1" exPubWorld).2.calls
        = exPubWorld.calls ++ [.Success "job-1" msg] ∧
      (∀ j m, PublisherCall.Fail j m ∉ [PublisherCall.Success "job-1" msg]) ∧
      (eventPodModified exPublisher (exPod "Succeeded") "job-1" exPubWorld).1
        = (exPublisher.Success "job-1" msg exPubWorld.st).1 :=
  eventPodModified_succeeded exPublisher (exPod "Succeeded") "job-1" exPubWorld rfl rfl

/-- C5: for a live pod whose phase is none of Succeeded, Running, Failed, Pending the
handler makes exactly one call, a Fail for the job id, and its message differs from the
message the handler passes for the same pod in phase Failed. -/
theorem eventPodModified_unknown_phase {σ : Type} (p : AnalysisStatusPublisher σ) (pod : Pod)
    (jobID : String) (w : PubWorld σ) (hdel : pod.DeletionTimestamp = none)
    (hs : pod.Status.Phase ≠ PodSucceeded) (hr : pod.Status.Phase ≠ PodRunning)
    (hf : pod.Status.Phase ≠ PodFailed) (hp : pod.Status.Phase ≠ PodPending) :
    ∃ msg msgFailed,
      (eventPodModified p pod jobID w).2.calls = w.calls ++ [.Fail jobID msg] ∧
      (eventPodModified p ⟨pod.Name, pod.Labels, pod.DeletionTimestamp,
          ⟨PodFailed, pod.Status.Reason⟩⟩ jobID w).2.calls
        = w.calls ++ [.Fail jobID msgFailed] ∧
      msg ≠ msgFailed := by
  refine ⟨podUnknownMsg pod.Name (mapIndex pod.Labels "analysis-name") pod.Status.Reason,
    podFailedMsg pod.Name (mapIndex pod.Labels "analysis-name") pod.Status.Reason,
    ?_, ?_, podUnknownMsg_ne_podFailedMsg _ _ _⟩
  · simp [eventPodModified, hdel, hs, hr, hf, hp, AnalysisStatusPublisher.invoke]
  · simp [eventPodModified, hdel, PodFailed, PodSucceeded, PodRunning,
      AnalysisStatusPublisher.invoke]

/-- C5 at a concrete pod with the empty phase. -/
theorem eventPodModified_unknown_phase_witness :
    ∃ msg msgFailed,
      (eventPodModified exPublisher (exPod "") "job-1" exPubWorld).2.calls
        = exPubWorld.calls ++ [.Fail "job-1" msg] ∧
      (eventPodModified exPublisher ⟨(exPod "").Name, (exPod "").Labels,
          (exPod "").DeletionTimestamp, ⟨PodFailed, (exPod "").Status.Reason⟩⟩
          "job-1" exPubWorld).2.calls
        = exPubWorld.calls ++ [.Fail "job-1" msgFailed] ∧
      msg ≠ msgFailed :=
  eventPodModified_unknown_phase exPublisher (exPod "") "job-1" exPubWorld rfl
    (by decide) (by decide) (by decide) (by decide)

/-! ## Theorems: the cluster client -/

/-- The trace after one recorded call. -/
theorem run_trace {σ : Type} (c : Clientset σ) (call : Call) (w : World σ) :
    (c.run call w).2.trace = w.trace ++ [⟨call, (c.exec call w.st).1.err⟩] := rfl

/-- The cluster state after one recorded call. -/
theorem run_st {σ : Type} (c : Clientset σ) (call : Call) (w : World σ) :
    (c.run call w).2.st = (c.exec call w.st).2 := rfl

/-- The reply of one recorded call. -/
theorem run_reply {σ : Type} (c : Clientset σ) (call : Call) (w : World σ) :
    (c.run call w).1 = (c.exec call w.st).1 := rfl

/-- The excludes config map is named by `excludesConfigMapName`. -/
theorem excludesConfigMap_name {σ : Type} (i : Internal σ) (job : Job) (cm : ConfigMap)
    (hb : excludesConfigMap i job = .ok cm) : cm.Name = excludesConfigMapName job := by
  unfold excludesConfigMap at hb
  split at hb
  · cases hb
  · cases hb; rfl

/-- The input-path-list config map is named by `inputPathListConfigMapName`. -/
theorem inputPathListConfigMap_name {σ : Type} (i : Internal σ) (job : Job) (cm : ConfigMap)
    (hb : inputPathListConfigMap i job = .ok cm) : cm.Name = inputPathListConfigMapName job := by
  unfold inputPathListConfigMap at hb
  split at hb
  · cases hb
  · split at hb
    · cases hb
    · cases hb; rfl

/-- The deployment is named by the invocation id. -/
theorem getDeployment_name {σ : Type} (i : Internal σ) (job : Job) (dep : Deployment)
    (hb : getDeployment i job = .ok dep) : dep.Name = job.InvocationID := by
  unfold getDeployment at hb
  split at hb
  · cases hb
  · split at hb
    · cases hb
    · split at hb
      · cases hb
      · cases hb; rfl

/-- C6: each upsert first gets by the name of the object it built. For the two config maps
the calls are then exactly that Get followed by one Create (get failed) or one Update (get
succeeded); for the deployment part of `UpsertDeployment` the calls that go to the
deployment client are exactly that Get followed by one Create, respectively one Update. -/
theorem upsert_create_when_absent_update_when_present {σ : Type} (i : Internal σ) (job : Job)
    (w : World σ) :
    (∀ cm, excludesConfigMap i job = .ok cm →
      ((i.clientset.exec (.Get .ConfigMap (excludesConfigMapName job)) w.st).1.err ≠ none →
        callsSince w (UpsertExcludesConfigMap i job w).2
          = [.Get .ConfigMap cm.Name, .Create (.configMap cm)]) ∧
      ((i.clientset.exec (.Get .ConfigMap (excludesConfigMapName job)) w.st).1.err = none →
        callsSince w (UpsertExcludesConfigMap i job w).2
          = [.Get .ConfigMap cm.Name, .Update (.configMap cm)])) ∧
    (∀ cm, inputPathListConfigMap i job = .ok cm →
      ((i.clientset.exec (.Get .ConfigMap (inputPathListConfigMapName job)) w.st).1.err ≠ none →
        callsSince w (UpsertInputPathListConfigMap i job w).2
          = [.Get .ConfigMap cm.Name, .Create (.configMap cm)]) ∧
      ((i.clientset.exec (.Get .ConfigMap (inputPathListConfigMapName job)) w.st).1.err = none →
        callsSince w (UpsertInputPathListConfigMap i job w).2
          = [.Get .ConfigMap cm.Name, .Update (.configMap cm)])) ∧
    (∀ dep, getDeployment i job = .ok dep →
      ((i.clientset.exec (.Get .Deployment job.InvocationID) w.st).1.err ≠ none →
        callsOfKind .Deployment (callsSince w (UpsertDeployment i job w).2)
          = [.Get .Deployment dep.Name, .Create (.deployment dep)]) ∧
      ((i.clientset.exec (.Get .Deployment job.InvocationID) w.st).1.err = none →
        callsOfKind .Deployment (callsSince w (UpsertDeployment i job w).2)
          = [.Get .Deployment dep.Name, .Update (.deployment dep)])) := by
  refine ⟨fun cm hb => ?_, fun cm hb => ?_, fun dep hb => ?_⟩
  · have hname := excludesConfigMap_name i job cm hb
    constructor
    · intro hget
      obtain ⟨e, he⟩ := Option.ne_none_iff_exists'.mp hget
      simp [UpsertExcludesConfigMap, hb, run_reply, he, run_trace, hname, callsSince,
        eventsSince]
    · intro hget
      simp [UpsertExcludesConfigMap, hb, run_reply, hget, run_trace, hname, callsSince,
        eventsSince]
  · have hname := inputPathListConfigMap_name i job cm hb
    constructor
    · intro hget
      obtain ⟨e, he⟩ := Option.ne_none_iff_exists'.mp hget
      simp [UpsertInputPathListConfigMap, hb, run_reply, he, run_trace, hname, callsSince,
        eventsSince]
    · intro hget
      simp [UpsertInputPathListConfigMap, hb, run_reply, hget, run_trace, hname, callsSince,
        eventsSince]
  · have hname := getDeployment_name i job dep hb
    constructor
    · intro hget
      obtain ⟨e, he⟩ := Option.ne_none_iff_exists'.mp hget
      simp only [UpsertDeployment, UpsertDeployment.servicePart, UpsertDeployment.ingressPart,
        hb, run_reply, he, hname, callsSince, eventsSince, callsOfKind]
      repeat' split
      all_goals simp [run_trace, Call.kind, Obj.kind]
    · intro hget
      simp only [UpsertDeployment, UpsertDeployment.servicePart, UpsertDeployment.ingressPart,
        hb, run_reply, hget, hname, callsSince, eventsSince, callsOfKind]
      repeat' split
      all_goals simp [run_trace, Call.kind, Obj.kind]

/-- C6 on the empty cluster: the get fails, so the excludes config map is created. -/
theorem upsert_create_when_absent_update_when_present_witness :
    ∃ cm, excludesConfigMap exInternal exJob = .ok cm ∧
      callsSince exWorld (UpsertExcludesConfigMap exInternal exJob exWorld).2
        = [.Get .ConfigMap cm.Name, .Create (.configMap cm)] :=
  ⟨_, rfl,
    ((upsert_create_when_absent_update_when_present exInternal exJob exWorld).1 _ rfl).1
      (by decide)⟩

/-! ## Theorems: the events of `UpsertDeployment` -/

/-- Every event of a get-then-create goes to the client of its kind. -/
theorem EnsureShape.kind_eq {k : Kind} {evs : List Event} (h : EnsureShape k evs) :
    ∀ ev ∈ evs, ev.call.kind = k := by
  rcases h with rfl | ⟨n, rfl⟩ | ⟨n, e, o, r, hk, rfl⟩
  · simp
  · simp [Call.kind]
  · simp [Call.kind, hk]

/-- What the events of a get-then-create can and cannot be. -/
theorem EnsureShape.facts {k : Kind} {evs : List Event} (h : EnsureShape k evs) :
    (∀ ev ∈ evs, (∃ n, ev.call = .Get k n) ∨ (∃ o, ev.call = .Create o)) ∧
    ((∃ n, (⟨.Get k n, none⟩ : Event) ∈ evs) → ∀ ev ∈ evs, ∃ n, ev.call = .Get k n) ∧
    (∀ o r, (⟨.Create o, r⟩ : Event) ∈ evs → ∃ n e, (⟨.Get k n, some e⟩ : Event) ∈ evs) := by
  rcases h with rfl | ⟨n, rfl⟩ | ⟨n, e, o, r, _, rfl⟩
  · simp
  · simp
  · refine ⟨?_, ?_, ?_⟩
    · simp
    · simp
    · intro o' r' _
      exact ⟨n, e, by simp⟩

/-- The events of the ingress part. -/
theorem ingressPart_trace {σ : Type} (i : Internal σ) (job : Job) (svc : Service)
    (w : World σ) :
    ∃ g, (UpsertDeployment.ingressPart i job svc w).2.trace = w.trace ++ g ∧
      EnsureShape .Ingress g := by
  unfold UpsertDeployment.ingressPart
  split
  · exact ⟨[], by simp, Or.inl rfl⟩
  · rename_i ing hg
    split
    · rename_i e he
      rw [run_reply] at he
      refine ⟨[⟨.Get .Ingress ing.Name, some e⟩, ⟨.Create (.ingress ing),
          (i.clientset.exec (.Create (.ingress ing))
            (i.clientset.exec (.Get .Ingress ing.Name) w.st).2).1.err⟩], ?_,
        Or.inr (Or.inr ⟨ing.Name, e, .ingress ing, _, rfl, rfl⟩)⟩
      simp [run_trace, run_st, he]
    · rename_i he
      rw [run_reply] at he
      refine ⟨[⟨.Get .Ingress ing.Name, none⟩], ?_, Or.inr (Or.inl ⟨_, rfl⟩)⟩
      simp [run_trace, he]

/-- The events of the service part. -/
theorem servicePart_trace {σ : Type} (i : Internal σ) (job : Job) (dep : Deployment)
    (w : World σ) :
    ∃ s g, (UpsertDeployment.servicePart i job dep w).2.trace = w.trace ++ (s ++ g) ∧
      EnsureShape .Service s ∧ EnsureShape .Ingress g := by
  unfold UpsertDeployment.servicePart
  split
  · exact ⟨[], [], by simp, Or.inl rfl, Or.inl rfl⟩
  · rename_i svc hs
    split
    · rename_i e he
      rw [run_reply] at he
      split
      · refine ⟨[⟨.Get .Service job.InvocationID, some e⟩, ⟨.Create (.service svc),
            (i.clientset.exec (.Create (.service svc))
              (i.clientset.exec (.Get .Service job.InvocationID) w.st).2).1.err⟩], [], ?_,
          Or.inr (Or.inr ⟨job.InvocationID, e, .service svc, _, rfl, rfl⟩), Or.inl rfl⟩
        simp [run_trace, run_st, he]
      · obtain ⟨g, hg, hshape⟩ := ingressPart_trace i job svc
          (i.clientset.run (.Create (.service svc))
            (i.clientset.run (.Get .Service job.InvocationID) w).2).2
        refine ⟨[⟨.Get .Service job.InvocationID, some e⟩, ⟨.Create (.service svc),
            (i.clientset.exec (.Create (.service svc))
              (i.clientset.exec (.Get .Service job.InvocationID) w.st).2).1.err⟩], g, ?_,
          Or.inr (Or.inr ⟨job.InvocationID, e, .service svc, _, rfl, rfl⟩), hshape⟩
        rw [hg]
        simp [run_trace, run_st, he]
    · rename_i he
      rw [run_reply] at he
      obtain ⟨g, hg, hshape⟩ := ingressPart_trace i job svc
        (i.clientset.run (.Get .Service job.InvocationID) w).2
      refine ⟨[⟨.Get .Service job.InvocationID, none⟩], g, ?_, Or.inr (Or.inl ⟨_, rfl⟩),
        hshape⟩
      rw [hg]
      simp [run_trace, he]

/-- The events of `UpsertDeployment`: deployment calls, then the service part, then the
ingress part. -/
theorem UpsertDeployment_trace {σ : Type} (i : Internal σ) (job : Job) (w : World σ) :
    ∃ d s g, (UpsertDeployment i job w).2.trace = w.trace ++ (d ++ (s ++ g)) ∧
      (∀ ev ∈ d, ev.call.kind = .Deployment) ∧
      EnsureShape .Service s ∧ EnsureShape .Ingress g := by
  unfold UpsertDeployment
  split
  · exact ⟨[], [], [], by simp, by simp, Or.inl rfl, Or.inl rfl⟩
  · rename_i dep hb
    split
    · split
      · refine ⟨(i.clientset.run (.Create (.deployment dep))
            (i.clientset.run (.Get .Deployment job.InvocationID) w).2).2.trace.drop
              w.trace.length, [], [], ?_, ?_, Or.inl rfl, Or.inl rfl⟩
        · simp [run_trace]
        · simp [run_trace, Call.kind, Obj.kind]
      · obtain ⟨s, g, hsg, hs, hg⟩ := servicePart_trace i job dep
          (i.clientset.run (.Create (.deployment dep))
            (i.clientset.run (.Get .Deployment job.InvocationID) w).2).2
        refine ⟨(i.clientset.run (.Create (.deployment dep))
            (i.clientset.run (.Get .Deployment job.InvocationID) w).2).2.trace.drop
              w.trace.length, s, g, ?_, ?_, hs, hg⟩
        · rw [hsg]; simp [run_trace]
        · simp [run_trace, Call.kind, Obj.kind]
    · split
      · refine ⟨(i.clientset.run (.Update (.deployment dep))
            (i.clientset.run (.Get .Deployment job.InvocationID) w).2).2.trace.drop
              w.trace.length, [], [], ?_, ?_, Or.inl rfl, Or.inl rfl⟩
        · simp [run_trace]
        · simp [run_trace, Call.kind, Obj.kind]
      · obtain ⟨s, g, hsg, hs, hg⟩ := servicePart_trace i job dep
          (i.clientset.run (.Update (.deployment dep))
            (i.clientset.run (.Get .Deployment job.InvocationID) w).2).2
        refine ⟨(i.clientset.run (.Update (.deployment dep))
            (i.clientset.run (.Get .Deployment job.InvocationID) w).2).2.trace.drop
              w.trace.length, s, g, ?_, ?_, hs, hg⟩
        · rw [hsg]; simp [run_trace]
        · simp [run_trace, Call.kind, Obj.kind]

/-! ## Theorems: the upserts on the store -/

/-- A get on the store leaves it unchanged. -/
theorem k8sStore_get_st (k : Kind) (n : String) (s : Store) :
    (k8sStore.exec (.Get k n) s).2 = s := by
  simp only [k8sStore]; split <;> rfl

/-- A get on the store fails exactly when the key is absent. -/
theorem k8sStore_get_err (k : Kind) (n : String) (s : Store) :
    (k8sStore.exec (.Get k n) s).1.err = if (s.lookup k n).isSome then none else some "not found" := by
  simp only [k8sStore]; split <;> simp [*]

/-- A create on the store. -/
theorem k8sStore_create (o : Obj) (s : Store) :
    k8sStore.exec (.Create o) s =
      if (s.lookup o.kind o.name).isSome then (⟨some "already exists", []⟩, s)
      else (⟨none, [o]⟩, s ++ [o]) := by
  simp only [k8sStore]; split <;> simp [*]

/-- An update on the store. -/
theorem k8sStore_update (o : Obj) (s : Store) :
    k8sStore.exec (.Update o) s =
      if (s.lookup o.kind o.name).isSome then (⟨none, [o]⟩, s.replace o)
      else (⟨some "not found", []⟩, s) := by
  simp only [k8sStore]; split <;> simp [*]

/-- On the store, the excludes upsert succeeds whenever the builder does. -/
theorem UpsertExcludesConfigMap_store (i : Internal Store) (hc : i.clientset = k8sStore)
    (job : Job) (w : World Store) :
    ((UpsertExcludesConfigMap i job w).1, (UpsertExcludesConfigMap i job w).2.st) =
      match excludesConfigMap i job with
      | .error f => (some f, w.st)
      | .ok cm => (none, w.st.upsert (.configMap cm)) := by
  unfold UpsertExcludesConfigMap
  cases hb : excludesConfigMap i job with
  | error f => rfl
  | ok cm =>
    have hname := excludesConfigMap_name i job cm hb
    simp only [run_reply, hc, k8sStore_get_err]
    by_cases hl : (Store.lookup w.st Kind.ConfigMap (excludesConfigMapName job)).isSome = true
    · simp [hl, run_reply, run_st, k8sStore_get_st, k8sStore_update, Store.upsert, asFault,
        hname, Obj.kind, Obj.name]
    · simp [hl, run_reply, run_st, k8sStore_get_st, k8sStore_create, Store.upsert, asFault,
        hname, Obj.kind, Obj.name]

/-- On the store, the ingress part of `UpsertDeployment` acts as `ingressStore`. -/
theorem ingressPart_store (i : Internal Store) (hc : i.clientset = k8sStore)
    (job : Job) (svc : Service) (w : World Store) :
    ((UpsertDeployment.ingressPart i job svc w).1, (UpsertDeployment.ingressPart i job svc w).2.st)
      = ingressStore i job svc w.st := by
  unfold UpsertDeployment.ingressPart ingressStore
  cases hg : i.deps.getIngress job svc with
  | error e => rfl
  | ok ing =>
    simp only [run_reply, hc, k8sStore_get_err]
    by_cases hl : (Store.lookup w.st Kind.Ingress ing.Name).isSome = true
    · simp [hl, run_st, k8sStore_get_st, Store.ensure]
    · simp [hl, run_reply, run_st, k8sStore_get_st, k8sStore_create, Store.ensure, asFault,
        Obj.kind, Obj.name]

/-- On the store, the service part of `UpsertDeployment` acts as `serviceStore`. -/
theorem servicePart_store (i : Internal Store) (hc : i.clientset = k8sStore)
    (job : Job) (dep : Deployment) (w : World Store) :
    ((UpsertDeployment.servicePart i job dep w).1, (UpsertDeployment.servicePart i job dep w).2.st)
      = serviceStore i job dep w.st := by
  unfold UpsertDeployment.servicePart serviceStore
  cases hg : i.deps.getService job dep with
  | error e => rfl
  | ok svc =>
    simp only [run_reply, hc, k8sStore_get_err]
    by_cases hl : (Store.lookup w.st Kind.Service job.InvocationID).isSome = true
    · simp only [hl, if_true, Store.ensure]
      rw [← hc, ingressPart_store i hc]
      simp [run_st, hc, k8sStore_get_st]
    · simp only [hl, if_false, Store.ensure, Bool.false_eq_true]
      by_cases hl2 : (Store.lookup w.st Kind.Service svc.Name).isSome = true
      · simp [hl2, run_st, k8sStore_get_st, k8sStore_create, Obj.kind, Obj.name]
      · simp only [run_st, k8sStore_get_st, k8sStore_create, Obj.kind, Obj.name, hl2,
          if_false, Bool.false_eq_true]
        rw [← hc, ingressPart_store i hc]
        simp [run_st, hc, k8sStore_get_st, k8sStore_create, Obj.kind, Obj.name, hl2]

/-- On the store, the input-path-list upsert succeeds whenever the builder does. -/
theorem UpsertInputPathListConfigMap_store (i : Internal Store) (hc : i.clientset = k8sStore)
    (job : Job) (w : World Store) :
    ((UpsertInputPathListConfigMap i job w).1, (UpsertInputPathListConfigMap i job w).2.st) =
      match inputPathListConfigMap i job with
      | .error f => (some f, w.st)
      | .ok cm => (none, w.st.upsert (.configMap cm)) := by
  unfold UpsertInputPathListConfigMap
  cases hb : inputPathListConfigMap i job with
  | error f => rfl
  | ok cm =>
    have hname := inputPathListConfigMap_name i job cm hb
    simp only [run_reply, hc, k8sStore_get_err]
    by_cases hl : (Store.lookup w.st Kind.ConfigMap (inputPathListConfigMapName job)).isSome
        = true
    · simp [hl, run_reply, run_st, k8sStore_get_st, k8sStore_update, Store.upsert, asFault,
        hname, Obj.kind, Obj.name]
    · simp [hl, run_reply, run_st, k8sStore_get_st, k8sStore_create, Store.upsert, asFault,
        hname, Obj.kind, Obj.name]

/-- On the store, `UpsertDeployment` acts as `deploymentStore`. -/
theorem UpsertDeployment_store (i : Internal Store) (hc : i.clientset = k8sStore)
    (job : Job) (w : World Store) :
    ((UpsertDeployment i job w).1, (UpsertDeployment i job w).2.st)
      = deploymentStore i job w.st := by
  unfold UpsertDeployment deploymentStore
  cases hb : getDeployment i job with
  | error f => rfl
  | ok dep =>
    have hname := getDeployment_name i job dep hb
    simp only [run_reply, hc, k8sStore_get_err]
    by_cases hl : (Store.lookup w.st Kind.Deployment job.InvocationID).isSome = true
    · simp only [hl, if_true, k8sStore_update, run_st, k8sStore_get_st, Obj.kind, Obj.name,
        hname, Store.upsert]
      rw [← hc, servicePart_store i hc]
      simp [run_st, hc, k8sStore_get_st, k8sStore_update, Obj.kind, Obj.name, hname, hl]
    · simp only [hl, if_false, k8sStore_create, run_st, k8sStore_get_st, Obj.kind, Obj.name,
        hname, Store.upsert, Bool.false_eq_true]
      rw [← hc, servicePart_store i hc]
      simp [run_st, hc, k8sStore_get_st, k8sStore_create, Obj.kind, Obj.name, hname, hl]

/-! ## Theorems: stores -/

/-- Having a key means having that kind and that name. -/
theorem Obj.hasKey_iff (x : Obj) (k : Kind) (n : String) :
    x.hasKey k n = true ↔ x.kind = k ∧ x.name = n := by
  simp [Obj.hasKey]

/-- An object has its own key. -/
theorem Obj.hasKey_self (o : Obj) : o.hasKey o.kind o.name = true := by
  simp [Obj.hasKey]

/-- A lookup succeeds exactly when some stored object has the key. -/
theorem Store.lookup_isSome_iff (s : Store) (k : Kind) (n : String) :
    (s.lookup k n).isSome = true ↔ ∃ x ∈ s, x.hasKey k n = true := by
  simp [Store.lookup, List.find?_isSome]

/-- Appending keeps every successful lookup successful. -/
theorem Store.lookup_isSome_append (s : Store) (o : Obj) (k : Kind) (n : String)
    (h : (s.lookup k n).isSome = true) : ((s ++ [o]).lookup k n).isSome = true := by
  rw [Store.lookup_isSome_iff] at h ⊢
  obtain ⟨x, hx, hk⟩ := h
  exact ⟨x, List.mem_append.mpr (Or.inl hx), hk⟩

/-- A lookup of the key of a just appended object succeeds. -/
theorem Store.lookup_isSome_append_self (s : Store) (o : Obj) :
    ((s ++ [o]).lookup o.kind o.name).isSome = true := by
  rw [Store.lookup_isSome_iff]
  exact ⟨o, by simp, o.hasKey_self⟩

/-- Replacing keeps the keys of all stored objects. -/
theorem Store.lookup_isSome_replace (s : Store) (o : Obj) (k : Kind) (n : String)
    (h : (s.lookup k n).isSome = true) : ((s.replace o).lookup k n).isSome = true := by
  rw [Store.lookup_isSome_iff] at h ⊢
  obtain ⟨x, hx, hk⟩ := h
  by_cases hxo : x.hasKey o.kind o.name = true
  · refine ⟨o, List.mem_map.mpr ⟨x, hx, by simp [hxo]⟩, ?_⟩
    rw [Obj.hasKey_iff] at hxo hk ⊢
    exact ⟨hxo.1 ▸ hk.1, hxo.2 ▸ hk.2⟩
  · exact ⟨x, List.mem_map.mpr ⟨x, hx, by simp [hxo]⟩, hk⟩

/-- An upsert keeps every successful lookup successful. -/
theorem Store.lookup_isSome_upsert (s : Store) (o : Obj) (k : Kind) (n : String)
    (h : (s.lookup k n).isSome = true) : ((s.upsert o).lookup k n).isSome = true := by
  unfold Store.upsert
  split
  · exact s.lookup_isSome_replace o k n h
  · exact s.lookup_isSome_append o k n h

/-- After an upsert the store holds the object. -/
theorem Store.holds_upsert (s : Store) (o : Obj) : (s.upsert o).Holds o := by
  unfold Store.upsert Store.Holds
  by_cases h : (s.lookup o.kind o.name).isSome = true
  · simp only [h, if_true]
    obtain ⟨x, hx, hxk⟩ := (s.lookup_isSome_iff _ _).mp h
    constructor
    · rw [Store.lookup_isSome_iff]
      exact ⟨o, List.mem_map.mpr ⟨x, hx, by simp [hxk]⟩, o.hasKey_self⟩
    · intro y hy hyk
      obtain ⟨z, _, rfl⟩ := List.mem_map.mp hy
      by_cases hz : z.hasKey o.kind o.name = true
      · simp [hz]
      · simp only [hz, if_false, Bool.false_eq_true] at hyk ⊢
  · simp only [h, if_false, Bool.false_eq_true]
    constructor
    · exact s.lookup_isSome_append_self o
    · intro y hy hyk
      rcases List.mem_append.mp hy with hy | hy
      · exact absurd ((s.lookup_isSome_iff _ _).mpr ⟨y, hy, hyk⟩) h
      · simpa using hy

/-- Appending an object with another key keeps what the store holds. -/
theorem Store.Holds.append_other {s : Store} {o : Obj} (h : s.Holds o) (o' : Obj)
    (hk : o'.hasKey o.kind o.name = false) : Store.Holds (s ++ [o']) o := by
  refine ⟨s.lookup_isSome_append o' _ _ h.1, ?_⟩
  intro y hy hyk
  rcases List.mem_append.mp hy with hy | hy
  · exact h.2 y hy hyk
  · have : y = o' := by simpa using hy
    rw [this, hk] at hyk
    cases hyk

/-- Replacing an object with another key keeps what the store holds. -/
theorem Store.Holds.replace_other {s : Store} {o : Obj} (h : s.Holds o) (o' : Obj)
    (hk : o'.hasKey o.kind o.name = false) : Store.Holds (s.replace o') o := by
  refine ⟨s.lookup_isSome_replace o' _ _ h.1, ?_⟩
  intro y hy hyk
  obtain ⟨z, hz, rfl⟩ := List.mem_map.mp hy
  by_cases hzk : z.hasKey o'.kind o'.name = true
  · simp only [hzk, if_true] at hyk
    rw [hk] at hyk
    cases hyk
  · simp only [hzk, if_false, Bool.false_eq_true] at hyk ⊢
    exact h.2 z hz hyk

/-- Upserting an object with another key keeps what the store holds. -/
theorem Store.Holds.upsert_other {s : Store} {o : Obj} (h : s.Holds o) (o' : Obj)
    (hk : o'.hasKey o.kind o.name = false) : Store.Holds (s.upsert o') o := by
  unfold Store.upsert
  split
  · exact h.replace_other o' hk
  · exact h.append_other o' hk

/-- Upserting an object the store already holds changes nothing. -/
theorem Store.Holds.upsert_eq {s : Store} {o : Obj} (h : s.Holds o) : s.upsert o = s := by
  unfold Store.upsert
  simp only [h.1, if_true, Store.replace]
  conv_rhs => rw [← List.map_id s]
  apply List.map_congr_left
  intro x hx
  by_cases hxk : x.hasKey o.kind o.name = true
  · simp [hxk, h.2 x hx hxk]
  · simp [hxk]

/-- An ensure returns the store itself or the store with the object appended. -/
theorem Store.ensure_cases (s : Store) (k : Kind) (n : String) (o : Obj) (s' : Store)
    (h : s.ensure k n o = some s') :
    ((s.lookup k n).isSome = true ∧ s' = s) ∨
    ((s.lookup k n).isSome = false ∧ (s.lookup o.kind o.name).isSome = false ∧ s' = s ++ [o]) := by
  unfold Store.ensure at h
  by_cases h1 : (s.lookup k n).isSome = true
  · simp only [h1, if_true, Option.some.injEq] at h
    exact Or.inl ⟨h1, h.symm⟩
  · simp only [h1, if_false, Bool.false_eq_true] at h
    by_cases h2 : (s.lookup o.kind o.name).isSome = true
    · simp [h2] at h
    · simp only [h2, if_false, Bool.false_eq_true, Option.some.injEq] at h
      exact Or.inr ⟨by simpa using h1, by simpa using h2, h.symm⟩

/-- An ensure of a present key returns the store. -/
theorem Store.ensure_present (s : Store) (k : Kind) (n : String) (o : Obj)
    (h : (s.lookup k n).isSome = true) : s.ensure k n o = some s := by
  simp [Store.ensure, h]

/-! ### Counting -/

/-- Replacing does not change how many objects have a key. -/
theorem Store.countNamed_replace (s : Store) (o : Obj) (k : Kind) (n : String) :
    (s.replace o).countNamed k n = s.countNamed k n := by
  unfold Store.countNamed Store.replace
  rw [List.countP_map]
  apply List.countP_congr
  intro x _
  by_cases hx : x.hasKey o.kind o.name = true
  · have hx' := (x.hasKey_iff _ _).mp hx
    simp only [Function.comp, hx, if_true, Obj.hasKey_iff, hx'.1, hx'.2]
  · simp only [Function.comp, hx, if_false, Bool.false_eq_true]

/-- A key that no lookup finds is counted zero times. -/
theorem Store.countNamed_eq_zero (s : Store) (k : Kind) (n : String)
    (h : (s.lookup k n).isSome = false) : s.countNamed k n = 0 := by
  unfold Store.countNamed
  rw [List.countP_eq_zero]
  intro x hx hk
  have := (s.lookup_isSome_iff k n).mpr ⟨x, hx, hk⟩
  rw [h] at this
  cases this

/-- A key that a lookup finds is counted at least once. -/
theorem Store.countNamed_pos (s : Store) (k : Kind) (n : String)
    (h : (s.lookup k n).isSome = true) : 1 ≤ s.countNamed k n := by
  unfold Store.countNamed
  obtain ⟨x, hx, hk⟩ := (s.lookup_isSome_iff k n).mp h
  exact List.countP_pos_iff.mpr ⟨x, hx, hk⟩

/-- Appending an object under an absent key keeps the store keyed. -/
theorem Store.Keyed.append_absent {s : Store} (h : s.Keyed) (o : Obj)
    (ho : (s.lookup o.kind o.name).isSome = false) : Store.Keyed (s ++ [o]) := by
  intro k n
  unfold Store.countNamed
  rw [List.countP_append]
  by_cases hk : o.hasKey k n = true
  · obtain ⟨rfl, rfl⟩ := (o.hasKey_iff k n).mp hk
    have h0 := s.countNamed_eq_zero _ _ ho
    unfold Store.countNamed at h0
    simp [h0, List.countP_cons, hk]
  · have := h k n
    unfold Store.countNamed at this
    simp [List.countP_cons, hk]
    exact this

/-- An upsert keeps the store keyed. -/
theorem Store.Keyed.upsert_keyed {s : Store} (h : s.Keyed) (o : Obj) : Store.Keyed (s.upsert o) := by
  unfold Store.upsert
  by_cases hl : (s.lookup o.kind o.name).isSome = true
  · simp only [hl, if_true]
    intro k n
    rw [Store.countNamed_replace]
    exact h k n
  · simp only [hl, if_false, Bool.false_eq_true]
    exact h.append_absent o (by simpa using hl)

/-- An ensure keeps the store keyed. -/
theorem Store.Keyed.ensure_keyed {s : Store} (h : s.Keyed) (k : Kind) (n : String) (o : Obj)
    (s' : Store) (he : s.ensure k n o = some s') : s'.Keyed := by
  rcases s.ensure_cases k n o s' he with ⟨_, rfl⟩ | ⟨_, h2, rfl⟩
  · exact h
  · exact h.append_absent o h2

/-- An ensure keeps what the store holds under another key. -/
theorem Store.Holds.ensure_other {s : Store} {o : Obj} (h : s.Holds o) (k : Kind) (n : String)
    (o' : Obj) (s' : Store) (he : s.ensure k n o' = some s')
    (hk : o'.hasKey o.kind o.name = false) : s'.Holds o := by
  rcases s.ensure_cases k n o' s' he with ⟨_, rfl⟩ | ⟨_, _, rfl⟩
  · exact h
  · exact h.append_other o' hk

/-- An ensure keeps every successful lookup successful. -/
theorem Store.lookup_isSome_ensure (s : Store) (k : Kind) (n : String) (o : Obj) (s' : Store)
    (he : s.ensure k n o = some s') (k' : Kind) (n' : String)
    (h : (s.lookup k' n').isSome = true) : (s'.lookup k' n').isSome = true := by
  rcases s.ensure_cases k n o s' he with ⟨_, rfl⟩ | ⟨_, _, rfl⟩
  · exact h
  · exact s.lookup_isSome_append o k' n' h

/-- After an ensure of an object under its own key, the key is present. -/
theorem Store.lookup_isSome_of_ensure (s : Store) (o : Obj) (s' : Store)
    (he : s.ensure o.kind o.name o = some s') : (s'.lookup o.kind o.name).isSome = true := by
  rcases s.ensure_cases _ _ o s' he with ⟨h, rfl⟩ | ⟨_, _, rfl⟩
  · exact h
  · exact s.lookup_isSome_append_self o

/-- The two config maps of a job have different names. -/
theorem excludes_name_ne_input_name (job : Job) :
    excludesConfigMapName job ≠ inputPathListConfigMapName job := by
  intro h
  have hd := congrArg String.data h
  simp only [excludesConfigMapName, inputPathListConfigMapName, String.data_append] at hd
  have hh := congrArg List.head? hd
  simp at hh

/-- Objects of different kinds have different keys. -/
theorem Obj.hasKey_of_kind_ne (o : Obj) (k : Kind) (n : String) (h : o.kind ≠ k) :
    o.hasKey k n = false := by
  simp [Obj.hasKey, h]

/-- The store reached by a successful launch holds both config maps and the deployment
and stays keyed; when the service is named by the invocation id, it is also a fixed point
of the launch and holds a service under the invocation id. -/
theorem launchStore_idempotent {σ : Type} (i : Internal σ) (job : Job) (s0 s1 : Store)
    (hrun : launchStore i job s0 = (none, s1)) :
    ((∀ d svc, i.deps.getService job d = .ok svc → svc.Name = job.InvocationID) →
      launchStore i job s1 = (none, s1) ∧
      (s1.lookup .Service job.InvocationID).isSome = true) ∧
    (s1.lookup .ConfigMap (excludesConfigMapName job)).isSome = true ∧
    (s1.lookup .ConfigMap (inputPathListConfigMapName job)).isSome = true ∧
    (s1.lookup .Deployment job.InvocationID).isSome = true ∧
    (s0.Keyed → s1.Keyed) := by
  unfold launchStore at hrun
  cases hE : excludesConfigMap i job with
  | error f => simp [hE] at hrun
  | ok cmE =>
  cases hI : inputPathListConfigMap i job with
  | error f => simp [hE, hI] at hrun
  | ok cmI =>
  simp only [hE, hI, deploymentStore] at hrun
  cases hD : getDeployment i job with
  | error f => simp [hD] at hrun
  | ok dep =>
  simp only [hD, serviceStore] at hrun
  cases hS : i.deps.getService job dep with
  | error f => simp [hS] at hrun
  | ok svc =>
  simp only [hS] at hrun
  cases hes : Store.ensure (((s0.upsert (.configMap cmE)).upsert (.configMap cmI)).upsert
      (.deployment dep)) .Service job.InvocationID (.service svc) with
  | none => simp [hes] at hrun
  | some sd =>
  simp only [hes, ingressStore] at hrun
  cases hG : i.deps.getIngress job svc with
  | error f => simp [hG] at hrun
  | ok ing =>
  simp only [hG] at hrun
  cases heg : Store.ensure sd .Ingress ing.Name (.ingress ing) with
  | none => simp [heg] at hrun
  | some se =>
  simp only [heg, Prod.mk.injEq, true_and] at hrun
  subst hrun
  have hnE := excludesConfigMap_name i job cmE hE
  have hnI := inputPathListConfigMap_name i job cmI hI
  have hnD := getDeployment_name i job dep hD
  -- what the store holds
  have hHE : Store.Holds se (.configMap cmE) := by
    refine Store.Holds.ensure_other (Store.Holds.ensure_other (Store.Holds.upsert_other (Store.Holds.upsert_other
      (Store.holds_upsert s0 _) _ ?_) _ ?_) _ _ _ _ hes ?_) _ _ _ _ heg ?_
    · simp [Obj.hasKey, Obj.kind, Obj.name, hnE, hnI, (excludes_name_ne_input_name job).symm]
    · simp [Obj.hasKey, Obj.kind]
    · simp [Obj.hasKey, Obj.kind]
    · simp [Obj.hasKey, Obj.kind]
  have hHI : Store.Holds se (.configMap cmI) := by
    refine Store.Holds.ensure_other (Store.Holds.ensure_other (Store.Holds.upsert_other
      (Store.holds_upsert _ _) _ ?_) _ _ _ _ hes ?_) _ _ _ _ heg ?_
    · simp [Obj.hasKey, Obj.kind]
    · simp [Obj.hasKey, Obj.kind]
    · simp [Obj.hasKey, Obj.kind]
  have hHD : Store.Holds se (.deployment dep) := by
    refine Store.Holds.ensure_other (Store.Holds.ensure_other (Store.holds_upsert _ _)
      _ _ _ _ hes ?_) _ _ _ _ heg ?_
    · simp [Obj.hasKey, Obj.kind]
    · simp [Obj.hasKey, Obj.kind]
  have hPG : (se.lookup .Ingress ing.Name).isSome = true :=
    Store.lookup_isSome_of_ensure _ (.ingress ing) se (by simpa [Obj.kind, Obj.name] using heg)
  refine ⟨?_, ?_, ?_, ?_, ?_⟩
  · intro hsvc
    have hnS := hsvc dep svc hS
    have hPS : (se.lookup .Service job.InvocationID).isSome = true := by
      apply Store.lookup_isSome_ensure _ _ _ _ _ heg
      have := Store.lookup_isSome_of_ensure _ (.service svc) sd
        (by simpa [Obj.kind, Obj.name, hnS] using hes)
      simpa [Obj.kind, Obj.name, hnS] using this
    refine ⟨?_, hPS⟩
    unfold launchStore deploymentStore serviceStore ingressStore
    simp only [hE, hI, hD, hS, hG, hHE.upsert_eq, hHI.upsert_eq, hHD.upsert_eq,
      Store.ensure_present _ _ _ _ hPS, Store.ensure_present _ _ _ _ hPG]
  · simpa [Obj.kind, Obj.name, hnE] using hHE.1
  · simpa [Obj.kind, Obj.name, hnI] using hHI.1
  · simpa [Obj.kind, Obj.name, hnD] using hHD.1
  · intro hk
    exact Store.Keyed.ensure_keyed (Store.Keyed.ensure_keyed (((hk.upsert_keyed _).upsert_keyed _).upsert_keyed _)
      _ _ _ _ hes) _ _ _ _ heg

/-- A fault never yields the outcome of a handler that returned normally. -/
theorem serverError_ne_done (f : Fault) (body : String) : serverError f ≠ .done body := by
  cases f <;> simp [serverError]

/-- On the store, a launch whose request decodes to a valid job acts as `launchStore`. -/
theorem VICELaunchApp_store (i : Internal Store) (hc : i.clientset = k8sStore)
    (request : LaunchRequest) (buf : String) (job : Job) (w : World Store)
    (hbody : request.Body = .ok buf) (hjob : i.deps.jsonUnmarshal buf = .ok job)
    (hvalid : i.deps.validateJob job = none) :
    ((VICELaunchApp i request w).1 = .done "" ↔ (launchStore i job w.st).1 = none) ∧
    (VICELaunchApp i request w).2.st = (launchStore i job w.st).2 := by
  have hE := UpsertExcludesConfigMap_store i hc job w
  have hI := UpsertInputPathListConfigMap_store i hc job (UpsertExcludesConfigMap i job w).2
  have hD := UpsertDeployment_store i hc job
    (UpsertInputPathListConfigMap i job (UpsertExcludesConfigMap i job w).2).2
  unfold VICELaunchApp launchStore
  simp only [hbody, hjob, hvalid]
  cases hbE : excludesConfigMap i job with
  | error f =>
    simp only [hbE, Prod.mk.injEq] at hE
    simp [hE.1, hE.2, serverError_ne_done]
  | ok cmE =>
    simp only [hbE, Prod.mk.injEq] at hE
    simp only [hE.1]
    cases hbI : inputPathListConfigMap i job with
    | error f =>
      simp only [hbI, Prod.mk.injEq] at hI
      simp [hI.1, hI.2, hE.2, serverError_ne_done]
    | ok cmI =>
      simp only [hbI, Prod.mk.injEq] at hI
      simp only [hI.1]
      rw [hI.2, hE.2] at hD
      rw [← hD]
      cases hr : (UpsertDeployment i job
          (UpsertInputPathListConfigMap i job (UpsertExcludesConfigMap i job w).2).2).1 with
      | some f => simp [serverError_ne_done]
      | none => simp

/-- A launch that returned normally decoded its request into a job that passed validation. -/
theorem VICELaunchApp_done_valid {σ : Type} (i : Internal σ) (request : LaunchRequest)
    (buf : String) (job : Job) (w : World σ) (hbody : request.Body = .ok buf)
    (hjob : i.deps.jsonUnmarshal buf = .ok job) (body : String)
    (hrun : (VICELaunchApp i request w).1 = .done body) : i.deps.validateJob job = none := by
  unfold VICELaunchApp at hrun
  simp only [hbody, hjob] at hrun
  cases hv : i.deps.validateJob job with
  | none => rfl
  | some e => simp [hv] at hrun

/-! ### Objects of one kind -/

/-- Appending an object of another kind keeps the objects of a kind. -/
theorem Store.ofKind_append_other (s : Store) (o : Obj) (k : Kind) (h : o.kind ≠ k) :
    Store.ofKind (s ++ [o]) k = s.ofKind k := by
  simp [Store.ofKind, List.filter_append, h]

/-- Replacing an object of another kind keeps the objects of a kind. -/
theorem Store.ofKind_replace_other (s : Store) (o : Obj) (k : Kind) (h : o.kind ≠ k) :
    Store.ofKind (s.replace o) k = s.ofKind k := by
  induction s with
  | nil => rfl
  | cons x rest ih =>
    unfold Store.ofKind Store.replace at ih ⊢
    rw [List.map_cons, List.filter_cons, List.filter_cons, ih]
    by_cases hx : x.hasKey o.kind o.name = true
    · have hk : x.kind = o.kind := ((x.hasKey_iff _ _).mp hx).1
      have hxk : x.kind ≠ k := hk ▸ h
      simp [hx, h, hxk]
    · simp [hx]

/-- Upserting an object of another kind keeps the objects of a kind. -/
theorem Store.ofKind_upsert_other (s : Store) (o : Obj) (k : Kind) (h : o.kind ≠ k) :
    Store.ofKind (s.upsert o) k = s.ofKind k := by
  unfold Store.upsert
  split
  · exact s.ofKind_replace_other o k h
  · exact s.ofKind_append_other o k h

/-- An ensure of an object of another kind keeps the objects of a kind. -/
theorem Store.ofKind_ensure_other (s : Store) (k : Kind) (n : String) (o : Obj) (s' : Store)
    (he : s.ensure k n o = some s') (k' : Kind) (h : o.kind ≠ k') :
    s'.ofKind k' = s.ofKind k' := by
  rcases s.ensure_cases k n o s' he with ⟨_, rfl⟩ | ⟨_, _, rfl⟩
  · rfl
  · exact s.ofKind_append_other o k' h

/-- The ingress part changes no object of another kind, and no ingress either when the
ingress it builds is already stored under its name. -/
theorem ingressStore_ofKind {σ : Type} (i : Internal σ) (job : Job) (svc : Service)
    (s : Store) (k : Kind)
    (h : k ≠ .Ingress ∨ ∀ ing, i.deps.getIngress job svc = .ok ing →
      (s.lookup .Ingress ing.Name).isSome = true) :
    (ingressStore i job svc s).2.ofKind k = s.ofKind k := by
  unfold ingressStore
  cases hG : i.deps.getIngress job svc with
  | error e => rfl
  | ok ing =>
    dsimp only
    cases he : s.ensure .Ingress ing.Name (.ingress ing) with
    | none => rfl
    | some s' =>
      dsimp only
      rcases h with h | h
      · exact s.ofKind_ensure_other _ _ _ s' he k (by simpa [Obj.kind] using h.symm)
      · rw [Store.ensure_present _ _ _ _ (h ing hG)] at he
        cases he
        rfl

/-- The service part changes no deployment or config map, no service when one is stored
under the invocation id, and no ingress when the ingress it builds is already stored. -/
theorem serviceStore_ofKind {σ : Type} (i : Internal σ) (job : Job) (dep : Deployment)
    (s : Store) (k : Kind)
    (h : (k ≠ .Ingress ∧ k ≠ .Service) ∨
      (k = .Service ∧ (s.lookup .Service job.InvocationID).isSome = true) ∨
      (k = .Ingress ∧ ∀ svc ing, i.deps.getService job dep = .ok svc →
        i.deps.getIngress job svc = .ok ing → (s.lookup .Ingress ing.Name).isSome = true)) :
    (serviceStore i job dep s).2.ofKind k = s.ofKind k := by
  unfold serviceStore
  cases hS : i.deps.getService job dep with
  | error e => rfl
  | ok svc =>
    dsimp only
    cases he : s.ensure .Service job.InvocationID (.service svc) with
    | none => rfl
    | some s' =>
      dsimp only
      rcases h with ⟨h1, h2⟩ | ⟨rfl, h2⟩ | ⟨rfl, h2⟩
      · rw [ingressStore_ofKind i job svc s' k (Or.inl h1)]
        exact s.ofKind_ensure_other _ _ _ s' he k (by simpa [Obj.kind] using h2.symm)
      · rw [ingressStore_ofKind i job svc s' .Service (Or.inl (by decide))]
        rw [Store.ensure_present _ _ _ _ h2] at he
        cases he
        rfl
      · rw [ingressStore_ofKind i job svc s' .Ingress (Or.inr fun ing hG =>
          s.lookup_isSome_ensure _ _ _ s' he _ _ (h2 svc ing hS hG))]
        exact s.ofKind_ensure_other _ _ _ s' he .Ingress (by simp [Obj.kind])

/-- On the store, `UpsertDeployment` changes no service when one is stored under the
invocation id, and no ingress when the ingress it builds is already stored. -/
theorem deploymentStore_ofKind {σ : Type} (i : Internal σ) (job : Job) (s : Store) (k : Kind)
    (h : (k = .Service ∧ (s.lookup .Service job.InvocationID).isSome = true) ∨
      (k = .Ingress ∧ ∀ dep svc ing, getDeployment i job = .ok dep →
        i.deps.getService job dep = .ok svc →
        i.deps.getIngress job svc = .ok ing → (s.lookup .Ingress ing.Name).isSome = true)) :
    (deploymentStore i job s).2.ofKind k = s.ofKind k := by
  unfold deploymentStore
  cases hD : getDeployment i job with
  | error e => rfl
  | ok dep =>
    dsimp only
    rcases h with ⟨rfl, h2⟩ | ⟨rfl, h2⟩
    · rw [serviceStore_ofKind i job dep _ .Service
        (Or.inr (Or.inl ⟨rfl, Store.lookup_isSome_upsert _ _ _ _ h2⟩))]
      exact s.ofKind_upsert_other _ _ (by simp [Obj.kind])
    · rw [serviceStore_ofKind i job dep _ .Ingress
        (Or.inr (Or.inr ⟨rfl, fun svc ing hS hG =>
          Store.lookup_isSome_upsert _ _ _ _ (h2 dep svc ing hD hS hG)⟩))]
      exact s.ofKind_upsert_other _ _ (by simp [Obj.kind])

/-! ## Theorems: created once, idempotent launch -/

/-- C7: among the calls of `UpsertDeployment`, those to the service and ingress clients are
only Gets and Creates (never an Update or a Delete); when the get of a kind succeeds, the
get is the only call of that kind; a Create of a kind is issued only after its get
failed. On the store, a service already stored under the invocation id, and an ingress
already stored under the name of the built ingress, leave the stored services, respectively
ingresses, exactly as they were, whatever `getService` and `getIngress` compute. -/
theorem service_and_ingress_created_once {σ : Type} (i : Internal σ) (job : Job) (w : World σ) :
    (∀ ev ∈ eventsSince w (UpsertDeployment i job w).2,
      ev.call.kind = .Service ∨ ev.call.kind = .Ingress →
        (∃ n, ev.call = .Get ev.call.kind n) ∨ (∃ o, ev.call = .Create o)) ∧
    (∀ k, k = Kind.Service ∨ k = Kind.Ingress →
      (∃ n, (⟨.Get k n, none⟩ : Event) ∈ eventsSince w (UpsertDeployment i job w).2) →
      ∀ ev ∈ eventsSince w (UpsertDeployment i job w).2, ev.call.kind = k →
        ∃ n, ev.call = .Get k n) ∧
    (∀ k, k = Kind.Service ∨ k = Kind.Ingress →
      ∀ o r, o.kind = k → (⟨.Create o, r⟩ : Event) ∈ eventsSince w (UpsertDeployment i job w).2 →
        ∃ n e, (⟨.Get k n, some e⟩ : Event) ∈ eventsSince w (UpsertDeployment i job w).2) ∧
    (∀ (j : Internal Store) (v : World Store), j.clientset = k8sStore →
      ((v.st.lookup .Service job.InvocationID).isSome = true →
        (UpsertDeployment j job v).2.st.ofKind .Service = v.st.ofKind .Service) ∧
      ((∀ dep svc ing, getDeployment j job = .ok dep → j.deps.getService job dep = .ok svc →
          j.deps.getIngress job svc = .ok ing → (v.st.lookup .Ingress ing.Name).isSome = true) →
        (UpsertDeployment j job v).2.st.ofKind .Ingress = v.st.ofKind .Ingress)) := by
  obtain ⟨d, s, g, htr, hd, hs, hg⟩ := UpsertDeployment_trace i job w
  have hev : eventsSince w (UpsertDeployment i job w).2 = d ++ (s ++ g) := by
    simp [eventsSince, htr]
  rw [hev]
  have hsk := hs.kind_eq
  have hgk := hg.kind_eq
  have inS : ∀ ev ∈ d ++ (s ++ g), ev.call.kind = .Service → ev ∈ s := by
    intro ev hmem hk
    rcases List.mem_append.mp hmem with h | h
    · have := hd ev h; rw [hk] at this; cases this
    · rcases List.mem_append.mp h with h | h
      · exact h
      · have := hgk ev h; rw [hk] at this; cases this
  have inG : ∀ ev ∈ d ++ (s ++ g), ev.call.kind = .Ingress → ev ∈ g := by
    intro ev hmem hk
    rcases List.mem_append.mp hmem with h | h
    · have := hd ev h; rw [hk] at this; cases this
    · rcases List.mem_append.mp h with h | h
      · have := hsk ev h; rw [hk] at this; cases this
      · exact h
  have subS : ∀ ev ∈ s, ev ∈ d ++ (s ++ g) := fun ev h =>
    List.mem_append.mpr (Or.inr (List.mem_append.mpr (Or.inl h)))
  have subG : ∀ ev ∈ g, ev ∈ d ++ (s ++ g) := fun ev h =>
    List.mem_append.mpr (Or.inr (List.mem_append.mpr (Or.inr h)))
  refine ⟨?_, ?_, ?_, ?_⟩
  · rintro ev hmem (hk | hk)
    · rw [hk]; exact hs.facts.1 ev (inS ev hmem hk)
    · rw [hk]; exact hg.facts.1 ev (inG ev hmem hk)
  · rintro k (rfl | rfl) ⟨n, hn⟩ ev hmem hk
    · exact hs.facts.2.1 ⟨n, inS _ hn rfl⟩ ev (inS ev hmem hk)
    · exact hg.facts.2.1 ⟨n, inG _ hn rfl⟩ ev (inG ev hmem hk)
  · rintro k (rfl | rfl) o r hk hmem
    · obtain ⟨n, e, h⟩ := hs.facts.2.2 o r (inS _ hmem hk)
      exact ⟨n, e, subS _ h⟩
    · obtain ⟨n, e, h⟩ := hg.facts.2.2 o r (inG _ hmem hk)
      exact ⟨n, e, subG _ h⟩
  · intro j v hc
    have hst : (UpsertDeployment j job v).2.st = (deploymentStore j job v.st).2 :=
      congrArg Prod.snd (UpsertDeployment_store j hc job v)
    rw [hst]
    exact ⟨fun h => deploymentStore_ofKind j job v.st .Service (Or.inl ⟨rfl, h⟩),
      fun h => deploymentStore_ofKind j job v.st .Ingress (Or.inr ⟨rfl, h⟩)⟩

/-- C7 on a cluster that already has a service for the job, built from another spec: the
stored service stays as it was. -/
theorem service_and_ingress_created_once_witness :
    (UpsertDeployment exInternal exJob exWorldWithService).2.st.ofKind .Service
      = exWorldWithService.st.ofKind .Service :=
  ((service_and_ingress_created_once exInternal exJob exWorld).2.2.2
    exInternal exWorldWithService rfl).1 (by decide)

/-- C8 (amended): on a keyed store, when a launch succeeds and the service that
`getService` builds for the job is named by the invocation id, the name under which
`UpsertDeployment` gets the service, launching the same request again succeeds and leaves
the store as the first launch left it; that store has at most two config maps, exactly one
deployment, at most one service and at most one ingress under the names of the job. -/
theorem launch_twice_same_store (i : Internal Store) (request : LaunchRequest) (buf : String)
    (job : Job) (w : World Store) (hc : i.clientset = k8sStore)
    (hbody : request.Body = .ok buf) (hjob : i.deps.jsonUnmarshal buf = .ok job)
    (hsvc : ∀ d svc, i.deps.getService job d = .ok svc → svc.Name = job.InvocationID)
    (hkeyed : w.st.Keyed) (hrun : (VICELaunchApp i request w).1 = .done "") :
    (VICELaunchApp i request (VICELaunchApp i request w).2).1 = .done "" ∧
    (VICELaunchApp i request (VICELaunchApp i request w).2).2.st
      = (VICELaunchApp i request w).2.st ∧
    (VICELaunchApp i request w).2.st.countNamed .ConfigMap (excludesConfigMapName job)
      + (VICELaunchApp i request w).2.st.countNamed .ConfigMap (inputPathListConfigMapName job)
      ≤ 2 ∧
    (VICELaunchApp i request w).2.st.countNamed .Deployment job.InvocationID = 1 ∧
    (VICELaunchApp i request w).2.st.countNamed .Service job.InvocationID ≤ 1 ∧
    (∀ name, (VICELaunchApp i request w).2.st.countNamed .Ingress name ≤ 1) := by
  have hvalid := VICELaunchApp_done_valid i request buf job w hbody hjob "" hrun
  obtain ⟨h1, h2⟩ := VICELaunchApp_store i hc request buf job w hbody hjob hvalid
  obtain ⟨h3, h4⟩ := VICELaunchApp_store i hc request buf job (VICELaunchApp i request w).2
    hbody hjob hvalid
  have hpure : launchStore i job w.st = (none, (VICELaunchApp i request w).2.st) :=
    Prod.ext (h1.mp hrun) h2.symm
  obtain ⟨hfixS, _, _, hD, hK⟩ := launchStore_idempotent i job _ _ hpure
  obtain ⟨hfix, _⟩ := hfixS hsvc
  have hK1 := hK hkeyed
  refine ⟨h3.mpr (by rw [hfix]), by rw [h4, hfix], ?_, ?_, hK1 _ _, fun name => hK1 _ name⟩
  · have a := hK1 .ConfigMap (excludesConfigMapName job)
    have b := hK1 .ConfigMap (inputPathListConfigMapName job)
    omega
  · have a := hK1 .Deployment job.InvocationID
    have b := Store.countNamed_pos _ _ _ hD
    omega

/-- C8 (amended) on the empty cluster with the job of the end-to-end example. -/
theorem launch_twice_same_store_witness :
    (VICELaunchApp exInternal exRequest (VICELaunchApp exInternal exRequest exWorld).2).1
      = .done "" ∧
    (VICELaunchApp exInternal exRequest (VICELaunchApp exInternal exRequest exWorld).2).2.st
      = (VICELaunchApp exInternal exRequest exWorld).2.st ∧
    (VICELaunchApp exInternal exRequest exWorld).2.st.countNamed .ConfigMap
        (excludesConfigMapName exJob)
      + (VICELaunchApp exInternal exRequest exWorld).2.st.countNamed .ConfigMap
        (inputPathListConfigMapName exJob) ≤ 2 ∧
    (VICELaunchApp exInternal exRequest exWorld).2.st.countNamed .Deployment
      exJob.InvocationID = 1 ∧
    (VICELaunchApp exInternal exRequest exWorld).2.st.countNamed .Service
      exJob.InvocationID ≤ 1 ∧
    (∀ name, (VICELaunchApp exInternal exRequest exWorld).2.st.countNamed .Ingress name ≤ 1) :=
  launch_twice_same_store exInternal exRequest "abc123" exJob exWorld rfl rfl rfl
    (fun d svc h => by cases h; rfl) (fun _ _ => Nat.zero_le _) (by decide)

/-- C8 (counterexample): with a `getService` that names the service "vice-abc123", the launch
of the job "abc123" on the empty cluster succeeds and stores the service under that name;
the second launch of the same request gets the service by "abc123", does not find it,
creates it again, is refused, and answers 500. -/
theorem launch_twice_fails_when_service_named_otherwise :
    exWorld.st = [] ∧
    exViceNamedInternal.deps.jsonUnmarshal "abc123" = .ok exJob ∧
    (VICELaunchApp exViceNamedInternal exRequest exWorld).1 = .done "" ∧
    (VICELaunchApp exViceNamedInternal exRequest exWorld).2.st.countNamed .Service "vice-abc123"
      = 1 ∧
    (VICELaunchApp exViceNamedInternal exRequest exWorld).2.st.countNamed .Service "abc123"
      = 0 ∧
    (UpsertDeployment exViceNamedInternal exJob
        (VICELaunchApp exViceNamedInternal exRequest exWorld).2).1
      = some (.err "already exists") ∧
    (VICELaunchApp exViceNamedInternal exRequest
        (VICELaunchApp exViceNamedInternal exRequest exWorld).2).1
      = .httpError "already exists" 500 := by
  refine ⟨rfl, rfl, by decide, by decide, by decide, by decide, by decide⟩


/-! ## Theorems: what a launch creates, labels -/

/-- A successful excludes upsert extends the trace by calls that put the excludes config
map. -/
theorem UpsertExcludesConfigMap_puts {σ : Type} (i : Internal σ) (job : Job) (w : World σ)
    (h : (UpsertExcludesConfigMap i job w).1 = none) :
    ∃ seg, (UpsertExcludesConfigMap i job w).2.trace = w.trace ++ seg ∧
      putsConfigMap (excludesConfigMapName job) (seg.map Event.call) = true := by
  unfold UpsertExcludesConfigMap at h ⊢
  cases hb : excludesConfigMap i job with
  | error f => simp [hb] at h
  | ok cm =>
    have hname := excludesConfigMap_name i job cm hb
    dsimp only
    split
    · exact ⟨_, by rw [run_trace, run_trace, List.append_assoc],
        by simp [putsConfigMap, hname]⟩
    · exact ⟨_, by rw [run_trace, run_trace, List.append_assoc],
        by simp [putsConfigMap, hname]⟩

/-- A successful input-path-list upsert extends the trace by calls that put the
input-path-list config map. -/
theorem UpsertInputPathListConfigMap_puts {σ : Type} (i : Internal σ) (job : Job)
    (w : World σ) (h : (UpsertInputPathListConfigMap i job w).1 = none) :
    ∃ seg, (UpsertInputPathListConfigMap i job w).2.trace = w.trace ++ seg ∧
      putsConfigMap (inputPathListConfigMapName job) (seg.map Event.call) = true := by
  unfold UpsertInputPathListConfigMap at h ⊢
  cases hb : inputPathListConfigMap i job with
  | error f => simp [hb] at h
  | ok cm =>
    have hname := inputPathListConfigMap_name i job cm hb
    dsimp only
    split
    · exact ⟨_, by rw [run_trace, run_trace, List.append_assoc],
        by simp [putsConfigMap, hname]⟩
    · exact ⟨_, by rw [run_trace, run_trace, List.append_assoc],
        by simp [putsConfigMap, hname]⟩

/-- A launch that returned normally ran the three upserts, each without an error. -/
theorem VICELaunchApp_done_inv {σ : Type} (i : Internal σ) (request : LaunchRequest)
    (buf : String) (job : Job) (w : World σ) (hbody : request.Body = .ok buf)
    (hjob : i.deps.jsonUnmarshal buf = .ok job) (body : String)
    (hrun : (VICELaunchApp i request w).1 = .done body) :
    (UpsertExcludesConfigMap i job w).1 = none ∧
    (UpsertInputPathListConfigMap i job (UpsertExcludesConfigMap i job w).2).1 = none ∧
    (UpsertDeployment i job
      (UpsertInputPathListConfigMap i job (UpsertExcludesConfigMap i job w).2).2).1 = none ∧
    (VICELaunchApp i request w).2 = (UpsertDeployment i job
      (UpsertInputPathListConfigMap i job (UpsertExcludesConfigMap i job w).2).2).2 := by
  have hvalid := VICELaunchApp_done_valid i request buf job w hbody hjob body hrun
  unfold VICELaunchApp at hrun ⊢
  simp only [hbody, hjob, hvalid] at hrun ⊢
  cases h1 : (UpsertExcludesConfigMap i job w).1 with
  | some f => simp [h1, serverError_ne_done] at hrun
  | none =>
    simp only [h1] at hrun ⊢
    cases h2 : (UpsertInputPathListConfigMap i job (UpsertExcludesConfigMap i job w).2).1 with
    | some f => simp [h2, serverError_ne_done] at hrun
    | none =>
      simp only [h2] at hrun ⊢
      cases h3 : (UpsertDeployment i job
          (UpsertInputPathListConfigMap i job (UpsertExcludesConfigMap i job w).2).2).1 with
      | some f => simp [h3, serverError_ne_done] at hrun
      | none => simp

/-- C9 (amended): whenever a launch on the store returns normally, the job passed
validation, a Create or an Update was issued for the excludes config map and for the
input-path-list config map of the job, whatever the number of its un-ticketed inputs, and a
later get-by-name of the input-path-list config map succeeds. -/
theorem launch_puts_both_config_maps (i : Internal Store) (request : LaunchRequest)
    (buf : String) (job : Job) (w : World Store) (hc : i.clientset = k8sStore)
    (hbody : request.Body = .ok buf) (hjob : i.deps.jsonUnmarshal buf = .ok job)
    (hrun : (VICELaunchApp i request w).1 = .done "") :
    i.deps.validateJob job = none ∧
    putsConfigMap (excludesConfigMapName job)
      (callsSince w (VICELaunchApp i request w).2) = true ∧
    putsConfigMap (inputPathListConfigMapName job)
      (callsSince w (VICELaunchApp i request w).2) = true ∧
    (k8sStore.exec (.Get .ConfigMap (inputPathListConfigMapName job))
      (VICELaunchApp i request w).2.st).1.err = none := by
  have hvalid := VICELaunchApp_done_valid i request buf job w hbody hjob "" hrun
  obtain ⟨h1, h2, _, hw⟩ := VICELaunchApp_done_inv i request buf job w hbody hjob "" hrun
  obtain ⟨segE, htE, hpE⟩ := UpsertExcludesConfigMap_puts i job w h1
  obtain ⟨segI, htI, hpI⟩ := UpsertInputPathListConfigMap_puts i job _ h2
  obtain ⟨d, s, g, htD, _⟩ := UpsertDeployment_trace i job
    (UpsertInputPathListConfigMap i job (UpsertExcludesConfigMap i job w).2).2
  have hcalls : callsSince w (VICELaunchApp i request w).2
      = segE.map Event.call ++ (segI.map Event.call ++ (d ++ (s ++ g)).map Event.call) := by
    simp [callsSince, eventsSince, hw, htD, htI, htE]
  obtain ⟨hs1, hs2⟩ := VICELaunchApp_store i hc request buf job w hbody hjob hvalid
  have hpure : launchStore i job w.st = (none, (VICELaunchApp i request w).2.st) :=
    Prod.ext (hs1.mp hrun) hs2.symm
  obtain ⟨_, _, hI, _, _⟩ := launchStore_idempotent i job _ _ hpure
  refine ⟨hvalid, ?_, ?_, ?_⟩
  · rw [hcalls]
    unfold putsConfigMap at hpE ⊢
    rw [List.any_append, hpE, Bool.true_or]
  · rw [hcalls]
    unfold putsConfigMap at hpI ⊢
    rw [List.any_append, List.any_append, hpI, Bool.true_or, Bool.or_true]
  · rw [k8sStore_get_err, hI, if_pos rfl]

/-- C9 (amended) at the job of the end-to-end example, which has no un-ticketed input. -/
theorem launch_puts_both_config_maps_witness :
    exDeps.validateJob exJob = none ∧
    putsConfigMap (excludesConfigMapName exJob)
      (callsSince exWorld (VICELaunchApp exInternal exRequest exWorld).2) = true ∧
    putsConfigMap (inputPathListConfigMapName exJob)
      (callsSince exWorld (VICELaunchApp exInternal exRequest exWorld).2) = true ∧
    (k8sStore.exec (.Get .ConfigMap (inputPathListConfigMapName exJob))
      (VICELaunchApp exInternal exRequest exWorld).2.st).1.err = none :=
  launch_puts_both_config_maps exInternal exRequest "abc123" exJob exWorld rfl rfl rfl
    (by decide)

/-- C9 (counterexample): the job "abc123" is valid and has zero un-ticketed inputs; its
launch on the empty cluster returns normally, issues a Create for the config map
"input-path-list-abc123", and a later get-by-name of that config map succeeds. -/
theorem launch_without_inputs_creates_input_path_list :
    exDeps.validateJob exJob = none ∧
    exJob.FilterInputsWithoutTickets.length = 0 ∧
    exInternal.deps.jsonUnmarshal "abc123" = .ok exJob ∧
    (VICELaunchApp exInternal exRequest exWorld).1 = .done "" ∧
    putsConfigMap "input-path-list-abc123"
      (callsSince exWorld (VICELaunchApp exInternal exRequest exWorld).2) = true ∧
    (k8sStore.exec (.Get .ConfigMap "input-path-list-abc123")
      (VICELaunchApp exInternal exRequest exWorld).2.st).1.err = none := by
  refine ⟨by decide, by decide, rfl, by decide, by decide, by decide⟩

/-- The labels built for a job carry its invocation id and the interactive app type. -/
theorem labelsFromJob_lookup {σ : Type} (i : Internal σ) (job : Job)
    (labels : List (String × String)) (h : labelsFromJob i job = .ok labels) :
    mapLookup labels "external-id" = some job.InvocationID ∧
    mapLookup labels "app-type" = some "interactive" := by
  unfold labelsFromJob at h
  split at h
  · cases h
  · dsimp only at h
    split at h
    · cases h
    · cases h
      constructor
      · simp [mapLookup]
      · simp [mapLookup]

/-- The labels of the deployment and of its pod template are those of `labelsFromJob`, and
its selector is the invocation id. -/
theorem getDeployment_labels {σ : Type} (i : Internal σ) (job : Job) (dep : Deployment)
    (hb : getDeployment i job = .ok dep) :
    labelsFromJob i job = .ok dep.Labels ∧ dep.Spec.Template.Labels = dep.Labels ∧
    dep.Spec.Selector.MatchLabels = [("external-id", job.InvocationID)] := by
  unfold getDeployment at hb
  split at hb
  · cases hb
  · rename_i labels hl
    split at hb
    · cases hb
    · split at hb
      · cases hb
      · cases hb
        exact ⟨hl, rfl, rfl⟩

/-- C10: for every job whose builders succeed, the labels of the excludes config map, of
the input-path-list config map, of the deployment and of its pod template map
"external-id" to the invocation id and "app-type" to "interactive", and the selector of
the deployment is exactly the map from "external-id" to the invocation id. -/
theorem builders_label_with_external_id {σ : Type} (i : Internal σ) (job : Job)
    (excludesCM inputCM : ConfigMap) (dep : Deployment)
    (hE : excludesConfigMap i job = .ok excludesCM)
    (hI : inputPathListConfigMap i job = .ok inputCM)
    (hD : getDeployment i job = .ok dep) :
    (mapLookup excludesCM.Labels "external-id" = some job.InvocationID ∧
      mapLookup excludesCM.Labels "app-type" = some "interactive") ∧
    (mapLookup inputCM.Labels "external-id" = some job.InvocationID ∧
      mapLookup inputCM.Labels "app-type" = some "interactive") ∧
    (mapLookup dep.Labels "external-id" = some job.InvocationID ∧
      mapLookup dep.Labels "app-type" = some "interactive") ∧
    (mapLookup dep.Spec.Template.Labels "external-id" = some job.InvocationID ∧
      mapLookup dep.Spec.Template.Labels "app-type" = some "interactive") ∧
    dep.Spec.Selector.MatchLabels = [("external-id", job.InvocationID)] := by
  obtain ⟨hl, ht, hs⟩ := getDeployment_labels i job dep hD
  have hdep := labelsFromJob_lookup i job dep.Labels hl
  refine ⟨?_, ?_, hdep, ht ▸ hdep, hs⟩
  · unfold excludesConfigMap at hE
    split at hE
    · cases hE
    · rename_i labels hlab
      cases hE
      exact labelsFromJob_lookup i job labels hlab
  · unfold inputPathListConfigMap at hI
    split at hI
    · cases hI
    · rename_i labels hlab
      split at hI
      · cases hI
      · cases hI
        exact labelsFromJob_lookup i job labels hlab

/-- C10 at the job of the end-to-end example. -/
theorem builders_label_with_external_id_witness :
    ∃ excludesCM inputCM dep,
      excludesConfigMap exInternal exJob = .ok excludesCM ∧
      inputPathListConfigMap exInternal exJob = .ok inputCM ∧
      getDeployment exInternal exJob = .ok dep ∧
      (mapLookup excludesCM.Labels "external-id" = some "abc123" ∧
        mapLookup excludesCM.Labels "app-type" = some "interactive") ∧
      (mapLookup inputCM.Labels "external-id" = some "abc123" ∧
        mapLookup inputCM.Labels "app-type" = some "interactive") ∧
      (mapLookup dep.Labels "external-id" = some "abc123" ∧
        mapLookup dep.Labels "app-type" = some "interactive") ∧
      (mapLookup dep.Spec.Template.Labels "external-id" = some "abc123" ∧
        mapLookup dep.Spec.Template.Labels "app-type" = some "interactive") ∧
      dep.Spec.Selector.MatchLabels = [("external-id", "abc123")] :=
  ⟨_, _, _, rfl, rfl, rfl,
    builders_label_with_external_id exInternal exJob _ _ _ rfl rfl rfl⟩


/-! ## Theorems: the analysis-name label -/

/-- The label "analysis-name" is the slug of the cut of the name. -/
theorem labelsFromJob_analysis_name {σ : Type} (i : Internal σ) (job : Job) (cut : String)
    (labels : List (String × String))
    (hcut : sliceTo job.Name.data (stringmax job.Name.data) = .ok cut)
    (h : labelsFromJob i job = .ok labels) :
    mapLookup labels "analysis-name" = some (slugString i cut) := by
  unfold labelsFromJob at h
  split at h
  · cases h
  · dsimp only at h
    rw [hcut] at h
    cases h
    simp [mapLookup]

/-- When the user IP is found, `labelsFromJob` succeeds exactly when the cut does. -/
theorem labelsFromJob_ok_of_cut {σ : Type} (i : Internal σ) (job : Job) (cut ip : String)
    (hcut : sliceTo job.Name.data (stringmax job.Name.data) = .ok cut)
    (hip : i.deps.GetUserIP job.UserID = .ok ip) :
    ∃ labels, labelsFromJob i job = .ok labels := by
  unfold labelsFromJob
  simp only [hip, hcut]
  exact ⟨_, rfl⟩

/-- A name of 63 runes or more is cut to its first 62 runes. -/
theorem sliceTo_long (name : List Char) (hlen : 63 ≤ name.length) :
    sliceTo name (stringmax name) = .ok (String.mk (name.take 62)) := by
  have h1 : stringmax name = 62 := by simp [stringmax, hlen]
  rw [h1]
  unfold sliceTo
  have h2 : ¬ ((62 : Int) < 0 ∨ (62 : Int) > (name.length : Int)) := by omega
  rw [if_neg h2]
  rfl

/-- A non-empty name of fewer than 63 runes is cut to all its runes but the last. -/
theorem sliceTo_short (name : List Char) (h1 : 1 ≤ name.length) (h62 : name.length ≤ 62) :
    sliceTo name (stringmax name) = .ok (String.mk (name.take (name.length - 1))) := by
  have hs : stringmax name = (name.length : Int) - 1 := by
    unfold stringmax
    rw [if_neg (by omega)]
  rw [hs]
  unfold sliceTo
  have h2 : ¬ ((name.length : Int) - 1 < 0 ∨ (name.length : Int) - 1 > (name.length : Int)) := by
    omega
  rw [if_neg h2]
  have h3 : ((name.length : Int) - 1).toNat = name.length - 1 := by omega
  rw [h3]

/-- The empty name makes the slice panic. -/
theorem sliceTo_empty :
    stringmax [] = -1 ∧ sliceTo [] (stringmax []) = .error (.panic "slice bounds out of range") := by
  exact ⟨by decide, rfl⟩

/-- C11: for a job name of 63 runes or more, the text cut for the "analysis-name" label is
the first 62 runes of the name: the cut succeeds, it is a run of whole runes at the start
of the name (the name is the cut followed by the remaining runes), it has at most 63 runes,
and it is what the label's slug is made of; with the user IP found, `labelsFromJob`
returns. -/
theorem analysis_name_cut_keeps_whole_runes {σ : Type} (i : Internal σ) (job : Job)
    (hlen : 63 ≤ job.Name.data.length) :
    sliceTo job.Name.data (stringmax job.Name.data)
      = .ok (String.mk (job.Name.data.take 62)) ∧
    job.Name.data.take 62 <+: job.Name.data ∧
    String.mk (job.Name.data.take 62) ++ String.mk (job.Name.data.drop 62) = job.Name ∧
    (job.Name.data.take 62).length ≤ 63 ∧
    (∀ labels, labelsFromJob i job = .ok labels →
      mapLookup labels "analysis-name"
        = some (slugString i (String.mk (job.Name.data.take 62)))) ∧
    (∀ ip, i.deps.GetUserIP job.UserID = .ok ip → ∃ labels, labelsFromJob i job = .ok labels) := by
  have hcut := sliceTo_long job.Name.data hlen
  refine ⟨hcut, List.take_prefix _ _, ?_, ?_, ?_, ?_⟩
  · apply String.ext
    simp [String.data_append]
  · rw [List.length_take]
    omega
  · exact fun labels h => labelsFromJob_analysis_name i job _ labels hcut h
  · exact fun ip hip => labelsFromJob_ok_of_cut i job _ ip hcut hip

/-- C11 at a name of 64 runes with multi-byte characters. -/
theorem analysis_name_cut_keeps_whole_runes_witness :
    sliceTo exLongJob.Name.data (stringmax exLongJob.Name.data)
      = .ok (String.mk (exLongJob.Name.data.take 62)) ∧
    exLongJob.Name.data.take 62 <+: exLongJob.Name.data ∧
    String.mk (exLongJob.Name.data.take 62) ++ String.mk (exLongJob.Name.data.drop 62)
      = exLongJob.Name ∧
    (exLongJob.Name.data.take 62).length ≤ 63 ∧
    (∀ labels, labelsFromJob exInternal exLongJob = .ok labels →
      mapLookup labels "analysis-name"
        = some (slugString exInternal (String.mk (exLongJob.Name.data.take 62)))) ∧
    (∀ ip, exInternal.deps.GetUserIP exLongJob.UserID = .ok ip →
      ∃ labels, labelsFromJob exInternal exLongJob = .ok labels) :=
  analysis_name_cut_keeps_whole_runes exInternal exLongJob (by decide)

/-- C20: for a job name of n runes with 1 ≤ n ≤ 62, the text cut for the "analysis-name"
label is the first n-1 runes (the name without its last rune), and that is what the slug
of the label is made of; for the empty name the slice bound is -1, the slice panics and
`labelsFromJob` returns no labels; for a non-empty name and a user IP that is found it
returns labels. -/
theorem analysis_name_drops_last_rune {σ : Type} (i : Internal σ) (job : Job) :
    (1 ≤ job.Name.data.length → job.Name.data.length ≤ 62 →
      sliceTo job.Name.data (stringmax job.Name.data)
        = .ok (String.mk (job.Name.data.take (job.Name.data.length - 1))) ∧
      job.Name.data.take (job.Name.data.length - 1) = job.Name.data.dropLast ∧
      ∀ labels, labelsFromJob i job = .ok labels →
        mapLookup labels "analysis-name"
          = some (slugString i (String.mk (job.Name.data.take (job.Name.data.length - 1))))) ∧
    (job.Name.data = [] →
      stringmax job.Name.data = -1 ∧
      sliceTo job.Name.data (stringmax job.Name.data)
        = .error (.panic "slice bounds out of range") ∧
      ∀ labels, labelsFromJob i job ≠ .ok labels) ∧
    (job.Name.data ≠ [] → ∀ ip, i.deps.GetUserIP job.UserID = .ok ip →
      ∃ labels, labelsFromJob i job = .ok labels) := by
  refine ⟨?_, ?_, ?_⟩
  · intro h1 h62
    have hcut := sliceTo_short job.Name.data h1 h62
    exact ⟨hcut, (List.dropLast_eq_take _).symm,
      fun labels h => labelsFromJob_analysis_name i job _ labels hcut h⟩
  · intro hnil
    rw [hnil]
    refine ⟨sliceTo_empty.1, sliceTo_empty.2, ?_⟩
    intro labels h
    unfold labelsFromJob at h
    split at h
    · cases h
    · dsimp only at h
      rw [hnil, sliceTo_empty.2] at h
      cases h
  · intro hne ip hip
    have hpos : 1 ≤ job.Name.data.length := by
      cases hd : job.Name.data with
      | nil => exact absurd hd hne
      | cons c cs => simp
    by_cases h62 : job.Name.data.length ≤ 62
    · exact labelsFromJob_ok_of_cut i job _ ip (sliceTo_short _ hpos h62) hip
    · exact labelsFromJob_ok_of_cut i job _ ip (sliceTo_long _ (by omega)) hip

/-- C20 at the job named "blast": the label is made of "blas". -/
theorem analysis_name_drops_last_rune_witness :
    sliceTo exJob.Name.data (stringmax exJob.Name.data) = .ok "blas" ∧
    ∀ labels, labelsFromJob exInternal exJob = .ok labels →
      mapLookup labels "analysis-name" = some (slugString exInternal "blas") :=
  ⟨((analysis_name_drops_last_rune exInternal exJob).1 (by decide) (by decide)).1,
    ((analysis_name_drops_last_rune exInternal exJob).1 (by decide) (by decide)).2.2⟩

/-! ## Theorems: exit -/

/-- The delete loop issues one Delete per item, in order, whatever the Deletes return. -/
theorem deleteEach_trace {σ : Type} (c : Clientset σ) (k : Kind) (items : List Obj)
    (w : World σ) :
    ∃ dels, (VICEExit.deleteEach c k items w).trace = w.trace ++ dels ∧
      dels.map Event.call = items.map (fun o => Call.Delete k o.name) := by
  induction items generalizing w with
  | nil => exact ⟨[], by simp [VICEExit.deleteEach], rfl⟩
  | cons item rest ih =>
    obtain ⟨dels, ht, hc⟩ := ih (c.run (.Delete k item.name) w).2
    refine ⟨⟨.Delete k item.name, (c.exec (.Delete k item.name) w.st).1.err⟩ :: dels, ?_, ?_⟩
    · simp [VICEExit.deleteEach, ht, run_trace]
    · simp [hc]

/-- The calls of the delete loop. -/
theorem deleteEach_calls {σ : Type} (c : Clientset σ) (k : Kind) (items : List Obj)
    (w : World σ) :
    callsSince w (VICEExit.deleteEach c k items w) = items.map (fun o => Call.Delete k o.name) := by
  obtain ⟨dels, ht, hc⟩ := deleteEach_trace c k items w
  simp [callsSince, eventsSince, ht, hc]

/-- The calls of one stage: the list, then one Delete per listed item. -/
theorem exitStage_calls {σ : Type} (c : Clientset σ) (sel : List (String × String))
    (k : Kind) (w : World σ) :
    callsSince w (exitStage c sel k w)
      = .List k sel :: (c.exec (.List k sel) w.st).1.items.map (fun o => Call.Delete k o.name) := by
  obtain ⟨dels, ht, hc⟩ := deleteEach_trace c k (c.run (.List k sel) w).1.items
    (c.run (.List k sel) w).2
  rw [run_reply] at ht hc
  simp [callsSince, eventsSince, exitStage, run_reply, ht, hc, run_trace]

/-- `VICEExit` is the list-then-delete block over ingresses, services, deployments and
config maps. -/
theorem VICEExit_eq_exitKinds {σ : Type} (i : Internal σ) (request : Request) (w : World σ) :
    VICEExit i request w
      = exitKinds i.clientset (exitSelector request)
          [.Ingress, .Service, .Deployment, .ConfigMap] w := by
  rfl


/-- Every event of the delete loop is a Delete of the kind. -/
theorem deleteEach_events {σ : Type} (c : Clientset σ) (k : Kind) (items : List Obj)
    (w : World σ) :
    ∃ dels, (VICEExit.deleteEach c k items w).trace = w.trace ++ dels ∧
      ∀ ev ∈ dels, ∃ n, ev.call = .Delete k n := by
  obtain ⟨dels, ht, hc⟩ := deleteEach_trace c k items w
  refine ⟨dels, ht, fun ev hev => ?_⟩
  have : ev.call ∈ dels.map Event.call := List.mem_map.mpr ⟨ev, hev, rfl⟩
  rw [hc] at this
  obtain ⟨o, _, ho⟩ := List.mem_map.mp this
  exact ⟨o.name, ho.symm⟩

/-- The events and the outcome of the list-then-delete block over kinds that come in the
order of `Kind.exitOrder`. -/
theorem exitKinds_spec {σ : Type} (c : Clientset σ) (sel : List (String × String))
    (kinds : List Kind) (hsorted : kinds.Pairwise (fun a b => a.exitOrder < b.exitOrder))
    (w : World σ) :
    ∃ evs, (exitKinds c sel kinds w).2.trace = w.trace ++ evs ∧
      (∀ ev ∈ evs, ev.call.kind ∈ kinds) ∧
      (∀ ev ∈ evs, (∃ k, ev.call = .List k sel) ∨ (∃ k n, ev.call = .Delete k n)) ∧
      (((exitKinds c sel kinds w).1 = .done "" ∧
          ∀ k l e, (⟨.List k l, some e⟩ : Event) ∉ evs) ∨
        (∃ k e, (exitKinds c sel kinds w).1 = .httpError e 500 ∧
          (⟨.List k sel, some e⟩ : Event) ∈ evs)) ∧
      (∀ k l e, (⟨.List k l, some e⟩ : Event) ∈ evs →
        ∀ k' n r, (⟨.Delete k' n, r⟩ : Event) ∈ evs → k'.exitOrder < k.exitOrder) := by
  induction kinds generalizing w with
  | nil =>
    exact ⟨[], by simp [exitKinds], by simp, by simp, Or.inl ⟨rfl, by simp⟩, by simp⟩
  | cons k rest ih =>
    unfold exitKinds
    cases herr : (c.run (.List k sel) w).1.err with
    | some e =>
      rw [run_reply] at herr
      refine ⟨[⟨.List k sel, some e⟩], by simp [run_trace, herr], by simp [Call.kind],
        by simp, Or.inr ⟨k, e, rfl, by simp⟩, by simp⟩
    | none =>
      rw [run_reply] at herr
      dsimp only
      obtain ⟨dels, htd, hdels⟩ := deleteEach_events c k (c.run (.List k sel) w).1.items
        (c.run (.List k sel) w).2
      obtain ⟨evs, hte, hkinds, hshape, hout, hord⟩ :=
        ih (List.pairwise_cons.mp hsorted).2 (exitStage c sel k w)
      have hlt : ∀ k' ∈ rest, k.exitOrder < k'.exitOrder := (List.pairwise_cons.mp hsorted).1
      have hstage : (exitStage c sel k w).trace
          = w.trace ++ (⟨.List k sel, none⟩ :: dels) := by
        unfold exitStage
        rw [htd, run_trace, herr]
        simp
      refine ⟨(⟨.List k sel, none⟩ :: dels) ++ evs, ?_, ?_, ?_, ?_, ?_⟩
      · rw [hte, hstage, List.append_assoc]
      · intro ev hev
        rcases List.mem_append.mp hev with h | h
        · rcases List.mem_cons.mp h with rfl | h
          · simp [Call.kind]
          · obtain ⟨n, hn⟩ := hdels ev h
            simp [hn, Call.kind]
        · exact List.mem_cons_of_mem _ (hkinds ev h)
      · intro ev hev
        rcases List.mem_append.mp hev with h | h
        · rcases List.mem_cons.mp h with rfl | h
          · exact Or.inl ⟨k, rfl⟩
          · obtain ⟨n, hn⟩ := hdels ev h
            exact Or.inr ⟨k, n, hn⟩
        · exact hshape ev h
      · have hnone : ∀ k₁ l e, (⟨.List k₁ l, some e⟩ : Event) ∉ ⟨.List k sel, none⟩ :: dels := by
          intro k₁ l e h
          rcases List.mem_cons.mp h with h | h
          · cases h
          · obtain ⟨n, hn⟩ := hdels _ h
            cases hn
        rcases hout with ⟨hd, hno⟩ | ⟨k₁, e, he, hmem⟩
        · refine Or.inl ⟨hd, fun k₁ l e h => ?_⟩
          rcases List.mem_append.mp h with h | h
          · exact hnone k₁ l e h
          · exact hno k₁ l e h
        · exact Or.inr ⟨k₁, e, he, List.mem_append.mpr (Or.inr hmem)⟩
      · intro k₁ l e hfail k' n r hdel
        have hfail' : (⟨.List k₁ l, some e⟩ : Event) ∈ evs := by
          rcases List.mem_append.mp hfail with h | h
          · rcases List.mem_cons.mp h with h | h
            · cases h
            · obtain ⟨n', hn⟩ := hdels _ h
              cases hn
          · exact h
        rcases List.mem_append.mp hdel with h | h
        · have hk' : k' = k := by
            rcases List.mem_cons.mp h with h | h
            · cases h
            · obtain ⟨n', hn⟩ := hdels _ h
              cases hn
              rfl
          have hk₁ : k₁ ∈ rest := by simpa [Call.kind] using hkinds _ hfail'
          rw [hk']
          exact hlt k₁ hk₁
        · exact hord k₁ l e hfail' k' n r h


/-- C13: `VICEExit` ends either normally or with status 500; it writes an error exactly when
one of its list calls failed, whatever the Deletes returned; when the list of a kind fails,
every Delete issued was for a kind that comes strictly before it in the order ingresses,
services, deployments, config maps; and `VICEExit` issues nothing but Lists with the
selector of the id and Deletes. -/
theorem exit_writes_error_iff_a_list_fails {σ : Type} (i : Internal σ) (request : Request)
    (w : World σ) :
    ((VICEExit i request w).1 = .done "" ∨
      ∃ msg, (VICEExit i request w).1 = .httpError msg 500) ∧
    ((∃ msg code, (VICEExit i request w).1 = .httpError msg code) ↔
      ∃ k l e, (⟨.List k l, some e⟩ : Event) ∈ eventsSince w (VICEExit i request w).2) ∧
    (∀ k l e, (⟨.List k l, some e⟩ : Event) ∈ eventsSince w (VICEExit i request w).2 →
      ∀ k' n r, (⟨.Delete k' n, r⟩ : Event) ∈ eventsSince w (VICEExit i request w).2 →
        k'.exitOrder < k.exitOrder) ∧
    (∀ ev ∈ eventsSince w (VICEExit i request w).2,
      (∃ k, ev.call = .List k (exitSelector request)) ∨ (∃ k n, ev.call = .Delete k n)) := by
  rw [VICEExit_eq_exitKinds]
  obtain ⟨evs, ht, _, hshape, hout, hord⟩ := exitKinds_spec i.clientset (exitSelector request)
    [.Ingress, .Service, .Deployment, .ConfigMap] (by simp [Kind.exitOrder]) w
  have hev : eventsSince w (exitKinds i.clientset (exitSelector request)
      [.Ingress, .Service, .Deployment, .ConfigMap] w).2 = evs := by
    simp [eventsSince, ht]
  rw [hev]
  refine ⟨?_, ?_, hord, hshape⟩
  · rcases hout with ⟨hd, _⟩ | ⟨k, e, he, _⟩
    · exact Or.inl hd
    · exact Or.inr ⟨e, he⟩
  · rcases hout with ⟨hd, hno⟩ | ⟨k, e, he, hmem⟩
    · constructor
      · rintro ⟨msg, code, h⟩
        rw [hd] at h
        cases h
      · rintro ⟨k, l, e, h⟩
        exact absurd h (hno k l e)
    · exact ⟨fun _ => ⟨k, _, e, hmem⟩, fun _ => ⟨e, 500, he⟩⟩


/-! ### Exit on a store whose Deletes may be refused -/

/-- A list on the flaky store never fails and leaves the store as it is. -/
theorem flakyStore_list (r : Kind → String → Bool) (k : Kind) (sel : List (String × String))
    (s : Store) :
    ((flakyStore r).exec (.List k sel) s).1.err = none ∧
    ((flakyStore r).exec (.List k sel) s).2 = s ∧
    ((flakyStore r).exec (.List k sel) s).1.items
      = s.filter (fun o => decide (o.kind = k) && selects sel o.labels) := by
  simp [flakyStore, k8sStore]

/-- Filtering keeps an absent key absent. -/
theorem Store.lookup_filter_none (s : Store) (p : Obj → Bool) (k : Kind) (n : String)
    (h : s.lookup k n = none) : Store.lookup (s.filter p) k n = none := by
  unfold Store.lookup at h ⊢
  rw [List.find?_eq_none] at h ⊢
  intro x hx
  exact h x (List.mem_filter.mp hx).1

/-- Filtering out a key makes it absent. -/
theorem Store.lookup_filter_self (s : Store) (k : Kind) (n : String) :
    Store.lookup (s.filter fun o => !o.hasKey k n) k n = none := by
  unfold Store.lookup
  rw [List.find?_eq_none]
  intro x hx
  have := (List.mem_filter.mp hx).2
  simpa using this

/-- A Delete on the flaky store keeps absent keys absent, and a successful one makes its
key absent. -/
theorem flakyStore_delete (r : Kind → String → Bool) (k : Kind) (n : String) (s : Store) :
    (∀ k' n', s.lookup k' n' = none →
      Store.lookup ((flakyStore r).exec (.Delete k n) s).2 k' n' = none) ∧
    (((flakyStore r).exec (.Delete k n) s).1.err = none →
      Store.lookup ((flakyStore r).exec (.Delete k n) s).2 k n = none) := by
  simp only [flakyStore, k8sStore]
  by_cases hr : r k n = true
  · simp [hr]
  · simp only [hr, if_false, Bool.false_eq_true]
    cases hl : s.lookup k n with
    | none => simp [hl]
    | some o =>
      simp only []
      exact ⟨fun k' n' h => s.lookup_filter_none _ k' n' h, fun _ => s.lookup_filter_self k n⟩

/-- The delete loop on the flaky store keeps the keys of successful Deletes absent. -/
theorem deleteEach_gone (r : Kind → String → Bool) (k : Kind) (items : List Obj)
    (w : World Store) (evs : List Event) (h : DeletedGone evs w.st) :
    ∃ dels, (VICEExit.deleteEach (flakyStore r) k items w).trace = w.trace ++ dels ∧
      DeletedGone (evs ++ dels) (VICEExit.deleteEach (flakyStore r) k items w).st := by
  induction items generalizing w evs with
  | nil => exact ⟨[], by simp [VICEExit.deleteEach], by simpa [VICEExit.deleteEach] using h⟩
  | cons item rest ih =>
    have hstep : DeletedGone
        (evs ++ [⟨.Delete k item.name, ((flakyStore r).exec (.Delete k item.name) w.st).1.err⟩])
        ((flakyStore r).run (.Delete k item.name) w).2.st := by
      intro k' n' hmem
      rw [run_st]
      rcases List.mem_append.mp hmem with hm | hm
      · exact (flakyStore_delete r k item.name w.st).1 k' n' (h k' n' hm)
      · have heq := List.mem_singleton.mp hm
        injection heq with hcall herr
        injection hcall with hk hn
        subst hk hn
        exact (flakyStore_delete r k' item.name w.st).2 herr.symm
    obtain ⟨dels, ht, hg⟩ := ih ((flakyStore r).run (.Delete k item.name) w).2 _ hstep
    refine ⟨⟨.Delete k item.name, ((flakyStore r).exec (.Delete k item.name) w.st).1.err⟩
      :: dels, ?_, ?_⟩
    · simp [VICEExit.deleteEach, ht, run_trace]
    · simpa [VICEExit.deleteEach] using hg

/-- One stage on the flaky store keeps the keys of successful Deletes absent. -/
theorem exitStage_gone (r : Kind → String → Bool) (sel : List (String × String)) (k : Kind)
    (w : World Store) (evs : List Event) (h : DeletedGone evs w.st) :
    ∃ stage, (exitStage (flakyStore r) sel k w).trace = w.trace ++ stage ∧
      DeletedGone (evs ++ stage) (exitStage (flakyStore r) sel k w).st := by
  have hlist : DeletedGone (evs ++ [⟨.List k sel, none⟩])
      ((flakyStore r).run (.List k sel) w).2.st := by
    intro k' n' hmem
    rw [run_st, (flakyStore_list r k sel w.st).2.1]
    rcases List.mem_append.mp hmem with hm | hm
    · exact h k' n' hm
    · have heq := List.mem_singleton.mp hm
      injection heq with hcall _
      cases hcall
  obtain ⟨dels, ht, hg⟩ := deleteEach_gone r k ((flakyStore r).run (.List k sel) w).1.items
    ((flakyStore r).run (.List k sel) w).2 _ hlist
  refine ⟨⟨.List k sel, none⟩ :: dels, ?_, ?_⟩
  · unfold exitStage
    rw [ht, run_trace, (flakyStore_list r k sel w.st).1]
    simp
  · unfold exitStage
    simpa using hg

/-- The whole exit on the flaky store ends normally and keeps the keys of successful
Deletes absent. -/
theorem exitKinds_gone (r : Kind → String → Bool) (sel : List (String × String))
    (kinds : List Kind) (w : World Store) (evs : List Event) (h : DeletedGone evs w.st) :
    ∃ more, (exitKinds (flakyStore r) sel kinds w).2.trace = w.trace ++ more ∧
      DeletedGone (evs ++ more) (exitKinds (flakyStore r) sel kinds w).2.st ∧
      (exitKinds (flakyStore r) sel kinds w).1 = .done "" := by
  induction kinds generalizing w evs with
  | nil => exact ⟨[], by simp [exitKinds], by simpa [exitKinds] using h, rfl⟩
  | cons k rest ih =>
    obtain ⟨stage, hts, hgs⟩ := exitStage_gone r sel k w evs h
    obtain ⟨more, htm, hgm, hdone⟩ := ih (exitStage (flakyStore r) sel k w) _ hgs
    have herr : ((flakyStore r).run (.List k sel) w).1.err = none := by
      rw [run_reply]; exact (flakyStore_list r k sel w.st).1
    refine ⟨stage ++ more, ?_, ?_, ?_⟩
    · simp only [exitKinds, herr]
      rw [htm, hts, List.append_assoc]
    · simp only [exitKinds, herr]
      rw [← List.append_assoc]
      exact hgm
    · simp only [exitKinds, herr]
      exact hdone

/-- C12: the delete loop issues a Delete for every item, in order, whatever the earlier
Deletes returned; each stage of `VICEExit` is the list call followed by one Delete per
listed item; when the four list calls succeed, `VICEExit` is the four stages for ingresses,
services, deployments and config maps and ends normally. On a store whose Deletes may be
refused, every kind and name whose Delete succeeded is absent from the store afterwards,
hence from a later list with the selector of the id. -/
theorem exit_deletes_every_listed_item {σ : Type} (i : Internal σ) (request : Request)
    (w : World σ) :
    (∀ k items v, callsSince v (VICEExit.deleteEach i.clientset k items v)
      = items.map (fun o => Call.Delete k o.name)) ∧
    (∀ k v, callsSince v (exitStage i.clientset (exitSelector request) k v)
      = .List k (exitSelector request)
        :: (i.clientset.exec (.List k (exitSelector request)) v.st).1.items.map
            (fun o => Call.Delete k o.name)) ∧
    ((i.clientset.exec (.List .Ingress (exitSelector request)) w.st).1.err = none →
      (i.clientset.exec (.List .Service (exitSelector request))
        (exitStage i.clientset (exitSelector request) .Ingress w).st).1.err = none →
      (i.clientset.exec (.List .Deployment (exitSelector request))
        (exitStage i.clientset (exitSelector request) .Service
          (exitStage i.clientset (exitSelector request) .Ingress w)).st).1.err = none →
      (i.clientset.exec (.List .ConfigMap (exitSelector request))
        (exitStage i.clientset (exitSelector request) .Deployment
          (exitStage i.clientset (exitSelector request) .Service
            (exitStage i.clientset (exitSelector request) .Ingress w))).st).1.err = none →
      VICEExit i request w
        = (.done "", exitStage i.clientset (exitSelector request) .ConfigMap
            (exitStage i.clientset (exitSelector request) .Deployment
              (exitStage i.clientset (exitSelector request) .Service
                (exitStage i.clientset (exitSelector request) .Ingress w))))) ∧
    (∀ (r : Kind → String → Bool) (j : Internal Store) (v : World Store),
      j.clientset = flakyStore r →
      (VICEExit j request v).1 = .done "" ∧
      ∀ k n, (⟨.Delete k n, none⟩ : Event) ∈ eventsSince v (VICEExit j request v).2 →
        (VICEExit j request v).2.st.lookup k n = none ∧
        ∀ o ∈ ((flakyStore r).exec (.List k (exitSelector request))
            (VICEExit j request v).2.st).1.items, o.name ≠ n) := by
  refine ⟨fun k items v => deleteEach_calls _ k items v,
    fun k v => exitStage_calls _ _ k v, ?_, ?_⟩
  · intro h1 h2 h3 h4
    rw [VICEExit_eq_exitKinds]
    simp only [exitKinds, run_reply, h1, h2, h3, h4]
  · intro r j v hc
    rw [VICEExit_eq_exitKinds, hc]
    obtain ⟨more, ht, hg, hdone⟩ := exitKinds_gone r (exitSelector request)
      [.Ingress, .Service, .Deployment, .ConfigMap] v [] (by intro k n h; cases h)
    refine ⟨hdone, fun k n hmem => ?_⟩
    have hev : eventsSince v (exitKinds (flakyStore r) (exitSelector request)
        [.Ingress, .Service, .Deployment, .ConfigMap] v).2 = more := by
      simp [eventsSince, ht]
    rw [hev] at hmem
    have hlook := hg k n (by simpa using hmem)
    refine ⟨hlook, fun o ho hname => ?_⟩
    rw [(flakyStore_list r k _ _).2.2] at ho
    obtain ⟨hin, hp⟩ := List.mem_filter.mp ho
    have hk : o.kind = k := by
      simp only [Bool.and_eq_true, decide_eq_true_eq] at hp
      exact hp.1
    have hsome := (Store.lookup_isSome_iff _ k n).mpr ⟨o, hin, (o.hasKey_iff k n).mpr ⟨hk, hname⟩⟩
    rw [hlook] at hsome
    cases hsome

/-- C12 on the cluster left by a launch, with a store that refuses to delete services: the
excludes config map, whose Delete succeeded after the refused one, is gone. -/
theorem exit_deletes_every_listed_item_witness :
    (VICEExit exFlakyInternal exExitRequest exLaunchedWorld).2.st.lookup .ConfigMap
        "excludes-file-abc123" = none ∧
      ∀ o ∈ ((flakyStore fun k _ => decide (k = .Service)).exec
          (.List .ConfigMap (exitSelector exExitRequest))
          (VICEExit exFlakyInternal exExitRequest exLaunchedWorld).2.st).1.items,
        o.name ≠ "excludes-file-abc123" :=
  ((exit_deletes_every_listed_item exFlakyInternal exExitRequest exLaunchedWorld).2.2.2
    _ exFlakyInternal exLaunchedWorld rfl).2 .ConfigMap "excludes-file-abc123" (by decide)

/-- C13 on a cluster whose list of deployments fails: the handler writes an error. -/
theorem exit_writes_error_iff_a_list_fails_witness :
    ∃ msg code, (VICEExit exBrokenInternal exExitRequest exLaunchedWorld).1
      = .httpError msg code :=
  (exit_writes_error_iff_a_list_fails exBrokenInternal exExitRequest exLaunchedWorld).2.1.mpr
    ⟨.Deployment, exitSelector exExitRequest, "etcd timeout", by decide⟩

/-! ## Theorems: the deployment -/

/-- A step without ports has no analysis ports. -/
theorem analysisPorts_nil (step : Step) (h : step.Component.Container.Ports = []) :
    analysisPorts step = [] := by
  simp [analysisPorts, h]

/-- With a first step without ports, the proxy command, the containers and the deployment
are not built: the index `Ports[0]` is out of range. -/
theorem getDeployment_no_ports {σ : Type} (i : Internal σ) (job : Job) (step : Step)
    (rest : List Step) (hsteps : job.Steps = step :: rest)
    (hports : step.Component.Container.Ports = []) :
    (∀ cmd, viceProxyCommand i job ≠ .ok cmd) ∧
    (∀ cs, deploymentContainers i job ≠ .ok cs) ∧
    (∀ dep, getDeployment i job ≠ .ok dep) := by
  have h1 : ∀ cmd, viceProxyCommand i job ≠ .ok cmd := by
    intro cmd h
    unfold viceProxyCommand at h
    split at h
    · cases h
    · simp [firstStep, firstPort, hsteps, hports] at h
  have h2 : ∀ cs, deploymentContainers i job ≠ .ok cs := by
    intro cs h
    unfold deploymentContainers at h
    split at h
    · cases h
    · rename_i cmd hcmd
      exact h1 cmd hcmd
  refine ⟨h1, h2, ?_⟩
  intro dep h
  unfold getDeployment at h
  split at h
  · cases h
  · split at h
    · cases h
    · rename_i cs hcs
      exact h2 cs hcs

/-- C14 (failing input): the job "abc123" has one step, which declares no port; its
analysis port set is empty, but building the deployment stops with an index out of
range. -/
theorem getDeployment_panics_without_ports :
    exNoPortsJob.Steps.length = 1 ∧
    (∀ step ∈ exNoPortsJob.Steps, step.Component.Container.Ports = [] ∧ analysisPorts step = []) ∧
    viceProxyCommand exInternal exNoPortsJob
      = .error (.panic "index out of range [0] with length 0") ∧
    getDeployment exInternal exNoPortsJob
      = .error (.panic "index out of range [0] with length 0") := by
  refine ⟨rfl, by decide, rfl, rfl⟩

/-- C15: for a job whose first step has at least one port (and whose labels and front-end
URL are built), `getDeployment` returns a deployment with replica count 1 and exactly three
containers, the proxy sidecar, the file-transfer sidecar and the analysis container in that
order; `RunAsUser` and `RunAsGroup` of each container and `RunAsUser`, `RunAsGroup` and
`FSGroup` of the pod all equal the UID of the first step. -/
theorem getDeployment_three_containers_one_uid {σ : Type} (i : Internal σ) (job : Job)
    (step : Step) (rest : List Step) (p : Ports) (ps : List Ports)
    (labels : List (String × String)) (u : URL)
    (hsteps : job.Steps = step :: rest)
    (hports : step.Component.Container.Ports = p :: ps)
    (hlabels : labelsFromJob i job = .ok labels)
    (hurl : i.deps.urlParse i.FrontendBaseURL = .ok u) :
    ∃ dep proxyCommand, getDeployment i job = .ok dep ∧
      viceProxyCommand i job = .ok proxyCommand ∧
      dep.Spec.Replicas = some 1 ∧
      dep.Spec.Template.Spec.Containers.length = 3 ∧
      dep.Spec.Template.Spec.Containers.map (fun c => c.Name)
        = [i.consts.viceProxyContainerName, i.consts.fileTransfersContainerName,
           i.consts.analysisContainerName] ∧
      dep.Spec.Template.Spec.Containers.map (fun c => c.Command)
        = [proxyCommand, i.deps.fileTransferCommand job, analysisCommand step] ∧
      (∀ c ∈ dep.Spec.Template.Spec.Containers,
        c.SecurityContext.RunAsUser = some step.Component.Container.UID ∧
        c.SecurityContext.RunAsGroup = some step.Component.Container.UID) ∧
      dep.Spec.Template.Spec.SecurityContext.RunAsUser = some step.Component.Container.UID ∧
      dep.Spec.Template.Spec.SecurityContext.RunAsGroup = some step.Component.Container.UID ∧
      dep.Spec.Template.Spec.SecurityContext.FSGroup = some step.Component.Container.UID := by
  simp [getDeployment, deploymentContainers, viceProxyCommand, firstStep, firstPort, hsteps,
    hports, hlabels, hurl]

/-- C15 at the job of the end-to-end example, whose first step runs as UID 1000. -/
theorem getDeployment_three_containers_one_uid_witness :
    ∃ dep proxyCommand, getDeployment exInternal exJob = .ok dep ∧
      viceProxyCommand exInternal exJob = .ok proxyCommand ∧
      dep.Spec.Replicas = some 1 ∧
      dep.Spec.Template.Spec.Containers.length = 3 ∧
      dep.Spec.Template.Spec.Containers.map (fun c => c.Name)
        = [exInternal.consts.viceProxyContainerName,
           exInternal.consts.fileTransfersContainerName,
           exInternal.consts.analysisContainerName] ∧
      dep.Spec.Template.Spec.Containers.map (fun c => c.Command)
        = [proxyCommand, exInternal.deps.fileTransferCommand exJob,
           analysisCommand exStep] ∧
      (∀ c ∈ dep.Spec.Template.Spec.Containers,
        c.SecurityContext.RunAsUser = some 1000 ∧
        c.SecurityContext.RunAsGroup = some 1000) ∧
      dep.Spec.Template.Spec.SecurityContext.RunAsUser = some 1000 ∧
      dep.Spec.Template.Spec.SecurityContext.RunAsGroup = some 1000 ∧
      dep.Spec.Template.Spec.SecurityContext.FSGroup = some 1000 :=
  getDeployment_three_containers_one_uid exInternal exJob exStep [] ⟨8888⟩ [] _ _
    rfl rfl rfl rfl

/-- A job has an un-ticketed input exactly when `FilterInputsWithoutTickets` is not
empty. -/
theorem unticketed_iff (job : Job) :
    0 < job.FilterInputsWithoutTickets.length ↔ ∃ input ∈ job.Inputs, input.Ticket = "" := by
  unfold Job.FilterInputsWithoutTickets
  rw [List.length_pos_iff_exists_mem]
  constructor
  · rintro ⟨x, hx⟩
    have := List.mem_filter.mp hx
    exact ⟨x, this.1, by simpa using this.2⟩
  · rintro ⟨x, hx, ht⟩
    exact ⟨x, List.mem_filter.mpr ⟨hx, by simpa using ht⟩⟩

/-- C16: `deploymentVolumes` contains the input-path-list volume exactly when the job has an
un-ticketed input; then it is that volume followed by the scratch volume (emptyDir), the
secret-backed transfer-credentials volume and the excludes volume, otherwise it is these
three, in that order; the two config maps referenced are named "input-path-list-" and
"excludes-file-" followed by the invocation id. -/
theorem deploymentVolumes_contents {σ : Type} (i : Internal σ) (job : Job) :
    ((⟨i.consts.inputPathListVolumeName, .ConfigMap (inputPathListConfigMapName job)⟩ : Volume)
        ∈ deploymentVolumes i job ↔ ∃ input ∈ job.Inputs, input.Ticket = "") ∧
    ((∃ input ∈ job.Inputs, input.Ticket = "") →
      deploymentVolumes i job =
        [⟨i.consts.inputPathListVolumeName, .ConfigMap (inputPathListConfigMapName job)⟩,
         ⟨i.consts.fileTransfersVolumeName, .EmptyDir⟩,
         ⟨i.consts.porklockConfigVolumeName, .Secret i.consts.porklockConfigSecretName⟩,
         ⟨i.consts.excludesVolumeName, .ConfigMap (excludesConfigMapName job)⟩]) ∧
    ((¬ ∃ input ∈ job.Inputs, input.Ticket = "") →
      deploymentVolumes i job =
        [⟨i.consts.fileTransfersVolumeName, .EmptyDir⟩,
         ⟨i.consts.porklockConfigVolumeName, .Secret i.consts.porklockConfigSecretName⟩,
         ⟨i.consts.excludesVolumeName, .ConfigMap (excludesConfigMapName job)⟩]) ∧
    inputPathListConfigMapName job = "input-path-list-" ++ job.InvocationID ∧
    excludesConfigMapName job = "excludes-file-" ++ job.InvocationID := by
  have hyes : (∃ input ∈ job.Inputs, input.Ticket = "") →
      deploymentVolumes i job =
        [⟨i.consts.inputPathListVolumeName, .ConfigMap (inputPathListConfigMapName job)⟩,
         ⟨i.consts.fileTransfersVolumeName, .EmptyDir⟩,
         ⟨i.consts.porklockConfigVolumeName, .Secret i.consts.porklockConfigSecretName⟩,
         ⟨i.consts.excludesVolumeName, .ConfigMap (excludesConfigMapName job)⟩] := by
    intro h
    have h' := (unticketed_iff job).mpr h
    simp [deploymentVolumes, h']
  have hno : (¬ ∃ input ∈ job.Inputs, input.Ticket = "") →
      deploymentVolumes i job =
        [⟨i.consts.fileTransfersVolumeName, .EmptyDir⟩,
         ⟨i.consts.porklockConfigVolumeName, .Secret i.consts.porklockConfigSecretName⟩,
         ⟨i.consts.excludesVolumeName, .ConfigMap (excludesConfigMapName job)⟩] := by
    intro h
    have h' : ¬ 0 < job.FilterInputsWithoutTickets.length := fun hp =>
      h ((unticketed_iff job).mp hp)
    have h'' : job.FilterInputsWithoutTickets.length = 0 := by omega
    simp [deploymentVolumes, h'']
  refine ⟨?_, hyes, hno, rfl, rfl⟩
  by_cases h : ∃ input ∈ job.Inputs, input.Ticket = ""
  · rw [hyes h]
    simp [h]
  · rw [hno h]
    have hne := (excludes_name_ne_input_name job).symm
    simp [h, hne]

/-- C16 at a job with an un-ticketed input, which gets the input-path-list volume, and at
the job without inputs, which does not. -/
theorem deploymentVolumes_contents_witness :
    ((⟨exConsts.inputPathListVolumeName, .ConfigMap "input-path-list-abc123"⟩ : Volume)
        ∈ deploymentVolumes exInternal exInputsJob) ∧
    ((⟨exConsts.inputPathListVolumeName, .ConfigMap "input-path-list-abc123"⟩ : Volume)
        ∉ deploymentVolumes exInternal exJob) :=
  ⟨(deploymentVolumes_contents exInternal exInputsJob).1.mpr
      ⟨⟨"/iplant/home/ada/reads.fq", ""⟩, by decide, rfl⟩,
    fun h => by
      have := (deploymentVolumes_contents exInternal exJob).1.mp h
      revert this
      decide⟩

/-! ## Theorems: status by host -/

/-- A list on the store never fails, leaves the store as it is and returns the objects of
the kind that the selector selects. -/
theorem k8sStore_list (k : Kind) (sel : List (String × String)) (s : Store) :
    k8sStore.exec (.List k sel) s
      = (⟨none, s.filter fun o => decide (o.kind = k) && selects sel o.labels⟩, s) := rfl

/-- The selector of one label selects the objects that carry the label with that value. -/
theorem selects_one (key value : String) (labels : List (String × String)) :
    selects [(key, value)] labels = decide (mapLookup labels key = some value) := by
  simp [selects]

/-- On the store, `VICEStatus` answers from the first ingress with a rule for the host. -/
theorem VICEStatus_store (i : Internal Store) (hc : i.clientset = k8sStore)
    (request : Request) (w : World Store) :
    (VICEStatus i request w).1 =
      match (w.st.ofKind .Ingress).find? fun o =>
          o.rules.any fun rule => decide (rule.Host = mapIndex request.Vars "host") with
      | none =>
        .httpError ("no ingress found for host " ++ mapIndex request.Vars "host") 404
      | some g =>
        .done (readyBody
          (decide (0 < (w.st.filter fun o => decide (o.kind = .Service) &&
              decide (mapLookup o.labels "external-id" = some g.name)).length) &&
            (w.st.filter fun o => decide (o.kind = .Deployment) &&
              decide (mapLookup o.labels "external-id" = some g.name)).any
                fun dep => decide (0 < dep.readyReplicas))) := by
  unfold VICEStatus getIDFromHost
  simp only [run_reply, run_st, hc, k8sStore_list, selects_one]
  have hall : (w.st.filter fun o => decide (o.kind = Kind.Ingress) && selects [] o.labels)
      = w.st.ofKind .Ingress := by
    simp [Store.ofKind, selects]
  rw [hall]
  cases hf : (w.st.ofKind .Ingress).find? fun o =>
      o.rules.any fun rule => decide (rule.Host = mapIndex request.Vars "host") with
  | none => simp
  | some g => simp [run_st, k8sStore_list]

/-- C17: on the store, where every list succeeds, `VICEStatus` answers 404 with the message
"no ingress found for host" when no stored ingress has a rule whose `Host` is the requested
host; otherwise, with `g` the first stored ingress that has such a rule, it answers normally
with the body "ready":true in braces when some stored service carries the label external-id
with the value `g.Name` and some stored deployment carrying that label has
`Status.ReadyReplicas` above zero, and with the body "ready":false in braces when not. -/
theorem VICEStatus_ready_iff (i : Internal Store) (request : Request) (w : World Store)
    (hc : i.clientset = k8sStore) :
    ((∀ g, Obj.ingress g ∈ w.st →
        ∀ rule ∈ g.Rules, rule.Host ≠ mapIndex request.Vars "host") →
      (VICEStatus i request w).1
        = .httpError ("no ingress found for host " ++ mapIndex request.Vars "host") 404) ∧
    (∀ pre g post, w.st = pre ++ Obj.ingress g :: post →
      (∃ rule ∈ g.Rules, rule.Host = mapIndex request.Vars "host") →
      (∀ earlier, Obj.ingress earlier ∈ pre →
        ∀ rule ∈ earlier.Rules, rule.Host ≠ mapIndex request.Vars "host") →
      (((∃ svc, Obj.service svc ∈ w.st ∧ mapLookup svc.Labels "external-id" = some g.Name) ∧
          (∃ dep, Obj.deployment dep ∈ w.st ∧
            mapLookup dep.Labels "external-id" = some g.Name ∧ 0 < dep.Status.ReadyReplicas) →
        (VICEStatus i request w).1 = .done "\x7b\"ready\":true\x7d") ∧
      (¬((∃ svc, Obj.service svc ∈ w.st ∧ mapLookup svc.Labels "external-id" = some g.Name) ∧
          (∃ dep, Obj.deployment dep ∈ w.st ∧
            mapLookup dep.Labels "external-id" = some g.Name ∧ 0 < dep.Status.ReadyReplicas)) →
        (VICEStatus i request w).1 = .done "\x7b\"ready\":false\x7d"))) := by
  have hstore := VICEStatus_store i hc request w
  constructor
  · intro hno
    have hnone : ((w.st.ofKind .Ingress).find? fun o =>
        o.rules.any fun rule => decide (rule.Host = mapIndex request.Vars "host")) = none := by
      rw [List.find?_eq_none]
      intro o ho
      have hmem := List.mem_filter.mp ho
      simp only [List.any_eq_true, decide_eq_true_eq, not_exists, not_and]
      intro rule hr
      cases o with
      | ingress g => exact hno g hmem.1 rule hr
      | configMap c => cases hr
      | deployment d => cases hr
      | service s => cases hr
    rw [hnone] at hstore
    exact hstore
  · intro pre g post hw hrule hpre
    have hfind : ((w.st.ofKind .Ingress).find? fun o =>
        o.rules.any fun rule => decide (rule.Host = mapIndex request.Vars "host"))
          = some (.ingress g) := by
      have hnone : ((pre.filter fun o => decide (o.kind = Kind.Ingress)).find? fun o =>
          o.rules.any fun rule => decide (rule.Host = mapIndex request.Vars "host")) = none := by
        rw [List.find?_eq_none]
        intro o ho
        have hmem := List.mem_filter.mp ho
        simp only [List.any_eq_true, decide_eq_true_eq, not_exists, not_and]
        intro rule hr
        cases o with
        | ingress g => exact hpre g hmem.1 rule hr
        | configMap c => cases hr
        | deployment d => cases hr
        | service s => cases hr
      obtain ⟨rule, hr, hh⟩ := hrule
      have hany : ((Obj.ingress g).rules.any fun rule =>
          decide (rule.Host = mapIndex request.Vars "host")) = true :=
        List.any_eq_true.mpr ⟨rule, hr, by simpa using hh⟩
      unfold Store.ofKind
      rw [hw, List.filter_append, List.find?_append, hnone]
      simp [Obj.kind, hany]
    rw [hfind] at hstore
    dsimp only at hstore
    have hiff : (decide (0 < (w.st.filter fun o => decide (o.kind = .Service) &&
              decide (mapLookup o.labels "external-id" = some (Obj.ingress g).name)).length) &&
            (w.st.filter fun o => decide (o.kind = .Deployment) &&
              decide (mapLookup o.labels "external-id" = some (Obj.ingress g).name)).any
                fun dep => decide (0 < dep.readyReplicas)) = true ↔
        ((∃ svc, Obj.service svc ∈ w.st ∧ mapLookup svc.Labels "external-id" = some g.Name) ∧
          (∃ dep, Obj.deployment dep ∈ w.st ∧
            mapLookup dep.Labels "external-id" = some g.Name ∧ 0 < dep.Status.ReadyReplicas)) := by
      simp only [Bool.and_eq_true, decide_eq_true_eq, List.any_eq_true,
        List.length_pos_iff_exists_mem, List.mem_filter]
      constructor
      · rintro ⟨⟨svc, hs, hsk, hsl⟩, dep, ⟨hd, hdk, hdl⟩, hr⟩
        refine ⟨?_, ?_⟩
        · cases svc with
          | service s => exact ⟨s, hs, hsl⟩
          | configMap c => cases hsk
          | deployment d => cases hsk
          | ingress g => cases hsk
        · cases dep with
          | deployment d => exact ⟨d, hd, hdl, hr⟩
          | configMap c => cases hdk
          | service s => cases hdk
          | ingress g => cases hdk
      · rintro ⟨⟨svc, hs, hsl⟩, dep, hd, hdl, hr⟩
        exact ⟨⟨.service svc, hs, rfl, hsl⟩, .deployment dep, ⟨hd, rfl, hdl⟩, hr⟩
    constructor
    · intro hcond
      rw [hstore, hiff.mpr hcond]
      rfl
    · intro hcond
      rw [hstore]
      have hb := (not_congr hiff).mpr hcond
      rw [Bool.not_eq_true] at hb
      rw [hb]
      rfl

/-- C17 at the host of the analysis "abc123", whose ingress comes after the ingress of
another host: with one ready replica the answer is "ready":true, with none it is
"ready":false, and on the empty cluster it is 404. -/
theorem VICEStatus_ready_iff_witness :
    (VICEStatus exInternal exExitRequest (exStatusWorld 1)).1
      = .done "\x7b\"ready\":true\x7d" ∧
    (VICEStatus exInternal exExitRequest (exStatusWorld 0)).1
      = .done "\x7b\"ready\":false\x7d" ∧
    (VICEStatus exInternal exExitRequest exWorld).1
      = .httpError "no ingress found for host abc123.vice.example.org" 404 :=
  ⟨((VICEStatus_ready_iff exInternal exExitRequest (exStatusWorld 1) rfl).2
      [.ingress exOtherIngress] exAppIngress
      [.service exAppService, .deployment (exAppDeployment 1)] rfl
      ⟨⟨"abc123.vice.example.org"⟩, by decide, by decide⟩
      (fun earlier h rule hr => by
        simp only [List.mem_singleton, Obj.ingress.injEq] at h
        subst h
        simp only [exOtherIngress, List.mem_singleton] at hr
        subst hr
        decide)).1
      ⟨⟨exAppService, by decide, by decide⟩, exAppDeployment 1, by decide, by decide,
        by decide⟩,
    ((VICEStatus_ready_iff exInternal exExitRequest (exStatusWorld 0) rfl).2
      [.ingress exOtherIngress] exAppIngress
      [.service exAppService, .deployment (exAppDeployment 0)] rfl
      ⟨⟨"abc123.vice.example.org"⟩, by decide, by decide⟩
      (fun earlier h rule hr => by
        simp only [List.mem_singleton, Obj.ingress.injEq] at h
        subst h
        simp only [exOtherIngress, List.mem_singleton] at hr
        subst hr
        decide)).2
      (fun h => by
        obtain ⟨_, dep, hmem, _, hpos⟩ := h
        simp [exStatusWorld] at hmem
        subst hmem
        exact absurd hpos (by decide)),
    (VICEStatus_ready_iff exInternal exExitRequest exWorld rfl).1
      (fun g h => by cases h)⟩

/-! ## Theorems: save and exit, time limits -/

/-- The task of `VICESaveAndExit` runs `VICEExit` on the world the transfer left, whether
the transfer failed or not. -/
theorem saveAndExit_task_always_exits {σ : Type} (i : Internal σ) (t : Transfers σ)
    (request : Request) (w : World σ) :
    VICESaveAndExit.task i t request w
      = VICEExit i request (t.doFileTransfer request t.uploadBasePath t.uploadKind false w).2 := by
  unfold VICESaveAndExit.task
  split <;> rfl

/-- C18 (counterexample): the upload fails on the cluster left by a launch, and the task
still runs `VICEExit`: it lists the ingresses and deletes the listed one, and goes on until
the cluster is empty. -/
theorem saveAndExit_exits_after_failed_transfer :
    (exFailingTransfers.doFileTransfer exExitRequest exFailingTransfers.uploadBasePath
        exFailingTransfers.uploadKind false exLaunchedWorld).1 = some "upload failed" ∧
    VICESaveAndExit.task exInternal exFailingTransfers exExitRequest exLaunchedWorld
      = VICEExit exInternal exExitRequest exLaunchedWorld ∧
    (callsSince exLaunchedWorld
        (VICESaveAndExit.task exInternal exFailingTransfers exExitRequest exLaunchedWorld).2).take 2
      = [.List .Ingress [("external-id", "abc123")], .Delete .Ingress "abc123"] ∧
    exLaunchedWorld.st.length = 5 ∧
    (VICESaveAndExit.task exInternal exFailingTransfers exExitRequest exLaunchedWorld).2.st
      = [] := by
  refine ⟨rfl, saveAndExit_task_always_exits _ _ _ _, by decide, by decide, by decide⟩

/-- The first client call of `VICEExit` is the list of the ingresses labelled with the id,
whatever the cluster answers. -/
theorem VICEExit_first_call {σ : Type} (i : Internal σ) (request : Request) (w : World σ) :
    (callsSince w (VICEExit i request w).2).head?
      = some (.List .Ingress [("external-id", mapIndex request.Vars "id")]) := by
  rw [VICEExit_eq_exitKinds]
  unfold exitKinds
  cases herr : (i.clientset.run (.List .Ingress (exitSelector request)) w).1.err with
  | some e =>
    simp [callsSince, eventsSince, run_trace, exitSelector]
  | none =>
    dsimp only
    obtain ⟨evs, hte, -⟩ := exitKinds_spec i.clientset (exitSelector request)
      [.Service, .Deployment, .ConfigMap] (by simp [Kind.exitOrder])
      (exitStage i.clientset (exitSelector request) .Ingress w)
    obtain ⟨dels, htd, -⟩ := deleteEach_trace i.clientset .Ingress
      (i.clientset.run (.List .Ingress (exitSelector request)) w).1.items
      (i.clientset.run (.List .Ingress (exitSelector request)) w).2
    have hstage : (exitStage i.clientset (exitSelector request) .Ingress w).trace
        = w.trace ++ (⟨.List .Ingress (exitSelector request),
            (i.clientset.exec (.List .Ingress (exitSelector request)) w.st).1.err⟩ :: dels) := by
      unfold exitStage
      rw [htd, run_trace]
      simp
    unfold callsSince eventsSince
    rw [hte, hstage]
    simp [exitSelector]

/-- C18 (amended): in the task started by `VICESaveAndExit`, `VICEExit` is performed after
the output file transfer whether or not the transfer succeeded: for every run, also one in
which `doFileTransfer` returns an error, the task is `VICEExit` on the cluster the transfer
left, and the first client call it makes after the transfer is the list of the ingresses
labelled with the id, with which `VICEExit` begins. -/
theorem saveAndExit_exits_whatever_the_transfer {σ : Type} (i : Internal σ) (t : Transfers σ)
    (request : Request) (w : World σ) :
    VICESaveAndExit.task i t request w
      = VICEExit i request (t.doFileTransfer request t.uploadBasePath t.uploadKind false w).2 ∧
    (callsSince (t.doFileTransfer request t.uploadBasePath t.uploadKind false w).2
        (VICESaveAndExit.task i t request w).2).head?
      = some (.List .Ingress [("external-id", mapIndex request.Vars "id")]) := by
  have h := saveAndExit_task_always_exits i t request w
  exact ⟨h, by rw [h]; exact VICEExit_first_call i request _⟩

/-- C19 (counterexample): the request supplies the user and the analysis id, the user
lookup fails, and both handlers answer 400, not 500. -/
theorem time_limit_lookup_failure_answers_400 :
    queryLookup exExitRequest.Query "user" = some ["ada"] ∧
    mapLookup exExitRequest.Vars "analysis-id" = some "a-1" ∧
    exFailingDB.queryUserID (withUserDomain "ada") = .error "connection refused" ∧
    VICETimeLimitUpdate exFailingDB exExitRequest
      = .httpError
          "error looking user ID for ada@iplantcollaborative.org: connection refused" 400 ∧
    VICEGetTimeLimit exFailingDB exExitRequest
      = .httpError
          "error looking user ID for ada@iplantcollaborative.org: connection refused" 400 := by
  refine ⟨by decide, by decide, rfl, by decide, by decide⟩

/-- C19 (amended): for every request that supplies the user and the analysis id, a failure
of the user lookup makes both handlers answer 400, a failure of the planned-end-date update
makes `VICETimeLimitUpdate` answer 400, and a failure of the planned-end-date select makes
`VICEGetTimeLimit` answer 400. -/
theorem time_limit_query_failure_answers_400 (db : TimeLimitDB) (request : Request)
    (first : String) (others : List String) (id : String)
    (huser : queryLookup request.Query "user" = some (first :: others))
    (hid : mapLookup request.Vars "analysis-id" = some id) :
    (∀ e, db.queryUserID (withUserDomain first) = .error e →
      (∃ msg, VICETimeLimitUpdate db request = .httpError msg 400) ∧
      (∃ msg, VICEGetTimeLimit db request = .httpError msg 400)) ∧
    (∀ userID e, db.queryUserID (withUserDomain first) = .ok userID →
      db.queryUpdateTimeLimit userID id = .error e →
      ∃ msg, VICETimeLimitUpdate db request = .httpError msg 400) ∧
    (∀ userID e, db.queryUserID (withUserDomain first) = .ok userID →
      db.queryGetTimeLimit userID id = .error e →
      ∃ msg, VICEGetTimeLimit db request = .httpError msg 400) := by
  refine ⟨fun e he => ⟨?_, ?_⟩, fun userID e hu he => ?_, fun userID e hu he => ?_⟩
  · simp [VICETimeLimitUpdate, huser, hid, he]
  · simp [VICEGetTimeLimit, huser, hid, he]
  · simp [VICETimeLimitUpdate, huser, hid, hu, he]
  · simp [VICEGetTimeLimit, huser, hid, hu, he]

/-- C19 (amended) at a request of user "ada" for analysis "a-1" with a failing user
lookup. -/
theorem time_limit_query_failure_answers_400_witness :
    (∃ msg, VICETimeLimitUpdate exFailingDB exExitRequest = .httpError msg 400) ∧
    (∃ msg, VICEGetTimeLimit exFailingDB exExitRequest = .httpError msg 400) :=
  (time_limit_query_failure_answers_400 exFailingDB exExitRequest "ada" [] "a-1"
    (by decide) (by decide)).1 "connection refused" rfl

end AppExposer
